import Mathlib

/-!
Invoice ledger engine of `script.js`

A shallow embedding of the ledger engine of `src/script.js`: the data model
(`defaultState`, `createEmptyInvoice`), the totals calculator (`updateTotals`),
the status resolver (`updateStatus`), manual save (`saveCurrentInvoice`),
autosave (`saveDraft`), the monthly report (`renderRevenueChart`), the CSV
export (`escapeCsv`, `exportCsv`), import (`importStateFromFile`) and load
(`loadState`, `shareUrl`).

Conventions of the embedding.

* JavaScript numbers that carry money or percentages are rationals (`ℚ`):
  arithmetic is exact.  Timestamps (`Date.now()`, `getTime()`) are integers,
  in milliseconds since the epoch.
* The two module-level variables `state` and `currentInvoice`, together with
  the entry of `localStorage` under `STORAGE_KEY`, form a `Session`; every
  function that mutates them becomes a function `Session → Session`.
* What a function reads from the host (`Date.now()`, `crypto.randomUUID()`,
  `JSON.stringify`, `new Date(s).getTime()`) is an explicit argument.
* The DOM is not modelled: writes to it (`showToast`, `updatePreview`, the
  table renderers) have no effect on a `Session`.
* A field that a record may lack (`isDraft`, `savedAt`, `clientId === null`)
  is an `Option`.
* Import and load assign to `state` whatever `JSON.parse` returns: there the
  module state is a `RawSession` of `Json` documents, and a `Ledger` is the
  document `Ledger.toJson` gives.
-/

namespace InvoiceCraft

/-! ## Data model -/

/-- The `company` record of `defaultState`, copied into an invoice as `sender`. -/
structure Company where
  name : String
  address : String
  phone : String
  email : String
  logo : String
  deriving DecidableEq, Repr

/-- An element of `state.clients`. -/
structure Client where
  id : String
  name : String
  address : String
  phone : String
  email : String
  createdAt : Int
  lastUsed : Int
  deriving DecidableEq, Repr

/-- The `client` record embedded in an invoice.  It is either the four fields
typed into the form, or a spread copy `{ ...client }` of a stored client, which
also carries that client's `id`. -/
structure ClientSnapshot where
  id : Option String
  name : String
  address : String
  phone : String
  email : String
  deriving DecidableEq, Repr

/-- An element of `state.products`. -/
structure Product where
  id : String
  name : String
  description : String
  rate : ℚ
  createdAt : Int
  deriving DecidableEq, Repr

/-- An element of `invoice.lineItems`. -/
structure LineItem where
  id : String
  name : String
  description : String
  quantity : ℚ
  rate : ℚ
  total : ℚ
  deriving DecidableEq, Repr

/-- The `discount` record of an invoice; `type` is compared with `'percent'`. -/
structure Discount where
  type : String
  value : ℚ
  deriving DecidableEq, Repr

/-- The cached `totals` record of an invoice. -/
structure Totals where
  subtotal : ℚ
  discount : ℚ
  tax : ℚ
  total : ℚ
  deriving DecidableEq, Repr

/-- An invoice: the working invoice `currentInvoice` or an element of
`state.invoices`.  `isDraft` and `savedAt` are the two fields `saveDraft` adds. -/
structure Invoice where
  id : String
  number : String
  issueDate : String
  dueDate : String
  status : String
  sender : Company
  clientId : Option String
  client : ClientSnapshot
  lineItems : List LineItem
  discount : Discount
  taxRate : ℚ
  notes : String
  totals : Totals
  createdAt : Int
  updatedAt : Int
  isDraft : Option Bool
  savedAt : Option Int
  deriving DecidableEq, Repr

/-- The `settings.currency` record. -/
structure Currency where
  symbol : String
  code : String
  locale : String
  deriving DecidableEq, Repr

/-- The `settings` record of `defaultState`. -/
structure Settings where
  accent : String
  font : String
  currency : Currency
  theme : String
  autoSave : Bool
  footer : String
  deriving DecidableEq, Repr

/-- An element of `state.historyCache`, as built in `saveCurrentInvoice`. -/
structure HistoryEntry where
  invoiceId : String
  number : String
  client : String
  total : ℚ
  status : String
  dueDate : String
  updatedAt : Int
  deriving DecidableEq, Repr

/-- The module-level `state`: the whole ledger. -/
structure Ledger where
  lastInvoiceNumber : Int
  company : Company
  clients : List Client
  products : List Product
  invoices : List Invoice
  settings : Settings
  historyCache : List HistoryEntry
  deriving DecidableEq, Repr

/-- The mutable module state: `state`, `currentInvoice`, and the string stored
in `localStorage` under `STORAGE_KEY` (`none` when the key is absent). -/
structure Session where
  state : Ledger
  currentInvoice : Invoice
  storage : Option String
  deriving DecidableEq, Repr

/-- The ledger that `defaultState()` returns. -/
def defaultState : Ledger :=
  { lastInvoiceNumber := 1000
    company := { name := "", address := "", phone := "", email := "", logo := "" }
    clients := []
    products := []
    invoices := []
    settings :=
      { accent := "#6366f1"
        font := "'Inter', sans-serif"
        currency := { symbol := "$", code := "USD", locale := "en-US" }
        theme := "classic"
        autoSave := true
        footer := "Thank you for your business." }
    historyCache := [] }

/-- The invoice that `createEmptyInvoice()` returns, given what it reads from
the host: a fresh id, the two date strings (`today`, and `due`, 14 days later)
and the clock. -/
def createEmptyInvoice (state : Ledger) (uuid today due : String) (now : Int) : Invoice :=
  { id := uuid
    number := ""
    issueDate := today
    dueDate := due
    status := "draft"
    sender := state.company
    clientId := none
    client := { id := none, name := "", address := "", phone := "", email := "" }
    lineItems := []
    discount := { type := "flat", value := 0 }
    taxRate := 0
    notes := ""
    totals := { subtotal := 0, discount := 0, tax := 0, total := 0 }
    createdAt := now
    updatedAt := now
    isDraft := none
    savedAt := none }

/-! ## Totals calculator -/

/-- The expression `x || 0` on a number: `0` when `x` is falsy (zero), else `x`. -/
def orZero (x : ℚ) : ℚ := if x = 0 then 0 else x

/-- The line-item total set by the quantity and rate input handlers:
`item.total = item.quantity * item.rate`. -/
def LineItem.recompute (item : LineItem) : LineItem :=
  { item with total := item.quantity * item.rate }

/-- The `reduce` of `updateTotals`: the sum of `item.total || 0`, from `0`. -/
def subtotalOf (lineItems : List LineItem) : ℚ :=
  lineItems.foldl (fun acc item => acc + orZero item.total) 0

/-- The discount of `updateTotals` before clamping: a percentage of the
subtotal when the type is `'percent'`, otherwise the value itself. -/
def rawDiscount (subtotal : ℚ) (discount : Discount) : ℚ :=
  if discount.type = "percent" then subtotal * (discount.value / 100) else discount.value

/-- The local `taxable` of `updateTotals`. -/
def taxableOf (invoice : Invoice) : ℚ :=
  subtotalOf invoice.lineItems
    - min (rawDiscount (subtotalOf invoice.lineItems) invoice.discount) (subtotalOf invoice.lineItems)

/-- The record `updateTotals` assigns to `currentInvoice.totals`. -/
def computeTotals (invoice : Invoice) : Totals :=
  let subtotal := subtotalOf invoice.lineItems
  let discountValue := min (rawDiscount subtotal invoice.discount) subtotal
  let taxable := subtotal - discountValue
  let tax := taxable * (invoice.taxRate / 100)
  let total := taxable + tax
  { subtotal := subtotal, discount := discountValue, tax := tax, total := total }

/-- The function `updateTotals()`, as a function of the working invoice. -/
def updateTotals (currentInvoice : Invoice) : Invoice :=
  { currentInvoice with totals := computeTotals currentInvoice }

/-! ## Status resolver -/

/-- The value of a decimal digit character. -/
def digitVal (c : Char) : Option Nat :=
  if 48 ≤ c.toNat ∧ c.toNat ≤ 57 then some (c.toNat - 48) else none

/-- Whether a year of the proleptic Gregorian calendar is a leap year. -/
def isLeapYear (y : Nat) : Bool :=
  (y % 4 == 0 && y % 100 != 0) || y % 400 == 0

/-- The number of days of month `m` (1 to 12) of year `y`; `0` for no month. -/
def daysInMonth (y m : Nat) : Nat :=
  if m = 2 then (if isLeapYear y then 29 else 28)
  else if m = 4 ∨ m = 6 ∨ m = 9 ∨ m = 11 then 30
  else if 1 ≤ m ∧ m ≤ 12 then 31
  else 0

/-- The day number of the civil date `y-m-d`, counted from 1970-01-01. -/
def daysFromCivil (y m d : Nat) : Int :=
  let y1 : Int := if m ≤ 2 then (y : Int) - 1 else (y : Int)
  let era : Int := y1 / 400
  let yoe : Int := y1 % 400
  let mp : Int := if m ≤ 2 then (m : Int) + 9 else (m : Int) - 3
  let doy : Int := (153 * mp + 2) / 5 + (d : Int) - 1
  let doe : Int := yoe * 365 + yoe / 4 - yoe / 100 + doy
  era * 146097 + doe - 719468

/-- Milliseconds in a day. -/
def msPerDay : Int := 86400000

/-- The value of `new Date(s).getTime()` for a date-only string `YYYY-MM-DD`,
the form the date inputs and `toISOString().split('T')[0]` write: ECMAScript
reads a date-only string as midnight UTC of that date.  `none` stands for `NaN`
(`Invalid Date`); strings of any other form are not covered and give `none`.
The theorems on `updateStatus` hold for every `getTime`; this one serves the
concrete evaluations. -/
def isoDateGetTime (s : String) : Option Int :=
  match s.data with
  | [y1, y2, y3, y4, '-', m1, m2, '-', d1, d2] =>
    match digitVal y1, digitVal y2, digitVal y3, digitVal y4,
        digitVal m1, digitVal m2, digitVal d1, digitVal d2 with
    | some a, some b, some c, some d, some e, some f, some g, some h =>
      let y := a * 1000 + b * 100 + c * 10 + d
      let m := e * 10 + f
      let dd := g * 10 + h
      if 1 ≤ m ∧ m ≤ 12 ∧ 1 ≤ dd ∧ dd ≤ daysInMonth y m then
        some (daysFromCivil y m dd * msPerDay)
      else none
    | _, _, _, _, _, _, _, _ => none
  | _ => none

/-- Local midnight of a date, in milliseconds since the epoch, from its UTC
midnight and the zone offset `tzOffset` in minutes, signed as
`Date.prototype.getTimezoneOffset` gives it (UTC minus local time: `300` for
UTC-5, `-60` for UTC+1).  This is the reading of `dueDate` that the
specification gives; the code never computes it. -/
def localMidnight (tzOffset : Int) (utcMidnight : Int) : Int :=
  utcMidnight + tzOffset * 60000

/-- The comparison `Date.now() > dueDate.getTime()`, false when the time is `NaN`. -/
def nowAfter (now : Int) (due : Option Int) : Bool :=
  match due with
  | some t => decide (now > t)
  | none => false

/-- The function `updateStatus(invoice)`.  `getTime s` is `new Date(s).getTime()` (`none` for
`NaN`) and `now` is `Date.now()`. -/
def updateStatus (getTime : String → Option Int) (now : Int) (invoice : Invoice) : Invoice :=
  if invoice.status = "paid" then invoice
  else if invoice.status = "sent" ∧ nowAfter now (getTime invoice.dueDate) = true then
    { invoice with status := "overdue" }
  else invoice

/-- Repeated evaluation of `updateStatus` on one invoice, once at each of the
given clock readings, in order. -/
def updateStatusAt (getTime : String → Option Int) (times : List Int) (invoice : Invoice) :
    Invoice :=
  times.foldl (fun inv now => updateStatus getTime now inv) invoice

/-- One pass of `updateStatus` over the invoice list, as in
`state.invoices.map((invoice) => updateStatus(invoice))` and in the `forEach`
of `refreshDashboard`.  `clock i` is the reading of `Date.now()` made for the
record at position `i`. -/
def resolveAll (getTime : String → Option Int) (clock : Nat → Int) :
    List Invoice → List Invoice
  | [] => []
  | inv :: rest =>
    updateStatus getTime (clock 0) inv :: resolveAll getTime (fun i => clock (i + 1)) rest

/-! ## Persistence, manual save and autosave -/

/-- The truthiness of `inv.isDraft`. -/
def Invoice.draftFlag (inv : Invoice) : Bool := inv.isDraft == some true

/-- The truthiness of `currentInvoice.clientId`: a non-empty string. -/
def truthyId (clientId : Option String) : Bool :=
  match clientId with
  | some s => s != ""
  | none => false

/-- The function `persistState()`: writes `JSON.stringify(state)` under `STORAGE_KEY`. -/
def persistState (stringify : Ledger → String) (s : Session) : Session :=
  { s with storage := some (stringify s.state) }

/-- The filter of `saveCurrentInvoice` and `saveDraft`: drops every record that
is a draft and has the given id. -/
def dropDrafts (id : String) (invoices : List Invoice) : List Invoice :=
  invoices.filter (fun inv => !(inv.draftFlag && inv.id == id))

/-- The function `saveDraft()`; `now` is `Date.now()`.  The deep copy
`JSON.parse(JSON.stringify(currentInvoice))` is the invoice itself. -/
def saveDraft (stringify : Ledger → String) (now : Int) (s : Session) : Session :=
  if s.state.settings.autoSave = false then s
  else
    let draft : Invoice := { s.currentInvoice with isDraft := some true, savedAt := some now }
    let invoices := dropDrafts draft.id s.state.invoices ++ [draft]
    persistState stringify { s with state := { s.state with invoices := invoices } }

/-- An autosave tick after the user has edited the working invoice: the working
invoice becomes `edited`, then `saveDraft` runs at time `now`. -/
def autosaveTick (stringify : Ledger → String) (s : Session) (tick : Invoice × Int) : Session :=
  saveDraft stringify tick.2 { s with currentInvoice := tick.1 }

/-- A run of autosave ticks, in order. -/
def autosaveTicks (stringify : Ledger → String) (s : Session) (ticks : List (Invoice × Int)) :
    Session :=
  ticks.foldl (autosaveTick stringify) s

/-- What one call of `saveCurrentInvoice` reads from the host: the readings of
`Date.now()` for `updatedAt`, for `client.lastUsed`, and for the `createdAt`
and `lastUsed` of a new client; the `crypto.randomUUID()` of a new client; and
the clock readings of the two status passes that follow (`renderHistory`,
`refreshDashboard`). -/
structure SaveInputs where
  now : Int
  lastUsed : Int
  uuid : String
  clientCreatedAt : Int
  clientLastUsed : Int
  historyClock : Nat → Int
  dashboardClock : Nat → Int

/-- The assignment `state.invoices[existingIndex] = snapshot` when `findIndex`
finds a record with the snapshot's id, `state.invoices.push(snapshot)`
otherwise. -/
def upsertInvoice (snapshot : Invoice) (invoices : List Invoice) : List Invoice :=
  match invoices.findIdx? (fun inv => inv.id == snapshot.id) with
  | some i => invoices.set i snapshot
  | none => invoices ++ [snapshot]

/-- The first branch of the client update of `saveCurrentInvoice`: the stored
client with the given id (the first one, as `find` returns it) gets a new
`lastUsed`; without such a client nothing changes. -/
def touchFirst (id : String) (lastUsed : Int) : List Client → List Client
  | [] => []
  | c :: rest =>
    if c.id = id then { c with lastUsed := lastUsed } :: rest
    else c :: touchFirst id lastUsed rest

/-- The new client of `saveCurrentInvoice`, built as
`{ id: uuid, ...currentInvoice.client, createdAt, lastUsed }`: an `id` carried
by the client snapshot replaces the fresh one. -/
def newClientOf (inp : SaveInputs) (client : ClientSnapshot) : Client :=
  { id := client.id.getD inp.uuid
    name := client.name
    address := client.address
    phone := client.phone
    email := client.email
    createdAt := inp.clientCreatedAt
    lastUsed := inp.clientLastUsed }

/-- The history entry `saveCurrentInvoice` builds from the working invoice. -/
def historyEntryOf (cur : Invoice) : HistoryEntry :=
  { invoiceId := cur.id
    number := cur.number
    client := cur.client.name
    total := cur.totals.total
    status := cur.status
    dueDate := cur.dueDate
    updatedAt := cur.updatedAt }

/-- The update `state.historyCache.unshift(entry)` followed by `slice(0, 10)`. -/
def pushHistory (entry : HistoryEntry) (cache : List HistoryEntry) : List HistoryEntry :=
  (entry :: cache).take 10

/-- The status pass of `renderHistory()` on `state.invoices` (its `map` calls
`updateStatus`, which writes to the records of the list). -/
def renderHistory (getTime : String → Option Int) (clock : Nat → Int) (s : Session) : Session :=
  { s with state := { s.state with invoices := resolveAll getTime clock s.state.invoices } }

/-- The status pass of `refreshDashboard()` on `state.invoices`. -/
def refreshDashboard (getTime : String → Option Int) (clock : Nat → Int) (s : Session) :
    Session :=
  { s with state := { s.state with invoices := resolveAll getTime clock s.state.invoices } }

/-- The function `saveCurrentInvoice()`.  The deep copy
`JSON.parse(JSON.stringify(currentInvoice))` is the invoice itself. -/
def saveCurrentInvoice (stringify : Ledger → String) (getTime : String → Option Int)
    (inp : SaveInputs) (s : Session) : Session :=
  if s.currentInvoice.number = "" then s
  else
    let cur := updateTotals { s.currentInvoice with updatedAt := inp.now }
    let invoices := dropDrafts cur.id s.state.invoices
    let snapshot : Invoice := { cur with isDraft := none, savedAt := none }
    let invoices := upsertInvoice snapshot invoices
    let step : List Client × Invoice :=
      if truthyId cur.clientId then
        (touchFirst (cur.clientId.getD "") inp.lastUsed s.state.clients, cur)
      else if cur.client.name ≠ "" then
        let newClient := newClientOf inp cur.client
        (s.state.clients ++ [newClient], { cur with clientId := some newClient.id })
      else (s.state.clients, cur)
    let history := pushHistory (historyEntryOf step.2) s.state.historyCache
    let s1 : Session :=
      { s with
        state := { s.state with invoices := invoices, clients := step.1, historyCache := history }
        currentInvoice := step.2 }
    let s2 := persistState stringify s1
    let s3 := renderHistory getTime inp.historyClock s2
    refreshDashboard getTime inp.dashboardClock s3

/-- A manual save after the user has edited the working invoice: the working
invoice becomes `edited`, then `saveCurrentInvoice` runs. -/
def saveStep (stringify : Ledger → String) (getTime : String → Option Int) (s : Session)
    (step : SaveInputs × Invoice) : Session :=
  saveCurrentInvoice stringify getTime step.1 { s with currentInvoice := step.2 }

/-- A run of manual saves, in order. -/
def saveSteps (stringify : Ledger → String) (getTime : String → Option Int) (s : Session)
    (steps : List (SaveInputs × Invoice)) : Session :=
  steps.foldl (saveStep stringify getTime) s

/-- The history entry that a successful save of the (edited) working invoice
`cur` at time `inp.now` pushes: the entry of the invoice with `updatedAt` set
and totals recomputed. -/
def savedEntry (step : SaveInputs × Invoice) : HistoryEntry :=
  historyEntryOf (updateTotals { step.2 with updatedAt := step.1.now })

/-- The record a successful `saveCurrentInvoice` stores for the working invoice
`cur` at time `now`: the invoice with `updatedAt` set and totals recomputed,
without the fields `isDraft` and `savedAt`. -/
def savedSnapshot (now : Int) (cur : Invoice) : Invoice :=
  { updateTotals { cur with updatedAt := now } with isDraft := none, savedAt := none }

/-- What a status pass may do to a record: leave it as it is, or turn a `sent`
record into the same record with status `overdue`. -/
def StatusResolved (before after : Invoice) : Prop :=
  after = before ∨ (before.status = "sent" ∧ after = { before with status := "overdue" })

instance (before after : Invoice) : Decidable (StatusResolved before after) := by
  unfold StatusResolved
  infer_instance

/-- A Boolean test on invoices that a status pass cannot change. -/
def StatusBlind (p : Invoice → Bool) : Prop :=
  ∀ a b : Invoice, StatusResolved a b → p b = p a

/-! ## Aggregation reporter -/

/-- One point of the revenue chart: the month of the bucket, as `getFullYear()`
and `getMonth()` (0 to 11) give it, with the values pushed to `dataPaid` and
`dataOutstanding`. -/
structure Bucket where
  year : Int
  month : Int
  paid : ℚ
  outstanding : ℚ
  deriving DecidableEq, Repr

/-- The pair `(getFullYear(), getMonth())` of `new Date(year, month - i, 1)`:
the constructor carries a month outside 0 to 11 over into the year.  `year` is
the current year (1970 or later, so the two-digit-year rule of the constructor
does not apply) and `month` the current `getMonth()`. -/
def bucketDate (year month : Int) (i : Nat) : Int × Int :=
  (year + (month - (i : Int)) / 12, (month - (i : Int)) % 12)

/-- The filter `monthInvoices` of `renderRevenueChart`.  `localMonth s` is the
pair `(getFullYear(), getMonth())` of `new Date(s)`, in local time, and `none`
for an invalid date, which equals no month. -/
def monthInvoices (localMonth : String → Option (Int × Int)) (date : Int × Int)
    (invoices : List Invoice) : List Invoice :=
  invoices.filter (fun inv => localMonth inv.issueDate == some date)

/-- The `reduce` of `renderRevenueChart`: the sum of `inv.totals.total || 0`. -/
def sumTotals (invoices : List Invoice) : ℚ :=
  invoices.foldl (fun sum inv => sum + orZero inv.totals.total) 0

/-- The body of the loop of `renderRevenueChart` for one `i`. -/
def bucketOf (localMonth : String → Option (Int × Int)) (year month : Int)
    (invoices : List Invoice) (i : Nat) : Bucket :=
  let date := bucketDate year month i
  let inMonth := monthInvoices localMonth date invoices
  { year := date.1
    month := date.2
    paid := sumTotals (inMonth.filter (fun inv => inv.status == "paid"))
    outstanding := sumTotals (inMonth.filter (fun inv => inv.status != "paid")) }

/-- The bucket loop of `renderRevenueChart`, `for (let i = 5; i >= 0; i--)`, for
the current local year and month. -/
def renderRevenueChart (localMonth : String → Option (Int × Int)) (year month : Int)
    (invoices : List Invoice) : List Bucket :=
  [5, 4, 3, 2, 1, 0].map (bucketOf localMonth year month invoices)

/-- The civil date `(year, month, day)` of a day number counted from
1970-01-01, with the month from 1 to 12. -/
def civilFromDays (days : Int) : Int × Int × Int :=
  let z := days + 719468
  let era := z / 146097
  let doe := z % 146097
  let yoe := (doe - doe / 1460 + doe / 36524 - doe / 146096) / 365
  let doy := doe - (365 * yoe + yoe / 4 - yoe / 100)
  let mp := (5 * doy + 2) / 153
  let d := doy - (153 * mp + 2) / 5 + 1
  let m := if mp < 10 then mp + 3 else mp - 9
  let y := yoe + era * 400
  (if m ≤ 2 then y + 1 else y, m, d)

/-- The pair `(getFullYear(), getMonth())` of `new Date(s)` for a date-only
string, in a zone at the fixed offset `tzOffset` (minutes, signed as
`getTimezoneOffset` gives it): the instant is midnight UTC of the date, read in
local time. -/
def zoneLocalMonth (tzOffset : Int) (s : String) : Option (Int × Int) :=
  match isoDateGetTime s with
  | some t =>
    let civil := civilFromDays ((t - tzOffset * 60000) / msPerDay)
    some (civil.1, civil.2.1 - 1)
  | none => none

/-- The year and month (0 to 11) written in a date-only string `YYYY-MM-DD`:
the calendar month an issue date falls in, as the specification reads it. -/
def calendarMonth (s : String) : Option (Int × Int) :=
  match s.data with
  | [y1, y2, y3, y4, '-', m1, m2, '-', _, _] =>
    match digitVal y1, digitVal y2, digitVal y3, digitVal y4, digitVal m1, digitVal m2 with
    | some a, some b, some c, some d, some e, some f =>
      some (((a * 1000 + b * 100 + c * 10 + d : Nat) : Int), ((e * 10 + f : Nat) : Int) - 1)
    | _, _, _, _, _, _ => none
  | _ => none

/-! ## CSV export -/

/-- A value handed to `escapeCsv`: `null` or `undefined`, a string, or a number. -/
inductive CsvValue where
  | absent
  | text (s : String)
  | number (q : ℚ)
  deriving DecidableEq, Repr

/-- The conversion `String(value)` of `escapeCsv`; `numToString` is the host's
conversion of a number to a string. -/
def csvString (numToString : ℚ → String) : CsvValue → String
  | CsvValue.absent => ""
  | CsvValue.text s => s
  | CsvValue.number q => numToString q

/-- The replacement `str.replace(/"/g, '""')`, on the characters of the string. -/
def doubleQuotes : List Char → List Char
  | [] => []
  | c :: cs => if c = '"' then '"' :: '"' :: doubleQuotes cs else c :: doubleQuotes cs

/-- The test of `escapeCsv`: the string includes a comma, a double quote or a
newline. -/
def needsQuoting (str : String) : Bool :=
  str.data.contains ',' || str.data.contains '"' || str.data.contains '\n'

/-- The function `escapeCsv(value)`. -/
def escapeCsv (numToString : ℚ → String) (value : CsvValue) : String :=
  match value with
  | CsvValue.absent => ""
  | value =>
    let str := csvString numToString value
    if needsQuoting str then "\"" ++ String.mk (doubleQuotes str.data) ++ "\"" else str

/-- The row `exportCsv` builds for a line item. -/
def csvRow (item : LineItem) : List CsvValue :=
  [CsvValue.text item.name, CsvValue.text item.description, CsvValue.number item.quantity,
    CsvValue.number item.rate, CsvValue.number item.total]

/-- The records of the CSV text of `exportCsv`: `headers.join(',')`, then for each
row `row.map(escapeCsv).join(',')`. -/
def csvRecords (numToString : ℚ → String) (lineItems : List LineItem) : List String :=
  String.intercalate "," ["Item", "Description", "Quantity", "Rate", "Total"]
    :: (lineItems.map csvRow).map
        (fun row => String.intercalate "," (row.map (escapeCsv numToString)))

/-- The text `exportCsv()` hands to `downloadBlob`: the records joined by
newlines. -/
def exportCsv (numToString : ℚ → String) (currentInvoice : Invoice) : String :=
  String.intercalate "\n" (csvRecords numToString currentInvoice.lineItems)

/-- A reader of the body of a quoted CSV field: a doubled quote stands for one
quote, a single quote is not allowed. -/
def readQuoted : List Char → Option (List Char)
  | [] => some []
  | c :: cs =>
    if c = '"' then
      match cs with
      | d :: rest => if d = '"' then (readQuoted rest).map (fun out => '"' :: out) else none
      | [] => none
    else (readQuoted cs).map (fun out => c :: out)

/-! ## JSON documents -/

/-- A value that `JSON.parse` returns.  An object lists each of its keys once. -/
inductive Json where
  | null
  | bool (b : Bool)
  | num (q : ℚ)
  | str (s : String)
  | arr (items : List Json)
  | obj (fields : List (String × Json))

/-- The read `value.key` on a value that is not `null`: `none` stands for
`undefined`.  Only objects have the keys this program reads. -/
def Json.field (key : String) : Json → Option Json
  | Json.obj fields => (fields.find? (fun kv => kv.1 == key)).map (fun kv => kv.2)
  | _ => none

/-- The truthiness of the result of a read. -/
def Json.truthy : Option Json → Bool
  | none => false
  | some Json.null => false
  | some (Json.bool b) => b
  | some (Json.num q) => q != 0
  | some (Json.str s) => s != ""
  | some (Json.arr _) => true
  | some (Json.obj _) => true

/-- Whether a value is `null`. -/
def Json.isNull : Json → Bool
  | Json.null => true
  | _ => false

/-- The assignment `value.key = v` on an object: the key is overwritten or
added.  On a string, number or boolean the assignment does nothing (the script
is not in strict mode); an array would carry the new property beside its items,
which `Json` does not show, and is returned as it is. -/
def Json.setField (key : String) (v : Json) : Json → Json
  | Json.obj fields =>
    if fields.any (fun kv => kv.1 == key) then
      Json.obj (fields.map (fun kv => if kv.1 == key then (kv.1, v) else kv))
    else Json.obj (fields ++ [(key, v)])
  | other => other

/-- The object `{ ...value }`: the own enumerable properties of the value, none
for `undefined`, `null`, a number or a boolean. -/
def Json.spread : Option Json → Json
  | some (Json.obj fields) => Json.obj fields
  | some (Json.arr items) => Json.obj (items.enum.map (fun p => (toString p.1, p.2)))
  | some (Json.str s) =>
    Json.obj (s.data.enum.map (fun p => (toString p.1, Json.str (String.singleton p.2))))
  | _ => Json.obj []

/-- A field that is left out when the value is absent. -/
def optField (key : String) (value : Option Json) : List (String × Json) :=
  match value with
  | some v => [(key, v)]
  | none => []

/-- The object that a `Company` is. -/
def Company.toJson (c : Company) : Json :=
  Json.obj [("name", Json.str c.name), ("address", Json.str c.address),
    ("phone", Json.str c.phone), ("email", Json.str c.email), ("logo", Json.str c.logo)]

/-- The object that a `Client` is. -/
def Client.toJson (c : Client) : Json :=
  Json.obj [("id", Json.str c.id), ("name", Json.str c.name), ("address", Json.str c.address),
    ("phone", Json.str c.phone), ("email", Json.str c.email),
    ("createdAt", Json.num c.createdAt), ("lastUsed", Json.num c.lastUsed)]

/-- The object that a `ClientSnapshot` is. -/
def ClientSnapshot.toJson (c : ClientSnapshot) : Json :=
  Json.obj (optField "id" (c.id.map Json.str) ++
    [("name", Json.str c.name), ("address", Json.str c.address),
      ("phone", Json.str c.phone), ("email", Json.str c.email)])

/-- The object that a `Product` is. -/
def Product.toJson (p : Product) : Json :=
  Json.obj [("id", Json.str p.id), ("name", Json.str p.name),
    ("description", Json.str p.description), ("rate", Json.num p.rate),
    ("createdAt", Json.num p.createdAt)]

/-- The object that a `LineItem` is. -/
def LineItem.toJson (item : LineItem) : Json :=
  Json.obj [("id", Json.str item.id), ("name", Json.str item.name),
    ("description", Json.str item.description), ("quantity", Json.num item.quantity),
    ("rate", Json.num item.rate), ("total", Json.num item.total)]

/-- The object that a `Discount` is. -/
def Discount.toJson (d : Discount) : Json :=
  Json.obj [("type", Json.str d.type), ("value", Json.num d.value)]

/-- The object that a `Totals` is. -/
def Totals.toJson (t : Totals) : Json :=
  Json.obj [("subtotal", Json.num t.subtotal), ("discount", Json.num t.discount),
    ("tax", Json.num t.tax), ("total", Json.num t.total)]

/-- The object that an `Invoice` is; a `clientId` of `none` is `null`, an absent
`isDraft` or `savedAt` is left out. -/
def Invoice.toJson (inv : Invoice) : Json :=
  Json.obj ([("id", Json.str inv.id), ("number", Json.str inv.number),
      ("issueDate", Json.str inv.issueDate), ("dueDate", Json.str inv.dueDate),
      ("status", Json.str inv.status), ("sender", inv.sender.toJson),
      ("clientId", (inv.clientId.map Json.str).getD Json.null),
      ("client", inv.client.toJson),
      ("lineItems", Json.arr (inv.lineItems.map LineItem.toJson)),
      ("discount", inv.discount.toJson), ("taxRate", Json.num inv.taxRate),
      ("notes", Json.str inv.notes), ("totals", inv.totals.toJson),
      ("createdAt", Json.num inv.createdAt), ("updatedAt", Json.num inv.updatedAt)]
    ++ optField "isDraft" (inv.isDraft.map Json.bool)
    ++ optField "savedAt" (inv.savedAt.map (fun t => Json.num t)))

/-- The object that a `Currency` is. -/
def Currency.toJson (c : Currency) : Json :=
  Json.obj [("symbol", Json.str c.symbol), ("code", Json.str c.code),
    ("locale", Json.str c.locale)]

/-- The object that a `Settings` is. -/
def Settings.toJson (s : Settings) : Json :=
  Json.obj [("accent", Json.str s.accent), ("font", Json.str s.font),
    ("currency", s.currency.toJson), ("theme", Json.str s.theme),
    ("autoSave", Json.bool s.autoSave), ("footer", Json.str s.footer)]

/-- The object that a `HistoryEntry` is. -/
def HistoryEntry.toJson (e : HistoryEntry) : Json :=
  Json.obj [("invoiceId", Json.str e.invoiceId), ("number", Json.str e.number),
    ("client", Json.str e.client), ("total", Json.num e.total),
    ("status", Json.str e.status), ("dueDate", Json.str e.dueDate),
    ("updatedAt", Json.num e.updatedAt)]

/-- The object that a `Ledger` is. -/
def Ledger.toJson (l : Ledger) : Json :=
  Json.obj [("lastInvoiceNumber", Json.num l.lastInvoiceNumber),
    ("company", l.company.toJson),
    ("clients", Json.arr (l.clients.map Client.toJson)),
    ("products", Json.arr (l.products.map Product.toJson)),
    ("invoices", Json.arr (l.invoices.map Invoice.toJson)),
    ("settings", l.settings.toJson),
    ("historyCache", Json.arr (l.historyCache.map HistoryEntry.toJson))]

/-- The module state when `state` may hold any parsed document: `state`,
`currentInvoice` and the string stored under `STORAGE_KEY`. -/
structure RawSession where
  state : Json
  currentInvoice : Json
  storage : Option String

/-- The module state of a `Session`, as documents. -/
def Session.toRaw (s : Session) : RawSession :=
  { state := s.state.toJson, currentInvoice := s.currentInvoice.toJson, storage := s.storage }

/-- The function `createEmptyInvoice()` on a `state` that may be any document
other than `null`: `sender` is `{ ...state.company }`. -/
def createEmptyInvoiceRaw (state : Json) (uuid today due : String) (now : Int) : Json :=
  Json.obj [("id", Json.str uuid), ("number", Json.str ""),
    ("issueDate", Json.str today), ("dueDate", Json.str due),
    ("status", Json.str "draft"), ("sender", Json.spread (state.field "company")),
    ("clientId", Json.null),
    ("client", Json.obj [("name", Json.str ""), ("address", Json.str ""),
      ("phone", Json.str ""), ("email", Json.str "")]),
    ("lineItems", Json.arr []),
    ("discount", Json.obj [("type", Json.str "flat"), ("value", Json.num 0)]),
    ("taxRate", Json.num 0), ("notes", Json.str ""),
    ("totals", Json.obj [("subtotal", Json.num 0), ("discount", Json.num 0),
      ("tax", Json.num 0), ("total", Json.num 0)]),
    ("createdAt", Json.num now), ("updatedAt", Json.num now)]

/-! ## Percent-encoding -/

/-- The value of a hexadecimal digit. -/
def hexVal (c : Char) : Option Nat :=
  if 48 ≤ c.toNat ∧ c.toNat ≤ 57 then some (c.toNat - 48)
  else if 97 ≤ c.toNat ∧ c.toNat ≤ 102 then some (c.toNat - 87)
  else if 65 ≤ c.toNat ∧ c.toNat ≤ 70 then some (c.toNat - 55)
  else none

/-- A unit of a percent-encoded string: a character that stands for itself, or
the byte of an escape `%XX`. -/
inductive UriUnit where
  | lit (c : Char)
  | byte (b : Nat)
  deriving DecidableEq, Repr

/-- The first pass of decoding: every `%` must be followed by two hexadecimal
digits; `none` when one is not. -/
def percentUnits : List Char → Option (List UriUnit)
  | [] => some []
  | c :: rest =>
    if c = '%' then
      match rest with
      | h1 :: h2 :: rest2 =>
        match hexVal h1, hexVal h2 with
        | some a, some b => (percentUnits rest2).map (fun us => UriUnit.byte (a * 16 + b) :: us)
        | _, _ => none
      | _ => none
    else (percentUnits rest).map (fun us => UriUnit.lit c :: us)

/-- Whether a byte is a continuation byte of UTF-8. -/
def isCont (b : Nat) : Bool := 128 ≤ b && b < 192

/-- The second pass of decoding: the bytes of the escapes must be the UTF-8
encoding of code points; `none` when they are not. -/
def utf8Units : List UriUnit → Option (List Char)
  | [] => some []
  | UriUnit.lit c :: rest => (utf8Units rest).map (fun out => c :: out)
  | UriUnit.byte b :: rest =>
    if b < 128 then (utf8Units rest).map (fun out => Char.ofNat b :: out)
    else if 194 ≤ b ∧ b < 224 then
      match rest with
      | UriUnit.byte b2 :: rest2 =>
        if isCont b2 then
          (utf8Units rest2).map (fun out => Char.ofNat ((b - 192) * 64 + (b2 - 128)) :: out)
        else none
      | _ => none
    else if 224 ≤ b ∧ b < 240 then
      match rest with
      | UriUnit.byte b2 :: UriUnit.byte b3 :: rest3 =>
        if isCont b2 ∧ isCont b3
            ∧ 2048 ≤ (b - 224) * 4096 + (b2 - 128) * 64 + (b3 - 128)
            ∧ ¬ (55296 ≤ (b - 224) * 4096 + (b2 - 128) * 64 + (b3 - 128)
                ∧ (b - 224) * 4096 + (b2 - 128) * 64 + (b3 - 128) < 57344) then
          (utf8Units rest3).map
            (fun out => Char.ofNat ((b - 224) * 4096 + (b2 - 128) * 64 + (b3 - 128)) :: out)
        else none
      | _ => none
    else if 240 ≤ b ∧ b < 245 then
      match rest with
      | UriUnit.byte b2 :: UriUnit.byte b3 :: UriUnit.byte b4 :: rest4 =>
        if isCont b2 ∧ isCont b3 ∧ isCont b4
            ∧ 65536 ≤ (b - 240) * 262144 + (b2 - 128) * 4096 + (b3 - 128) * 64 + (b4 - 128)
            ∧ (b - 240) * 262144 + (b2 - 128) * 4096 + (b3 - 128) * 64 + (b4 - 128)
                < 1114112 then
          (utf8Units rest4).map
            (fun out =>
              Char.ofNat ((b - 240) * 262144 + (b2 - 128) * 4096 + (b3 - 128) * 64 + (b4 - 128))
                :: out)
        else none
      | _ => none
    else none

/-- The host function `decodeURIComponent`; `none` when it throws `URIError`:
a `%` without two hexadecimal digits after it, or escapes whose bytes are not
UTF-8. -/
def decodeURIComponent (s : String) : Option String :=
  match percentUnits s.data with
  | some units => (utf8Units units).map String.mk
  | none => none

/-- The characters `encodeURIComponent` leaves as they are: letters, digits and
the marks `- _ . ! ~ *`, the apostrophe and the two parentheses. -/
def isUnreserved (c : Char) : Bool :=
  (48 ≤ c.toNat && c.toNat ≤ 57) || (65 ≤ c.toNat && c.toNat ≤ 90)
    || (97 ≤ c.toNat && c.toNat ≤ 122)
    || [45, 95, 46, 33, 126, 42, 39, 40, 41].contains c.toNat

/-- The hexadecimal digit, in upper case, of a value below 16. -/
def hexDigit (n : Nat) : Char :=
  if n < 10 then Char.ofNat (48 + n) else Char.ofNat (55 + n)

/-- The UTF-8 bytes of a code point. -/
def utf8Bytes (cp : Nat) : List Nat :=
  if cp < 128 then [cp]
  else if cp < 2048 then [192 + cp / 64, 128 + cp % 64]
  else if cp < 65536 then [224 + cp / 4096, 128 + cp / 64 % 64, 128 + cp % 64]
  else [240 + cp / 262144, 128 + cp / 4096 % 64, 128 + cp / 64 % 64, 128 + cp % 64]

/-- The host function `encodeURIComponent`. -/
def encodeURIComponent (s : String) : String :=
  String.mk (s.data.flatMap (fun c =>
    if isUnreserved c then [c]
    else (utf8Bytes c.toNat).flatMap (fun b => ['%', hexDigit (b / 16), hexDigit (b % 16)])))

/-- The pieces of a list of characters between the occurrences of `sep`. -/
def splitOnChar (sep : Char) : List Char → List (List Char)
  | [] => [[]]
  | c :: rest =>
    if c = sep then [] :: splitOnChar sep rest
    else
      match splitOnChar sep rest with
      | piece :: pieces => (c :: piece) :: pieces
      | [] => [[c]]

/-- The name and the value of one `name=value` piece of a query, split at the
first `=`. -/
def splitPair : List Char → List Char × List Char
  | [] => ([], [])
  | c :: rest =>
    if c = '=' then ([], rest)
    else ((c :: (splitPair rest).1), (splitPair rest).2)

/-- The decoding `URLSearchParams` applies to a name or a value: `+` is a
space, then the escapes are decoded as UTF-8.  Where the text is not
well-formed the host substitutes characters; the model gives `none` there, which
a link built by `shareUrl` never meets (it is used for such links only). -/
def formDecode (cs : List Char) : Option String :=
  decodeURIComponent (String.mk (cs.map (fun c => if c = '+' then ' ' else c)))

/-- The first value of the parameter `state` among the pieces of a query. -/
def firstState : List (List Char) → Option String
  | [] => none
  | piece :: pieces =>
    if formDecode (splitPair piece).1 = some "state" then formDecode (splitPair piece).2
    else firstState pieces

/-- The value `params.get('state')` of `new URLSearchParams(search)`, `none`
when `params.has('state')` is false. -/
def searchParamsGetState (search : String) : Option String :=
  match search.data with
  | '?' :: rest => firstState (splitOnChar '&' rest)
  | cs => firstState (splitOnChar '&' cs)

/-! ## JSON text

The snapshot codec of the specification, section 4.5: the canonical JSON
document of a value and its reader.  The repository calls the host for both
(`JSON.stringify`, `JSON.parse`); they are modelled from the specification. -/

/-- Modelled from the spec: the white space that may stand between the tokens of
a JSON document. -/
def isJsonSpace (c : Char) : Bool := c == ' ' || c == '\n' || c == '\r' || c == '\t'

/-- Modelled from the spec: a text without the white space it starts with. -/
def skipSpace : List Char → List Char
  | [] => []
  | c :: rest => if isJsonSpace c then skipSpace rest else c :: rest

/-- Modelled from the spec: the decimal digit of a value below 10. -/
def digitChar (d : Nat) : Char := Char.ofNat (48 + d)

/-- Modelled from the spec: the decimal digits of `n` put in front of `acc`, with
`fuel` more than the number of digits. -/
def natDigitsAux : Nat → Nat → List Char → List Char
  | 0, _, acc => acc
  | fuel + 1, n, acc =>
    if n < 10 then digitChar n :: acc
    else natDigitsAux fuel (n / 10) (digitChar (n % 10) :: acc)

/-- Modelled from the spec: the decimal digits of a natural number. -/
def natDigits (n : Nat) : List Char := natDigitsAux (n + 1) n []

/-- Modelled from the spec: the number read from the decimal digits a text starts
with, continuing `acc`, the count of the digits read, and the rest of the text. -/
def readDigits : List Char → Nat → Nat → Nat × Nat × List Char
  | [], acc, count => (acc, count, [])
  | c :: rest, acc, count =>
    if 48 ≤ c.toNat ∧ c.toNat ≤ 57 then readDigits rest (acc * 10 + (c.toNat - 48)) (count + 1)
    else (acc, count, c :: rest)

/-- Modelled from the spec: the least `k` from `k` on with `den ∣ 10 ^ k`, tried
`fuel` times: the number of decimal places a number of denominator `den` needs. -/
def decimalPlacesAux (den : Nat) : Nat → Nat → Option Nat
  | 0, _ => none
  | fuel + 1, k => if 10 ^ k % den = 0 then some k else decimalPlacesAux den fuel (k + 1)

/-- Modelled from the spec: the number of decimal places of a number of
denominator `den`, `none` when its decimal expansion does not end (no double is
such a number). -/
def decimalPlaces (den : Nat) : Option Nat := decimalPlacesAux den (den + 1) 0

/-- Modelled from the spec: the text of an integer. -/
def printInt (m : Int) : List Char :=
  if m < 0 then '-' :: natDigits m.natAbs else natDigits m.natAbs

/-- Modelled from the spec: the text of a number: its digits when it is an
integer, else the digits of its decimal expansion followed by the exponent, as in
`72e-1` for `7.2`; `null` for a number without a finite decimal expansion, as
`JSON.stringify` writes for a number that is not finite. -/
def printNumber (q : ℚ) : List Char :=
  match decimalPlaces q.den with
  | none => ['n', 'u', 'l', 'l']
  | some 0 => printInt q.num
  | some (k + 1) =>
    printInt (q.num * ((10 ^ (k + 1) / q.den : Nat) : Int)) ++ 'e' :: '-' :: natDigits (k + 1)

/-- Modelled from the spec: the value of a number text with the sign, the digits
`mantissa` of the integer and the fraction part read as one number, `places`
digits of them after the point, and the exponent. -/
def numberValue (negative : Bool) (mantissa places : Nat) (exponent : Int) : ℚ :=
  if exponent - places = 0 then ((if negative then -(mantissa : Int) else mantissa : Int) : ℚ)
  else ((if negative then -(mantissa : Int) else mantissa : Int) : ℚ)
    * (10 : ℚ) ^ (exponent - places)

/-- Modelled from the spec: the exponent part of a number text, `0` when there
is none. -/
def parseExponent (cs : List Char) : Option (Int × List Char) :=
  match cs with
  | c :: rest =>
    if c = 'e' ∨ c = 'E' then
      match rest with
      | s :: rest2 =>
        if s = '-' then
          (if (readDigits rest2 0 0).2.1 = 0 then none
           else some (-((readDigits rest2 0 0).1 : Int), (readDigits rest2 0 0).2.2))
        else if s = '+' then
          (if (readDigits rest2 0 0).2.1 = 0 then none
           else some (((readDigits rest2 0 0).1 : Int), (readDigits rest2 0 0).2.2))
        else
          (if (readDigits rest 0 0).2.1 = 0 then none
           else some (((readDigits rest 0 0).1 : Int), (readDigits rest 0 0).2.2))
      | [] => none
    else some (0, cs)
  | [] => some (0, [])

/-- Modelled from the spec: the fraction part of a number text after the digits
of the integer part, which gave `mantissa`: the mantissa continued, and the count
of the digits after the point. -/
def parseFraction (mantissa : Nat) (cs : List Char) : Option (Nat × Nat × List Char) :=
  match cs with
  | c :: rest =>
    if c = '.' then
      (if (readDigits rest mantissa 0).2.1 = 0 then none else some (readDigits rest mantissa 0))
    else some (mantissa, 0, cs)
  | [] => some (mantissa, 0, [])

/-- Modelled from the spec: a number at the start of a text: an optional `-`,
digits, an optional fraction and an optional exponent. -/
def parseUnsigned (negative : Bool) (cs : List Char) : Option (ℚ × List Char) :=
  if (readDigits cs 0 0).2.1 = 0 then none
  else
    match parseFraction (readDigits cs 0 0).1 (readDigits cs 0 0).2.2 with
    | none => none
    | some (mantissa, places, rest) =>
      match parseExponent rest with
      | none => none
      | some (exponent, rest2) => some (numberValue negative mantissa places exponent, rest2)

/-- Modelled from the spec: a number at the start of a text. -/
def parseNumber (cs : List Char) : Option (ℚ × List Char) :=
  match cs with
  | c :: rest => if c = '-' then parseUnsigned true rest else parseUnsigned false cs
  | [] => none

/-- Modelled from the spec: the hexadecimal digit, in lower case, of a value
below 16. -/
def hexLower (n : Nat) : Char :=
  if n < 10 then Char.ofNat (48 + n) else Char.ofNat (87 + n)

/-- Modelled from the spec: a character inside a string of a JSON document: the
quote and the backslash are escaped with a backslash, a control character is
written `\u00XX`. -/
def escapeChar (c : Char) : List Char :=
  if c = '"' then ['\\', '"']
  else if c = '\\' then ['\\', '\\']
  else if c.toNat < 32 then ['\\', 'u', '0', '0', hexLower (c.toNat / 16), hexLower (c.toNat % 16)]
  else [c]

/-- Modelled from the spec: a string of a JSON document, between quotes. -/
def printString (s : String) : List Char :=
  '"' :: s.data.flatMap escapeChar ++ ['"']

/-- Modelled from the spec: the characters of a string of a JSON document after
its opening quote, up to the closing quote, and the rest of the text. -/
def parseString : List Char → Option (List Char × List Char)
  | [] => none
  | c :: rest =>
    if c = '"' then some ([], rest)
    else if c = '\\' then
      match rest with
      | e :: rest2 =>
        if e = 'u' then
          match rest2 with
          | h1 :: h2 :: h3 :: h4 :: rest3 =>
            match hexVal h1, hexVal h2, hexVal h3, hexVal h4 with
            | some a, some b, some c4, some d =>
              (parseString rest3).map
                (fun p => (Char.ofNat (((a * 16 + b) * 16 + c4) * 16 + d) :: p.1, p.2))
            | _, _, _, _ => none
          | _ => none
        else if e = '"' ∨ e = '\\' ∨ e = '/' then
          (parseString rest2).map (fun p => (e :: p.1, p.2))
        else if e = 'n' then (parseString rest2).map (fun p => ('\n' :: p.1, p.2))
        else if e = 't' then (parseString rest2).map (fun p => ('\t' :: p.1, p.2))
        else if e = 'r' then (parseString rest2).map (fun p => ('\r' :: p.1, p.2))
        else if e = 'b' then (parseString rest2).map (fun p => (Char.ofNat 8 :: p.1, p.2))
        else if e = 'f' then (parseString rest2).map (fun p => (Char.ofNat 12 :: p.1, p.2))
        else none
      | [] => none
    else if c.toNat < 32 then none
    else (parseString rest).map (fun p => (c :: p.1, p.2))

/-- Modelled from the spec: the line break and the indentation `JSON.stringify`
writes at nesting depth `depth` for an indentation of `gap` spaces; nothing when
`gap` is 0. -/
def gapText (gap depth : Nat) : List Char :=
  if gap = 0 then [] else '\n' :: List.replicate (gap * depth) ' '

/-- Modelled from the spec: the colon after a key, followed by a space when the
document is indented. -/
def colonText (gap : Nat) : List Char := if gap = 0 then [':'] else [':', ' ']

mutual
/-- Modelled from the spec: the canonical JSON document of a value, as
`JSON.stringify(value, null, gap)` lays it out, at nesting depth `depth`: the
keys of an object and the items of an array in their order. -/
def printValue (gap : Nat) : Nat → Json → List Char
  | _, Json.null => ['n', 'u', 'l', 'l']
  | _, Json.bool b => if b then ['t', 'r', 'u', 'e'] else ['f', 'a', 'l', 's', 'e']
  | _, Json.num q => printNumber q
  | _, Json.str s => printString s
  | depth, Json.arr items =>
    if items.isEmpty then ['[', ']']
    else '[' :: gapText gap (depth + 1) ++ printItems gap (depth + 1) items
      ++ gapText gap depth ++ [']']
  | depth, Json.obj fields =>
    if fields.isEmpty then ['{', '}']
    else '{' :: gapText gap (depth + 1) ++ printFields gap (depth + 1) fields
      ++ gapText gap depth ++ ['}']
/-- Modelled from the spec: the items of an array, separated by commas. -/
def printItems (gap : Nat) : Nat → List Json → List Char
  | _, [] => []
  | depth, v :: vs =>
    if vs.isEmpty then printValue gap depth v
    else printValue gap depth v ++ ',' :: gapText gap depth ++ printItems gap depth vs
/-- Modelled from the spec: the fields of an object, each a key, a colon and a
value, separated by commas. -/
def printFields (gap : Nat) : Nat → List (String × Json) → List Char
  | _, [] => []
  | depth, f :: fs =>
    if fs.isEmpty then printString f.1 ++ colonText gap ++ printValue gap depth f.2
    else printString f.1 ++ colonText gap ++ printValue gap depth f.2
      ++ ',' :: gapText gap depth ++ printFields gap depth fs
end

/-- Modelled from the spec: the encoder of the snapshot codec, `JSON.stringify`
with an indentation of `gap` spaces (`0` for the compact form). -/
def stringifyJson (gap : Nat) (value : Json) : String := String.mk (printValue gap 0 value)

/-- Modelled from the spec: what the reader of a document is about to read: a
value, the items of an array after the ones in `acc`, or the fields of an object
after the ones in `acc`. -/
inductive ParseMode where
  | value
  | items (acc : List Json)
  | fields (acc : List (String × Json))

/-- Modelled from the spec: a field added to the fields read so far; a key that
is there already keeps its place and takes the new value. -/
def putField (key : String) (v : Json) (acc : List (String × Json)) : List (String × Json) :=
  if acc.any (fun kv => kv.1 == key) then acc.map (fun kv => if kv.1 == key then (kv.1, v) else kv)
  else acc ++ [(key, v)]

/-- Modelled from the spec: the reader of a JSON document, with `fuel` for the
nesting and the number of items still to read. -/
def parseJsonAux : Nat → ParseMode → List Char → Option (Json × List Char)
  | 0, _, _ => none
  | fuel + 1, ParseMode.value, cs =>
    match skipSpace cs with
    | 'n' :: 'u' :: 'l' :: 'l' :: rest => some (Json.null, rest)
    | 't' :: 'r' :: 'u' :: 'e' :: rest => some (Json.bool true, rest)
    | 'f' :: 'a' :: 'l' :: 's' :: 'e' :: rest => some (Json.bool false, rest)
    | '"' :: rest => (parseString rest).map (fun p => (Json.str (String.mk p.1), p.2))
    | '[' :: rest =>
      match skipSpace rest with
      | ']' :: rest2 => some (Json.arr [], rest2)
      | _ => parseJsonAux fuel (ParseMode.items []) rest
    | '{' :: rest =>
      match skipSpace rest with
      | '}' :: rest2 => some (Json.obj [], rest2)
      | _ => parseJsonAux fuel (ParseMode.fields []) rest
    | other => (parseNumber other).map (fun p => (Json.num p.1, p.2))
  | fuel + 1, ParseMode.items acc, cs =>
    match parseJsonAux fuel ParseMode.value cs with
    | none => none
    | some (v, rest) =>
      match skipSpace rest with
      | ',' :: rest2 => parseJsonAux fuel (ParseMode.items (acc ++ [v])) rest2
      | ']' :: rest2 => some (Json.arr (acc ++ [v]), rest2)
      | _ => none
  | fuel + 1, ParseMode.fields acc, cs =>
    match skipSpace cs with
    | '"' :: rest =>
      match parseString rest with
      | none => none
      | some (key, rest1) =>
        match skipSpace rest1 with
        | ':' :: rest2 =>
          match parseJsonAux fuel ParseMode.value rest2 with
          | none => none
          | some (v, rest3) =>
            match skipSpace rest3 with
            | ',' :: rest4 =>
              parseJsonAux fuel (ParseMode.fields (putField (String.mk key) v acc)) rest4
            | '}' :: rest4 => some (Json.obj (putField (String.mk key) v acc), rest4)
            | _ => none
        | _ => none
    | _ => none

/-- Modelled from the spec: the decoder of the snapshot codec, `JSON.parse`:
`none` when the text is not one JSON document. -/
def parseJson (text : String) : Option Json :=
  match parseJsonAux (2 * text.length + 2) ParseMode.value text.data with
  | some (v, rest) => if skipSpace rest = [] then some v else none
  | none => none

mutual
/-- Modelled from the spec: whether a value is one the codec carries: every
number in it has a finite decimal expansion and no object has a key twice. -/
def Json.valid : Json → Bool
  | Json.null => true
  | Json.bool _ => true
  | Json.num q => (decimalPlaces q.den).isSome
  | Json.str _ => true
  | Json.arr items => validItems items
  | Json.obj fields => validFields fields && decide ((fields.map (fun kv => kv.1)).Nodup)
/-- Modelled from the spec: whether every item is a value the codec carries. -/
def validItems : List Json → Bool
  | [] => true
  | v :: vs => v.valid && validItems vs
/-- Modelled from the spec: whether every field holds a value the codec carries. -/
def validFields : List (String × Json) → Bool
  | [] => true
  | f :: fs => f.2.valid && validFields fs
end

mutual
/-- The number of values, items and fields of a value: the fuel that reading it
takes. -/
def Json.nodes : Json → Nat
  | Json.null => 1
  | Json.bool _ => 1
  | Json.num _ => 1
  | Json.str _ => 1
  | Json.arr items => 1 + nodesItems items
  | Json.obj fields => 1 + nodesFields fields
/-- The fuel that reading a list of items takes. -/
def nodesItems : List Json → Nat
  | [] => 0
  | v :: vs => 1 + v.nodes + nodesItems vs
/-- The fuel that reading a list of fields takes. -/
def nodesFields : List (String × Json) → Nat
  | [] => 0
  | f :: fs => 1 + f.2.nodes + nodesFields fs
end

/-- A text at whose start no number goes on: it is empty, or starts with a
character that is no digit. -/
def DigitStop (rest : List Char) : Prop :=
  ∀ c tail, rest = c :: tail → ¬ (48 ≤ c.toNat ∧ c.toNat ≤ 57)

/-- A text at whose start no number goes on: it is empty, or starts with a
character that is no digit, no point and no exponent mark. -/
def NumStop (rest : List Char) : Prop :=
  ∀ c tail, rest = c :: tail →
    ¬ (48 ≤ c.toNat ∧ c.toNat ≤ 57) ∧ c ≠ '.' ∧ c ≠ 'e' ∧ c ≠ 'E'

/-- The characters that open a value: none of them is white space or closes an
array or an object. -/
def isValueStart (c : Char) : Bool :=
  c == 'n' || c == 't' || c == 'f' || c == '"' || c == '[' || c == '{' || c == '-'
    || (48 ≤ c.toNat && c.toNat ≤ 57)

/-! ## Import and load -/

/-- What `importStateFromFile` takes from the host and from the code it calls
after the assignment.  `parse` is `JSON.parse` (`none` when it throws),
`stringify` is `JSON.stringify`, `decrypt password payload` is
`await decrypt(password, payload)` (`none` when the call throws or its promise is
rejected); `uuid`, `today`, `due` and `now` are the readings of
`createEmptyInvoice()`.  `renderRest` stands for the calls that follow
`populateClientSelect()` (`populateProductSelect`, `loadLastInvoiceMeta`,
`updateInvoiceForm`, `updatePreview`, `refreshDashboard`, `renderHistory`): given
the new `state` it tells the `state` they leave, after their status passes, and
whether they all returned. -/
structure ImportHost where
  parse : String → Option Json
  stringify : Json → String
  decrypt : String → Json → Option String
  uuid : String
  today : String
  due : String
  now : Int
  renderRest : Json → Json × Bool

/-- The outcome of one run of the `onload` handler of `importStateFromFile`: the
module state it leaves, whether the password prompt was shown, whether
`decrypt` was called, and the toast it ends with. -/
structure ImportRun where
  session : RawSession
  prompted : Bool
  decryptCalled : Bool
  toast : Option String

/-- The test `parsed.cipher && parsed.salt` on a document that is not `null`. -/
def isEnvelope (parsed : Json) : Bool :=
  Json.truthy (parsed.field "cipher") && Json.truthy (parsed.field "salt")

/-- Whether `populateClientSelect()` returns on this `state`: `state.clients`
must be an array (`slice`, `sort`, `forEach`) without a `null` item (`client.id`). -/
def clientsReadable (state : Json) : Bool :=
  match state.field "clients" with
  | some (Json.arr items) => items.all (fun c => !c.isNull)
  | _ => false

/-- The statements of `importStateFromFile` from `state = parsed` on.  On `null`
the assignment is followed by the throw of `createEmptyInvoice()`, which reads
`state.company`; on any other document the working invoice is reset and the
state persisted before `populateClientSelect()` runs. -/
def applyImport (h : ImportHost) (doc : Json) (s : RawSession) : RawSession × Option String :=
  match doc with
  | Json.null => ({ s with state := Json.null }, some "Import failed")
  | doc =>
    let s1 : RawSession :=
      { state := doc
        currentInvoice := createEmptyInvoiceRaw doc h.uuid h.today h.due h.now
        storage := some (h.stringify doc) }
    if clientsReadable doc then
      ({ s1 with state := (h.renderRest doc).1 },
        some (if (h.renderRest doc).2 then "Data imported" else "Import failed"))
    else (s1, some "Import failed")

/-- The `onload` handler of `importStateFromFile(event)` for a file of text
`fileText`; `answer` is what `prompt` returns if it is shown (`none` for a
cancelled prompt). -/
def importStateFromFile (h : ImportHost) (fileText : String) (answer : Option String)
    (s : RawSession) : ImportRun :=
  match h.parse fileText with
  | none => { session := s, prompted := false, decryptCalled := false,
              toast := some "Import failed" }
  | some Json.null => { session := s, prompted := false, decryptCalled := false,
                        toast := some "Import failed" }
  | some parsed =>
    if isEnvelope parsed then
      match answer with
      | none => { session := s, prompted := true, decryptCalled := false, toast := none }
      | some password =>
        if password = "" then
          { session := s, prompted := true, decryptCalled := false, toast := none }
        else
          match h.decrypt password parsed with
          | none => { session := s, prompted := true, decryptCalled := true,
                      toast := some "Import failed" }
          | some decrypted =>
            match h.parse decrypted with
            | none => { session := s, prompted := true, decryptCalled := true,
                        toast := some "Import failed" }
            | some doc =>
              { session := (applyImport h doc s).1, prompted := true, decryptCalled := true,
                toast := (applyImport h doc s).2 }
    else
      { session := (applyImport h parsed s).1, prompted := false, decryptCalled := false,
        toast := (applyImport h parsed s).2 }

/-- The second `try` of `loadState()` and its last line: the stored snapshot,
with the default settings when it has none, or `defaultState()` when nothing is
stored or the snapshot does not parse (or is `null`, where reading
`parsed.settings` throws). -/
def loadFromStorage (parse : String → Option Json) (storage : Option String) : Json :=
  match storage with
  | none => defaultState.toJson
  | some stored =>
    if stored = "" then defaultState.toJson
    else
      match parse stored with
      | none => defaultState.toJson
      | some Json.null => defaultState.toJson
      | some parsed =>
        if Json.truthy (parsed.field "settings") then parsed
        else Json.setField "settings" defaultState.settings.toJson parsed

/-- The function `loadState()`: the state it returns and the string it leaves
under `STORAGE_KEY`.  `param` is `params.get('state')`, the value of the query
parameter as `URLSearchParams` gives it, already percent-decoded (`none` when
`params.has('state')` is false), and `storage` the stored string. -/
def loadState (parse : String → Option Json) (stringify : Json → String)
    (param : Option String) (storage : Option String) : Json × Option String :=
  match param with
  | some value =>
    match decodeURIComponent value with
    | none => (loadFromStorage parse storage, storage)
    | some decoded =>
      match parse decoded with
      | none => (loadFromStorage parse storage, storage)
      | some fromUrl => (fromUrl, some (stringify fromUrl))
  | none => (loadFromStorage parse storage, storage)

/-- The link `shareUrl()` builds. -/
def shareUrl (stringify : Json → String) (origin pathname : String) (state : Json) : String :=
  origin ++ pathname ++ "?state=" ++ encodeURIComponent (stringify state)

/-- The query of the link of `shareUrl()`, which is `window.location.search`
when the link is opened. -/
def shareSearch (stringify : Json → String) (state : Json) : String :=
  "?state=" ++ encodeURIComponent (stringify state)

/-! ## Double arithmetic

The numbers of JavaScript are the values of IEEE 754 binary64.  This section
carries them with their rounding, their infinities and `NaN`, and gives
`updateTotals` and the sums of `renderRevenueChart` over them, next to the exact
versions above. -/

/-- A JavaScript number, a value of IEEE 754 binary64: `NaN`, one of the two
infinities, or the finite value `m * 2 ^ e`.  A finite value is kept in the form
rounding gives it (`|m| < 2 ^ 53`, `-1074 ≤ e ≤ 971`, and `2 ^ 52 ≤ |m|` unless
`e = -1074`), so that equal numbers are equal terms.  The two zeros are one
value, `fin 0 (-1074)`. -/
inductive JsNumber where
  | nan
  | inf (negative : Bool)
  | fin (m : Int) (e : Int)
  deriving DecidableEq, Repr

/-- The power `2 ^ k` for `k ≥ 0`, and `1` for a negative `k`. -/
def pow2 (k : Int) : Nat := 1 <<< k.toNat

/-- Whether `2 ^ k ≤ a / d`. -/
def reaches (a d : Nat) (k : Int) : Bool := decide (d * pow2 k ≤ a * pow2 (-k))

/-- The exponent of the binade of `a / d`: the greatest `k` with `2 ^ k ≤ a / d`,
searched bit by bit from `-4096` up to `4095` (far outside the range of the
exponents of binary64 on both sides). -/
def floorLog2 (a d : Nat) : Int :=
  [4096, 2048, 1024, 512, 256, 128, 64, 32, 16, 8, 4, 2, 1].foldl
    (fun k step => if reaches a d (k + step) then k + step else k) (-4096 : Int)

/-- The integer nearest to `a / d`, the even one of the two when `a / d` lies
half way. -/
def roundHalfEven (a d : Nat) : Nat :=
  if 2 * (a % d) < d then a / d
  else if d < 2 * (a % d) then a / d + 1
  else if a / d % 2 = 0 then a / d else a / d + 1

/-- The binary64 value of the real number `num / den` (`den > 0`) under
round-to-nearest, ties to even: the mantissa has 53 bits from the binade of the
number, or ends at `2 ^ -1074` for a subnormal; a result of `2 ^ 1024` or more is
an infinity. -/
def roundDouble (num : Int) (den : Nat) : JsNumber :=
  let a := num.natAbs
  let p : Int := max (floorLog2 a den) (-1022) - 52
  let n := roundHalfEven (a * pow2 (-p)) (den * pow2 p)
  let p' : Int := if n = 9007199254740992 then p + 1 else p
  let n' : Nat := if n = 9007199254740992 then 4503599627370496 else n
  if 971 < p' then JsNumber.inf (decide (num < 0))
  else if n' = 0 then JsNumber.fin 0 (-1074)
  else JsNumber.fin (if num < 0 then -(n' : Int) else n') p'

/-- The number a decimal literal `digits e exponent` denotes, such as `1e200`
or `22e-1` for `2.2`: the double nearest to it.  It is also what `parseFloat`
returns for that text. -/
def JsNumber.ofDecimal (digits : Int) (exponent : Int) : JsNumber :=
  roundDouble (digits * (10 ^ exponent.toNat : Nat)) (10 ^ (-exponent).toNat)

/-- The number `0`. -/
def JsNumber.zero : JsNumber := JsNumber.fin 0 (-1074)

/-- The number `100`, which is `25 * 2 ^ 2`. -/
def JsNumber.hundred : JsNumber := JsNumber.fin 7036874417766400 (-46)

/-- The numerator of `m * 2 ^ e` over the denominator `fracDen e`. -/
def fracNum (m e : Int) : Int := m * pow2 e

/-- The denominator of a finite value of exponent `e`. -/
def fracDen (e : Int) : Nat := pow2 (-e)

/-- The negation `-x`. -/
def JsNumber.neg : JsNumber → JsNumber
  | JsNumber.nan => JsNumber.nan
  | JsNumber.inf s => JsNumber.inf (!s)
  | JsNumber.fin m e => JsNumber.fin (-m) e

/-- The sum `x + y`: the exact sum, rounded; opposite infinities give `NaN`. -/
def JsNumber.add (x y : JsNumber) : JsNumber :=
  match x with
  | JsNumber.nan => JsNumber.nan
  | JsNumber.inf s =>
    match y with
    | JsNumber.nan => JsNumber.nan
    | JsNumber.inf t => if s = t then JsNumber.inf s else JsNumber.nan
    | JsNumber.fin _ _ => JsNumber.inf s
  | JsNumber.fin m e =>
    match y with
    | JsNumber.nan => JsNumber.nan
    | JsNumber.inf t => JsNumber.inf t
    | JsNumber.fin m' e' =>
      roundDouble (fracNum m e * fracDen e' + fracNum m' e' * fracDen e) (fracDen e * fracDen e')

/-- The difference `x - y`. -/
def JsNumber.sub (x y : JsNumber) : JsNumber := x.add y.neg

/-- The product `x * y`: the exact product, rounded; an infinity times zero is
`NaN`. -/
def JsNumber.mul (x y : JsNumber) : JsNumber :=
  match x with
  | JsNumber.nan => JsNumber.nan
  | JsNumber.inf s =>
    match y with
    | JsNumber.nan => JsNumber.nan
    | JsNumber.inf t => JsNumber.inf (s != t)
    | JsNumber.fin m' _ =>
      if m' = 0 then JsNumber.nan else JsNumber.inf (s != decide (m' < 0))
  | JsNumber.fin m e =>
    match y with
    | JsNumber.nan => JsNumber.nan
    | JsNumber.inf t => if m = 0 then JsNumber.nan else JsNumber.inf (decide (m < 0) != t)
    | JsNumber.fin m' e' =>
      roundDouble (fracNum m e * fracNum m' e') (fracDen e * fracDen e')

/-- The quotient `x / y`: the exact quotient, rounded; `0 / 0` and a quotient of
infinities are `NaN`, another number over zero is an infinity. -/
def JsNumber.div (x y : JsNumber) : JsNumber :=
  match x with
  | JsNumber.nan => JsNumber.nan
  | JsNumber.inf s =>
    match y with
    | JsNumber.nan => JsNumber.nan
    | JsNumber.inf _ => JsNumber.nan
    | JsNumber.fin m' _ => JsNumber.inf (s != decide (m' < 0))
  | JsNumber.fin m e =>
    match y with
    | JsNumber.nan => JsNumber.nan
    | JsNumber.inf _ => JsNumber.zero
    | JsNumber.fin m' e' =>
      if m' = 0 then (if m = 0 then JsNumber.nan else JsNumber.inf (decide (m < 0)))
      else roundDouble (Int.sign m' * (fracNum m e * fracDen e'))
        (fracDen e * (fracNum m' e').natAbs)

/-- The comparison `x <= y`, false when either side is `NaN`. -/
def JsNumber.le (x y : JsNumber) : Bool :=
  match x with
  | JsNumber.nan => false
  | JsNumber.inf s =>
    match y with
    | JsNumber.nan => false
    | JsNumber.inf t => s || !t
    | JsNumber.fin _ _ => s
  | JsNumber.fin m e =>
    match y with
    | JsNumber.nan => false
    | JsNumber.inf t => !t
    | JsNumber.fin m' e' => decide (fracNum m e * fracDen e' ≤ fracNum m' e' * fracDen e)

/-- The host function `Math.min` on two numbers: `NaN` when either is `NaN`. -/
def JsNumber.min (x y : JsNumber) : JsNumber :=
  match x with
  | JsNumber.nan => JsNumber.nan
  | x =>
    match y with
    | JsNumber.nan => JsNumber.nan
    | y => if x.le y then x else y

/-- The expression `x || 0` on a number: `0` when `x` is falsy (zero or `NaN`). -/
def JsNumber.orZero : JsNumber → JsNumber
  | JsNumber.nan => JsNumber.zero
  | JsNumber.inf s => JsNumber.inf s
  | JsNumber.fin m e => if m = 0 then JsNumber.zero else JsNumber.fin m e

/-- The record `updateTotals` assigns to `currentInvoice.totals`, in doubles. -/
structure TotalsDouble where
  subtotal : JsNumber
  discount : JsNumber
  tax : JsNumber
  total : JsNumber
  deriving DecidableEq, Repr

/-- The `reduce` of `updateTotals` in doubles, over the `total` of each line. -/
def subtotalDouble (itemTotals : List JsNumber) : JsNumber :=
  itemTotals.foldl (fun acc total => acc.add total.orZero) JsNumber.zero

/-- The local `taxable` of `updateTotals`, in doubles. -/
def taxableDouble (itemTotals : List JsNumber) (discountType : String)
    (discountValue : JsNumber) : JsNumber :=
  let subtotal := subtotalDouble itemTotals
  let raw := if discountType = "percent" then subtotal.mul (discountValue.div JsNumber.hundred)
    else discountValue
  subtotal.sub (raw.min subtotal)

/-- The function `updateTotals()` in doubles, as a function of what it reads: the
`total` of each line item, the type and the value of the discount and the tax
rate. -/
def updateTotalsDouble (itemTotals : List JsNumber) (discountType : String)
    (discountValue taxRate : JsNumber) : TotalsDouble :=
  let subtotal := subtotalDouble itemTotals
  let raw := if discountType = "percent" then subtotal.mul (discountValue.div JsNumber.hundred)
    else discountValue
  let discount := raw.min subtotal
  let taxable := subtotal.sub discount
  let tax := taxable.mul (taxRate.div JsNumber.hundred)
  let total := taxable.add tax
  { subtotal := subtotal, discount := discount, tax := tax, total := total }

/-- What `renderRevenueChart` reads of an invoice, with `totals.total` as the
double it is. -/
structure ChartInvoice where
  issueDate : String
  status : String
  total : JsNumber
  deriving DecidableEq, Repr

/-- The `reduce` of `renderRevenueChart` in doubles: `sum + (inv.totals.total || 0)`
from `0`, in list order. -/
def sumTotalsDouble (invoices : List ChartInvoice) : JsNumber :=
  invoices.foldl (fun sum inv => sum.add inv.total.orZero) JsNumber.zero

/-- One point of the revenue chart, in doubles. -/
structure BucketDouble where
  year : Int
  month : Int
  paid : JsNumber
  outstanding : JsNumber
  deriving DecidableEq, Repr

/-- The body of the loop of `renderRevenueChart` for one `i`, in doubles. -/
def bucketOfDouble (localMonth : String → Option (Int × Int)) (year month : Int)
    (invoices : List ChartInvoice) (i : Nat) : BucketDouble :=
  let date := bucketDate year month i
  let inMonth := invoices.filter (fun inv => localMonth inv.issueDate == some date)
  { year := date.1
    month := date.2
    paid := sumTotalsDouble (inMonth.filter (fun inv => inv.status == "paid"))
    outstanding := sumTotalsDouble (inMonth.filter (fun inv => inv.status != "paid")) }

/-- The bucket loop of `renderRevenueChart` in doubles. -/
def renderRevenueChartDouble (localMonth : String → Option (Int × Int)) (year month : Int)
    (invoices : List ChartInvoice) : List BucketDouble :=
  [5, 4, 3, 2, 1, 0].map (bucketOfDouble localMonth year month invoices)

/-! ## Export and encrypted export -/

/-- The text `exportState()` hands to the download:
`JSON.stringify(state, null, 2)`. -/
def exportState (state : Json) : String := stringifyJson 2 state

/-- The state the calls of `importStateFromFile` after `populateClientSelect()`
leave when `state` is a Ledger: of them only `refreshDashboard()` and
`renderHistory()`, which run in this order, write to `state`, each its status
pass over `state.invoices`. -/
def renderImported (getTime : String → Option Int) (dashClock histClock : Nat → Int)
    (state : Ledger) : Ledger :=
  { state with
    invoices := resolveAll getTime histClock (resolveAll getTime dashClock state.invoices) }

/-- An element of a `Uint8Array`. -/
abbrev Byte := Fin 256

/-- What `encrypt` and `decrypt` take from the host.  `encode` is
`new TextEncoder().encode`, `decode` is `new TextDecoder().decode`;
`deriveKey material salt` is the key that `crypto.subtle.importKey('raw',
material, 'PBKDF2', ...)` followed by `crypto.subtle.deriveKey` (PBKDF2 with
`salt`, 100000 iterations, SHA-256, for AES-GCM of length 256) gives;
`aesEncrypt key iv text` is `crypto.subtle.encrypt` with AES-GCM and
`aesDecrypt key iv cipher` is `crypto.subtle.decrypt`, `none` when its promise is
rejected (the authentication tag does not check); `btoa` and `atob` are the
base64 functions of the host (`none` when `atob` throws), on binary strings;
`toText` is the conversion `atob` applies to an argument that is no string. -/
structure CryptoHost where
  encode : String → List Byte
  decode : List Byte → String
  deriveKey : List Byte → List Byte → List Byte
  aesEncrypt : List Byte → List Byte → List Byte → List Byte
  aesDecrypt : List Byte → List Byte → List Byte → Option (List Byte)
  btoa : String → String
  atob : String → Option String
  toText : Option Json → String

/-- The function `arrayBufferToBase64(buffer)`: each byte becomes the character
of that code (`String.fromCharCode`), and the binary string goes to `btoa`. -/
def arrayBufferToBase64 (h : CryptoHost) (buffer : List Byte) : String :=
  h.btoa (String.mk (buffer.map (fun b => Char.ofNat b.val)))

/-- The function `base64ToArrayBuffer(base64)`: the codes of the characters of
`atob(base64)`, each stored into a `Uint8Array`, which keeps it modulo 256. -/
def base64ToArrayBuffer (h : CryptoHost) (base64 : String) : Option (List Byte) :=
  (h.atob base64).map (fun binary => binary.data.map (fun c => Fin.ofNat c.toNat))

/-- The function `encrypt(password, data)`, with the random `salt` (16 bytes) and
`iv` (12 bytes) it draws as arguments: the envelope `{cipher, salt, iv}`. -/
def encrypt (h : CryptoHost) (salt iv : List Byte) (password data : String) : Json :=
  Json.obj [
    ("cipher", Json.str (arrayBufferToBase64 h
      (h.aesEncrypt (h.deriveKey (h.encode password) salt) iv (h.encode data)))),
    ("salt", Json.str (arrayBufferToBase64 h salt)),
    ("iv", Json.str (arrayBufferToBase64 h iv))]

/-- The argument `atob` works on when it is given the field of a payload: the
string itself, or the text of a value that is no string. -/
def fieldText (h : CryptoHost) (value : Option Json) : String :=
  match value with
  | some (Json.str s) => s
  | other => h.toText other

/-- The function `decrypt(password, payload)`: `none` when it throws or its
promise is rejected, that is when a field is no base64 text or the decryption
fails. -/
def decrypt (h : CryptoHost) (password : String) (payload : Json) : Option String :=
  match base64ToArrayBuffer h (fieldText h (payload.field "salt")) with
  | none => none
  | some salt =>
    match base64ToArrayBuffer h (fieldText h (payload.field "iv")) with
    | none => none
    | some iv =>
      match base64ToArrayBuffer h (fieldText h (payload.field "cipher")) with
      | none => none
      | some cipher =>
        (h.aesDecrypt (h.deriveKey (h.encode password) salt) iv cipher).map h.decode

/-- The text `encryptedExport()` hands to the download, `none` when the prompt
is cancelled or answered with the empty string: the JSON text of the envelope of
the JSON text of `state`. -/
def encryptedExport (h : CryptoHost) (stringify : Json → String) (salt iv : List Byte)
    (answer : Option String) (state : Json) : Option String :=
  match answer with
  | none => none
  | some password =>
    if password = "" then none
    else some (stringify (encrypt h salt iv password (stringify state)))

/-! ## Scenario inputs -/

/-- An empty working invoice with fixed host readings, the base of the
scenarios below. -/
def blankInvoice : Invoice :=
  createEmptyInvoice defaultState "inv-1" "2024-01-01" "2024-01-15" 0

/-- A line item with the given quantity and rate, its total recomputed as the
input handlers do. -/
def lineOf (quantity rate : ℚ) : LineItem :=
  LineItem.recompute
    { id := "line-1", name := "", description := "", quantity := quantity, rate := rate,
      total := 0 }

/-- The scenario of the totals calculator: one item of quantity 2 at rate 50,
a 10 percent discount, 8 percent tax. -/
def scenarioInvoice : Invoice :=
  { blankInvoice with
    lineItems := [lineOf 2 50]
    discount := { type := "percent", value := 10 }
    taxRate := 8 }

/-- One item of quantity 2 at rate 50 and a flat discount of 500. -/
def flatInvoice : Invoice :=
  { blankInvoice with
    lineItems := [lineOf 2 50]
    discount := { type := "flat", value := 500 } }

/-- One item of total 100, no discount, and a tax rate of -200 percent. -/
def negativeTaxInvoice : Invoice :=
  { blankInvoice with
    lineItems := [lineOf 1 100]
    discount := { type := "percent", value := 0 }
    taxRate := -200 }

/-- A sent invoice due on 2024-01-15. -/
def sentInvoice : Invoice :=
  { blankInvoice with number := "INV-1001", status := "sent" }

/-- A paid invoice due on 2024-01-15. -/
def paidInvoice : Invoice :=
  { blankInvoice with number := "INV-1002", status := "paid" }

/-- A session on the default ledger with the blank working invoice. -/
def blankSession : Session :=
  { state := defaultState, currentInvoice := blankInvoice, storage := none }

/-- Fixed host readings for a manual save. -/
def fixedInputs : SaveInputs :=
  { now := 5, lastUsed := 5, uuid := "client-1", clientCreatedAt := 5, clientLastUsed := 5,
    historyClock := fun _ => 5, dashboardClock := fun _ => 5 }

/-- Host readings for a manual save made long after January 2024. -/
def lateInputs : SaveInputs :=
  { now := 1800000000000, lastUsed := 1800000000000, uuid := "client-1",
    clientCreatedAt := 1800000000000, clientLastUsed := 1800000000000,
    historyClock := fun _ => 1800000000000, dashboardClock := fun _ => 1800000000000 }

/-- A sent invoice with id `inv-2`, due on 2024-01-15. -/
def otherSentInvoice : Invoice :=
  { sentInvoice with id := "inv-2" }

/-- A session whose ledger holds the sent invoice `inv-2` and whose working
invoice is `inv-1`, with a number. -/
def dueSession : Session :=
  { state := { defaultState with invoices := [otherSentInvoice] }
    currentInvoice := { blankInvoice with number := "INV-1003" }
    storage := none }

/-- An autosaved draft record of invoice `inv-1`. -/
def draftRecord : Invoice :=
  { blankInvoice with
    number := "INV-1004"
    isDraft := some true
    savedAt := some 3 }

/-- A session whose working invoice `inv-1` was loaded from its autosaved draft
record, which is still in the ledger. -/
def draftSession : Session :=
  { state := { defaultState with invoices := [draftRecord] }
    currentInvoice := draftRecord
    storage := none }

/-- A paid invoice of total 100 issued on 2024-02-01. -/
def februaryInvoice : Invoice :=
  { blankInvoice with
    id := "inv-3"
    number := "INV-1005"
    issueDate := "2024-02-01"
    status := "paid"
    totals := { subtotal := 100, discount := 0, tax := 0, total := 100 } }

/-- A stand-in for the host's `String(number)` in the scenarios, right on whole
numbers: the digits of the numerator. -/
def wholeString (q : ℚ) : String := toString q.num

/-- A line item whose name holds a comma and double quotes. -/
def quotedItem : LineItem :=
  { id := "line-2", name := "Widget, \"large\"", description := "plain", quantity := 2,
    rate := 50, total := 100 }

/-- The default ledger with the footer `2% off`. -/
def percentLedger : Ledger :=
  { defaultState with settings := { defaultState.settings with footer := "2% off" } }

/-- The text `JSON.stringify` gives for `percentLedger`. -/
def percentLedgerText : String :=
  "\x7b\"lastInvoiceNumber\":1000,\"company\":\x7b\"name\":\"\",\"address" ++
    "\":\"\",\"phone\":\"\",\"email\":\"\",\"logo\":\"\"\x7d,\"clients\":[]" ++
    ",\"products\":[],\"invoices\":[],\"settings\":\x7b\"accent\":\"#6366f1" ++
    "\",\"font\":\"'Inter', sans-serif\",\"currency\":\x7b\"symbol\":\"$\"," ++
    "\"code\":\"USD\",\"locale\":\"en-US\"\x7d,\"theme\":\"classic\",\"auto" ++
    "Save\":true,\"footer\":\"2% off\"\x7d,\"historyCache\":[]\x7d"

/-- The text of an encrypted export: an envelope with `cipher`, `salt` and `iv`. -/
def envelopeText : String :=
  "\x7b\"cipher\":\"Y2lwaGVy\",\"salt\":\"c2FsdA==\",\"iv\":\"aXY=\"\x7d"

/-- The envelope that `envelopeText` parses to. -/
def envelopeDoc : Json :=
  Json.obj [("cipher", Json.str "Y2lwaGVy"), ("salt", Json.str "c2FsdA=="),
    ("iv", Json.str "aXY=")]

/-- The text of a document that has a `cipher` field, holding the empty string,
and a `salt` field. -/
def blankCipherText : String :=
  "\x7b\"cipher\":\"\",\"salt\":\"c2FsdA==\"\x7d"

/-- The document that `blankCipherText` parses to. -/
def blankCipherDoc : Json :=
  Json.obj [("cipher", Json.str ""), ("salt", Json.str "c2FsdA==")]

/-- A stand-in for `JSON.parse` in the scenarios, right on the texts it lists
and throwing on every other text. -/
def tableParse (text : String) : Option Json :=
  if text = "\x7b\x7d" then some (Json.obj [])
  else if text = "null" then some Json.null
  else if text = envelopeText then some envelopeDoc
  else if text = blankCipherText then some blankCipherDoc
  else if text = percentLedgerText then some percentLedger.toJson
  else none

/-- A stand-in for `JSON.stringify` in the scenarios, right on the documents of
the scenarios: `null`, the empty object, the document of `blankCipherText`, and
`percentLedger` for any other document. -/
def tableStringify : Json → String
  | Json.null => "null"
  | Json.obj [] => "\x7b\x7d"
  | Json.obj (("cipher", _) :: _) => blankCipherText
  | _ => percentLedgerText

/-- A host for the import scenarios: decryption is rejected for every password,
and the render steps after `populateClientSelect()` leave the state as it is. -/
def tableHost : ImportHost :=
  { parse := tableParse
    stringify := tableStringify
    decrypt := fun _ _ => none
    uuid := "inv-9"
    today := "2024-03-01"
    due := "2024-03-15"
    now := 7
    renderRest := fun doc => (doc, true) }

/-- An autosaved draft record of another invoice, `inv-2`. -/
def otherDraft : Invoice :=
  { draftRecord with id := "inv-2" }

/-- A session whose ledger holds, in this order, the saved record of `inv-1`, its
draft, and the draft of `inv-2`; the working invoice is `inv-1`. -/
def mixedSession : Session :=
  { state :=
      { defaultState with
        invoices := [{ blankInvoice with number := "INV-1004" }, draftRecord, otherDraft] }
    currentInvoice := { blankInvoice with number := "INV-1004" }
    storage := none }

/-- A working invoice with a number, no client id and the client `Acme` typed
into the form. -/
def acmeInvoice : Invoice :=
  { blankInvoice with
    number := "INV-1006"
    client :=
      { id := none, name := "Acme", address := "1 Main St", phone := "555", email := "a@acme.io" } }

/-- A session on the default ledger with the working invoice `acmeInvoice`. -/
def acmeSession : Session :=
  { state := defaultState, currentInvoice := acmeInvoice, storage := none }

/-- The total of a line of quantity `1e200` at rate `1e200`, as the input
handlers compute it: `item.quantity * item.rate`. -/
def hugeLineTotal : JsNumber :=
  (JsNumber.ofDecimal 1 200).mul (JsNumber.ofDecimal 1 200)

/-- Three invoices of February 2024 with totals `0.1` (paid), `0.2` (sent) and
`2.2` (paid). -/
def roundingInvoices : List ChartInvoice :=
  [{ issueDate := "2024-02-10", status := "paid", total := JsNumber.ofDecimal 1 (-1) },
   { issueDate := "2024-02-11", status := "sent", total := JsNumber.ofDecimal 2 (-1) },
   { issueDate := "2024-02-12", status := "paid", total := JsNumber.ofDecimal 22 (-1) }]

/-- A stand-in for `JSON.stringify` in the scenarios: the invoice count. -/
def countStringify (l : Ledger) : String := toString l.invoices.length

end InvoiceCraft

namespace InvoiceCraft

/-! ## Double arithmetic: lemmas -/

theorem pow2_pos (k : Int) : 0 < (pow2 k : Int) := by
  unfold pow2
  rw [Nat.one_shiftLeft]
  positivity

theorem fracNum_nonneg_iff (m e : Int) : 0 ≤ fracNum m e ↔ 0 ≤ m := by
  unfold fracNum
  constructor
  · intro h
    by_contra hm
    have := mul_neg_of_neg_of_pos (not_le.mp hm) (pow2_pos e)
    omega
  · intro h
    exact mul_nonneg h (pow2_pos e).le

theorem fracDen_pos (e : Int) : 0 < (fracDen e : Int) := pow2_pos _

theorem zero_le_fin (m e : Int) : JsNumber.zero.le (JsNumber.fin m e) = decide (0 ≤ m) := by
  show decide (fracNum 0 (-1074) * (fracDen e : Int) ≤ fracNum m e * (fracDen (-1074) : Int)) = _
  have h0 : fracNum 0 (-1074) = 0 := by simp [fracNum]
  rw [h0, zero_mul]
  congr 1
  apply propext
  rw [← fracNum_nonneg_iff m e]
  constructor
  · intro h
    by_contra hm
    have := mul_neg_of_neg_of_pos (not_le.mp hm) (fracDen_pos (-1074))
    omega
  · intro h
    exact mul_nonneg h (fracDen_pos _).le

theorem roundDouble_nonneg (num : Int) (den : Nat) (h : 0 ≤ num) :
    JsNumber.zero.le (roundDouble num den) = true := by
  have hn : ¬ num < 0 := not_lt.mpr h
  unfold roundDouble
  simp only [hn, decide_False, if_false]
  split_ifs
  all_goals first
    | (rw [zero_le_fin]; simp)
    | rfl


theorem JsNumber.le_self (x : JsNumber) (h : x ≠ JsNumber.nan) : x.le x = true := by
  cases x with
  | nan => exact (h rfl).elim
  | inf s => cases s <;> rfl
  | fin m e => simp [JsNumber.le]

theorem JsNumber.min_le_right (x y : JsNumber) (h : x.min y ≠ JsNumber.nan) :
    (x.min y).le y = true := by
  cases x with
  | nan => exact (h rfl).elim
  | inf s =>
    cases y with
    | nan => exact (h rfl).elim
    | inf t => cases s <;> cases t <;> rfl
    | fin m e => cases s <;> simp [JsNumber.min, JsNumber.le]
  | fin m e =>
    cases y with
    | nan => exact (h rfl).elim
    | inf t => cases t <;> rfl
    | fin m' e' =>
      show (if (JsNumber.fin m e).le (JsNumber.fin m' e') then JsNumber.fin m e
        else JsNumber.fin m' e').le (JsNumber.fin m' e') = true
      by_cases hle : (JsNumber.fin m e).le (JsNumber.fin m' e') = true
      · rw [if_pos hle]
        exact hle
      · rw [if_neg hle]
        exact JsNumber.le_self _ (by simp)

theorem JsNumber.sub_fin (m e m' e' : Int) :
    (JsNumber.fin m e).sub (JsNumber.fin m' e')
      = roundDouble (fracNum m e * fracDen e' + fracNum (-m') e' * fracDen e)
          (fracDen e * fracDen e') := rfl

theorem JsNumber.add_fin (m e m' e' : Int) :
    (JsNumber.fin m e).add (JsNumber.fin m' e')
      = roundDouble (fracNum m e * fracDen e' + fracNum m' e' * fracDen e)
          (fracDen e * fracDen e') := rfl

theorem JsNumber.mul_fin (m e m' e' : Int) :
    (JsNumber.fin m e).mul (JsNumber.fin m' e')
      = roundDouble (fracNum m e * fracNum m' e') (fracDen e * fracDen e') := rfl

theorem JsNumber.zero_le_sub (x y : JsNumber) (hle : y.le x = true)
    (h : x.sub y ≠ JsNumber.nan) : JsNumber.zero.le (x.sub y) = true := by
  cases x with
  | nan => exact (h rfl).elim
  | inf s =>
    cases y with
    | nan => exact (h rfl).elim
    | inf t =>
      cases s <;> cases t <;>
        first | rfl | exact (h rfl).elim | exact absurd hle (by simp [JsNumber.le])
    | fin m e => cases s <;> first | rfl | exact absurd hle (by simp [JsNumber.le])
  | fin m e =>
    cases y with
    | nan => exact absurd hle (by simp [JsNumber.le])
    | inf t => cases t <;> first | rfl | exact absurd hle (by simp [JsNumber.le])
    | fin m' e' =>
      rw [JsNumber.sub_fin]
      apply roundDouble_nonneg
      have h1 : fracNum m' e' * (fracDen e : Int) ≤ fracNum m e * (fracDen e' : Int) := by
        simpa [JsNumber.le] using hle
      have h2 : fracNum (-m') e' = - fracNum m' e' := by simp [fracNum]
      rw [h2]
      linarith

theorem JsNumber.zero_le_add (x y : JsNumber) (hx : JsNumber.zero.le x = true)
    (hy : JsNumber.zero.le y = true) : JsNumber.zero.le (x.add y) = true := by
  cases x with
  | nan => exact absurd hx (by simp [JsNumber.le, JsNumber.zero])
  | inf s =>
    cases s with
    | true => exact absurd hx (by simp [JsNumber.le, JsNumber.zero])
    | false =>
      cases y with
      | nan => exact absurd hy (by simp [JsNumber.le, JsNumber.zero])
      | inf t => cases t <;> first | rfl | exact absurd hy (by simp [JsNumber.le, JsNumber.zero])
      | fin m e => rfl
  | fin m e =>
    cases y with
    | nan => exact absurd hy (by simp [JsNumber.le, JsNumber.zero])
    | inf t => cases t <;> first | rfl | exact absurd hy (by simp [JsNumber.le, JsNumber.zero])
    | fin m' e' =>
      rw [JsNumber.add_fin]
      apply roundDouble_nonneg
      rw [zero_le_fin] at hx hy
      have h1 := (fracNum_nonneg_iff m e).mpr (by simpa using hx)
      have h2 := (fracNum_nonneg_iff m' e').mpr (by simpa using hy)
      exact add_nonneg (mul_nonneg h1 (fracDen_pos _).le) (mul_nonneg h2 (fracDen_pos _).le)

theorem JsNumber.zero_le_mul (x y : JsNumber) (hx : JsNumber.zero.le x = true)
    (hy : JsNumber.zero.le y = true) (h : x.mul y ≠ JsNumber.nan) :
    JsNumber.zero.le (x.mul y) = true := by
  cases x with
  | nan => exact absurd hx (by simp [JsNumber.le, JsNumber.zero])
  | inf s =>
    cases s with
    | true => exact absurd hx (by simp [JsNumber.le, JsNumber.zero])
    | false =>
      cases y with
      | nan => exact absurd hy (by simp [JsNumber.le, JsNumber.zero])
      | inf t => cases t <;> first | rfl | exact absurd hy (by simp [JsNumber.le, JsNumber.zero])
      | fin m e =>
        rw [zero_le_fin] at hy
        have hm : 0 ≤ m := by simpa using hy
        by_cases h0 : m = 0
        · subst h0
          exact (h rfl).elim
        · have hlt : ¬ m < 0 := not_lt.mpr hm
          simp [JsNumber.mul, h0, hlt, JsNumber.le, JsNumber.zero]
  | fin m e =>
    rw [zero_le_fin] at hx
    have hm : 0 ≤ m := by simpa using hx
    cases y with
    | nan => exact absurd hy (by simp [JsNumber.le, JsNumber.zero])
    | inf t =>
      cases t with
      | true => exact absurd hy (by simp [JsNumber.le, JsNumber.zero])
      | false =>
        by_cases h0 : m = 0
        · subst h0
          exact (h rfl).elim
        · have hlt : ¬ m < 0 := not_lt.mpr hm
          simp [JsNumber.mul, h0, hlt, JsNumber.le, JsNumber.zero]
    | fin m' e' =>
      rw [JsNumber.mul_fin]
      apply roundDouble_nonneg
      rw [zero_le_fin] at hy
      have h1 := (fracNum_nonneg_iff m e).mpr hm
      have h2 := (fracNum_nonneg_iff m' e').mpr (by simpa using hy)
      exact mul_nonneg h1 h2

theorem JsNumber.div_hundred_fin (m e : Int) :
    (JsNumber.fin m e).div JsNumber.hundred
      = roundDouble (fracNum m e * fracDen (-46))
          (fracDen e * (fracNum 7036874417766400 (-46)).natAbs) := by
  have h0 : ¬ (7036874417766400 : Int) = 0 := by decide
  have hs : Int.sign 7036874417766400 = 1 := by decide
  simp only [JsNumber.div, JsNumber.hundred, h0, if_false, hs, one_mul]

theorem JsNumber.zero_le_div_hundred (x : JsNumber) (hx : JsNumber.zero.le x = true) :
    JsNumber.zero.le (x.div JsNumber.hundred) = true := by
  cases x with
  | nan => exact absurd hx (by simp [JsNumber.le, JsNumber.zero])
  | inf s => cases s <;> first | rfl | exact absurd hx (by simp [JsNumber.le, JsNumber.zero])
  | fin m e =>
    rw [zero_le_fin] at hx
    have hm : 0 ≤ m := by simpa using hx
    rw [JsNumber.div_hundred_fin]
    apply roundDouble_nonneg
    exact mul_nonneg ((fracNum_nonneg_iff m e).mpr hm) (fracDen_pos _).le

/-! ## Totals calculator: lemmas -/

theorem orZero_eq (x : ℚ) : orZero x = x := by
  unfold orZero
  split
  · next h => exact h.symm
  · rfl

theorem foldl_orZero_eq (items : List LineItem) (acc : ℚ) :
    items.foldl (fun acc item => acc + orZero item.total) acc
      = acc + (items.map LineItem.total).sum := by
  induction items generalizing acc with
  | nil => simp
  | cons item rest ih =>
    rw [List.foldl_cons, ih, orZero_eq, List.map_cons, List.sum_cons]
    ring

theorem subtotalOf_eq_sum (items : List LineItem) :
    subtotalOf items = (items.map LineItem.total).sum := by
  unfold subtotalOf
  rw [foldl_orZero_eq]
  simp

theorem taxableOf_nonneg (inv : Invoice) : 0 ≤ taxableOf inv := by
  unfold taxableOf
  exact sub_nonneg.mpr (min_le_right _ _)

theorem taxableOf_eq (inv : Invoice) :
    taxableOf inv = (updateTotals inv).totals.subtotal - (updateTotals inv).totals.discount := rfl

theorem total_eq_taxable (inv : Invoice) :
    (updateTotals inv).totals.total = taxableOf inv * (1 + inv.taxRate / 100) := by
  show taxableOf inv + taxableOf inv * (inv.taxRate / 100) = _
  ring

/-- C1. With a percent discount of value `d` and tax rate `t`, `updateTotals`
caches subtotal `S` (the sum of the item totals), discount `min (S*d/100) S`
and total `(S - discount) * (1 + t/100)`; on the scenario invoice (quantity 2
at rate 50, 10 percent discount, 8 percent tax) the numbers are 100, 10, 90,
7.2 and 97.2. -/
theorem updateTotals_percent :
    (∀ inv : Invoice, inv.discount.type = "percent" →
      (updateTotals inv).totals.subtotal = (inv.lineItems.map LineItem.total).sum ∧
      (updateTotals inv).totals.discount
        = min ((inv.lineItems.map LineItem.total).sum * inv.discount.value / 100)
            ((inv.lineItems.map LineItem.total).sum) ∧
      (updateTotals inv).totals.total
        = ((inv.lineItems.map LineItem.total).sum - (updateTotals inv).totals.discount)
            * (1 + inv.taxRate / 100)) ∧
    ((updateTotals scenarioInvoice).totals.subtotal = 100 ∧
      (updateTotals scenarioInvoice).totals.discount = 10 ∧
      taxableOf scenarioInvoice = 90 ∧
      (updateTotals scenarioInvoice).totals.tax = 72 / 10 ∧
      (updateTotals scenarioInvoice).totals.total = 972 / 10) := by
  constructor
  · intro inv h
    have hS : subtotalOf inv.lineItems = (inv.lineItems.map LineItem.total).sum :=
      subtotalOf_eq_sum _
    have hd : (updateTotals inv).totals.discount
        = min ((inv.lineItems.map LineItem.total).sum * inv.discount.value / 100)
            ((inv.lineItems.map LineItem.total).sum) := by
      show min (rawDiscount (subtotalOf inv.lineItems) inv.discount) (subtotalOf inv.lineItems) = _
      rw [hS]
      unfold rawDiscount
      rw [if_pos h, mul_div_assoc]
    refine ⟨hS, hd, ?_⟩
    rw [total_eq_taxable, taxableOf_eq]
    show (subtotalOf inv.lineItems - _) * _ = _
    rw [hS]
  · have hS : subtotalOf scenarioInvoice.lineItems = 100 := by
      rw [subtotalOf_eq_sum]
      norm_num [scenarioInvoice, lineOf, LineItem.recompute]
    have hraw : rawDiscount 100 scenarioInvoice.discount = 10 := by
      norm_num [rawDiscount, scenarioInvoice]
    have ht : scenarioInvoice.taxRate = 8 := rfl
    refine ⟨hS, ?_, ?_, ?_, ?_⟩
    · show min (rawDiscount (subtotalOf scenarioInvoice.lineItems) scenarioInvoice.discount)
        (subtotalOf scenarioInvoice.lineItems) = 10
      rw [hS, hraw]; norm_num
    · unfold taxableOf
      rw [hS, hraw]; norm_num
    · show taxableOf scenarioInvoice * (scenarioInvoice.taxRate / 100) = _
      unfold taxableOf
      rw [hS, hraw, ht]; norm_num
    · rw [total_eq_taxable]
      unfold taxableOf
      rw [hS, hraw, ht]; norm_num

/-- Witness of C1 on the scenario invoice, whose discount is a percent discount. -/
theorem updateTotals_percent_witness :
    scenarioInvoice.discount.type = "percent" ∧
    (updateTotals scenarioInvoice).totals.subtotal
      = (scenarioInvoice.lineItems.map LineItem.total).sum :=
  ⟨rfl, (updateTotals_percent.1 scenarioInvoice rfl).1⟩

theorem computeTotals_discount_le_subtotal (inv : Invoice) :
    (updateTotals inv).totals.discount ≤ (updateTotals inv).totals.subtotal ∧
    0 ≤ (updateTotals inv).totals.subtotal - (updateTotals inv).totals.discount ∧
    taxableOf inv = (updateTotals inv).totals.subtotal - (updateTotals inv).totals.discount ∧
    (inv.discount.type ≠ "percent" ∧ (updateTotals inv).totals.subtotal ≤ inv.discount.value →
      (updateTotals inv).totals.discount = (updateTotals inv).totals.subtotal) := by
  have h1 : (updateTotals inv).totals.discount ≤ (updateTotals inv).totals.subtotal :=
    min_le_right _ _
  refine ⟨h1, sub_nonneg.mpr h1, rfl, ?_⟩
  rintro ⟨hty, hle⟩
  show min (rawDiscount (subtotalOf inv.lineItems) inv.discount) (subtotalOf inv.lineItems) = _
  unfold rawDiscount
  rw [if_neg hty]
  exact min_eq_right hle

theorem flatInvoice_subtotal : (updateTotals flatInvoice).totals.subtotal = 100 := by
  show subtotalOf flatInvoice.lineItems = 100
  rw [subtotalOf_eq_sum]
  norm_num [flatInvoice, lineOf, LineItem.recompute]

set_option maxRecDepth 1000000 in
/-- C2, as stated, fails in the arithmetic of the code: a line of quantity
`1e200` at rate `1e200` has the total `Infinity`, so the subtotal is `Infinity`;
a percent discount of `0` of it is `Infinity * 0`, which is `NaN`, and
`Math.min(NaN, Infinity)` is `NaN`: the test `discount <= subtotal` is false, and
so is `0 <= taxable`, the taxable amount being `NaN` as well. -/
theorem updateTotals_overflow_discount_nan :
    hugeLineTotal = JsNumber.inf false ∧
    (updateTotalsDouble [hugeLineTotal] "percent" JsNumber.zero JsNumber.zero).subtotal
      = JsNumber.inf false ∧
    (updateTotalsDouble [hugeLineTotal] "percent" JsNumber.zero JsNumber.zero).discount
      = JsNumber.nan ∧
    JsNumber.le
      (updateTotalsDouble [hugeLineTotal] "percent" JsNumber.zero JsNumber.zero).discount
      (updateTotalsDouble [hugeLineTotal] "percent" JsNumber.zero JsNumber.zero).subtotal
      = false ∧
    taxableDouble [hugeLineTotal] "percent" JsNumber.zero = JsNumber.nan ∧
    JsNumber.le JsNumber.zero (taxableDouble [hugeLineTotal] "percent" JsNumber.zero) = false := by
  decide

/-- C2, amended. Whatever the line items and the discount (flat or percent, of
any value): in the double arithmetic of the code, the discount `updateTotals`
caches is at most the subtotal whenever it is a number, the taxable amount
`subtotal - discount` is not below 0 whenever it is a number, and a flat
discount of at least the subtotal is clamped to the subtotal.  With arithmetic
taken as exact the discount is always at most the subtotal and the taxable
amount never below 0. -/
theorem updateTotals_discount_le_subtotal :
    (∀ (itemTotals : List JsNumber) (discountType : String) (discountValue taxRate : JsNumber),
      ((updateTotalsDouble itemTotals discountType discountValue taxRate).discount
          ≠ JsNumber.nan →
        JsNumber.le (updateTotalsDouble itemTotals discountType discountValue taxRate).discount
          (updateTotalsDouble itemTotals discountType discountValue taxRate).subtotal = true) ∧
      taxableDouble itemTotals discountType discountValue
        = JsNumber.sub (updateTotalsDouble itemTotals discountType discountValue taxRate).subtotal
            (updateTotalsDouble itemTotals discountType discountValue taxRate).discount ∧
      (taxableDouble itemTotals discountType discountValue ≠ JsNumber.nan →
        JsNumber.le JsNumber.zero (taxableDouble itemTotals discountType discountValue) = true) ∧
      (discountType ≠ "percent" →
        JsNumber.le (updateTotalsDouble itemTotals discountType discountValue taxRate).subtotal
          discountValue = true →
        JsNumber.le (updateTotalsDouble itemTotals discountType discountValue taxRate).subtotal
            (updateTotalsDouble itemTotals discountType discountValue taxRate).discount = true ∧
        JsNumber.le (updateTotalsDouble itemTotals discountType discountValue taxRate).discount
            (updateTotalsDouble itemTotals discountType discountValue taxRate).subtotal = true)) ∧
    (∀ inv : Invoice,
      (updateTotals inv).totals.discount ≤ (updateTotals inv).totals.subtotal ∧
      0 ≤ (updateTotals inv).totals.subtotal - (updateTotals inv).totals.discount ∧
      taxableOf inv = (updateTotals inv).totals.subtotal - (updateTotals inv).totals.discount ∧
      (inv.discount.type ≠ "percent" ∧ (updateTotals inv).totals.subtotal ≤ inv.discount.value →
        (updateTotals inv).totals.discount = (updateTotals inv).totals.subtotal)) := by
  refine ⟨?_, computeTotals_discount_le_subtotal⟩
  intro itemTotals discountType discountValue taxRate
  have hle : (updateTotalsDouble itemTotals discountType discountValue taxRate).discount
        ≠ JsNumber.nan →
      JsNumber.le (updateTotalsDouble itemTotals discountType discountValue taxRate).discount
        (updateTotalsDouble itemTotals discountType discountValue taxRate).subtotal = true :=
    fun h => JsNumber.min_le_right _ _ h
  refine ⟨hle, rfl, ?_, ?_⟩
  · intro h
    have hd : (updateTotalsDouble itemTotals discountType discountValue taxRate).discount
        ≠ JsNumber.nan := by
      intro hnan
      apply h
      show JsNumber.sub (updateTotalsDouble itemTotals discountType discountValue taxRate).subtotal
        (updateTotalsDouble itemTotals discountType discountValue taxRate).discount = JsNumber.nan
      rw [hnan]
      cases (updateTotalsDouble itemTotals discountType discountValue taxRate).subtotal <;> rfl
    exact JsNumber.zero_le_sub _ _ (hle hd) h
  · intro hty hS
    have hraw : (updateTotalsDouble itemTotals discountType discountValue taxRate).discount
        = JsNumber.min discountValue (subtotalDouble itemTotals) := by
      show JsNumber.min (if discountType = "percent" then _ else discountValue) _ = _
      rw [if_neg hty]
    have hS' : JsNumber.le (subtotalDouble itemTotals) discountValue = true := hS
    have hSn : subtotalDouble itemTotals ≠ JsNumber.nan := by
      intro hn
      rw [hn] at hS'
      exact absurd hS' (by simp [JsNumber.le])
    have hvn : discountValue ≠ JsNumber.nan := by
      intro hn
      rw [hn] at hS'
      revert hS'
      cases subtotalDouble itemTotals <;> simp [JsNumber.le]
    have hmin : JsNumber.min discountValue (subtotalDouble itemTotals)
        = if JsNumber.le discountValue (subtotalDouble itemTotals) then discountValue
          else subtotalDouble itemTotals := by
      revert hSn hvn
      cases discountValue <;> cases subtotalDouble itemTotals <;> simp [JsNumber.min]
    rw [hraw, hmin]
    show JsNumber.le (subtotalDouble itemTotals) _ = true ∧ JsNumber.le _ (subtotalDouble itemTotals) = true
    by_cases hv : JsNumber.le discountValue (subtotalDouble itemTotals) = true
    · rw [if_pos hv]
      exact ⟨hS', hv⟩
    · rw [if_neg hv]
      exact ⟨JsNumber.le_self _ hSn, JsNumber.le_self _ hSn⟩

set_option maxRecDepth 1000000 in
/-- Witness of the amended C2: a flat discount of 500 on one line of total 100 is
a number, at most the subtotal, and clamped to it; over the rationals the same
invoice gives discount = subtotal. -/
theorem updateTotals_discount_le_subtotal_witness :
    (updateTotalsDouble [JsNumber.ofDecimal 100 0] "flat" (JsNumber.ofDecimal 500 0)
        JsNumber.zero).discount = JsNumber.ofDecimal 100 0 ∧
    JsNumber.le
      (updateTotalsDouble [JsNumber.ofDecimal 100 0] "flat" (JsNumber.ofDecimal 500 0)
        JsNumber.zero).discount
      (updateTotalsDouble [JsNumber.ofDecimal 100 0] "flat" (JsNumber.ofDecimal 500 0)
        JsNumber.zero).subtotal = true ∧
    (updateTotals flatInvoice).totals.discount = (updateTotals flatInvoice).totals.subtotal :=
  ⟨by decide,
    (updateTotals_discount_le_subtotal.1 [JsNumber.ofDecimal 100 0] "flat"
      (JsNumber.ofDecimal 500 0) JsNumber.zero).1 (by decide),
    (updateTotals_discount_le_subtotal.2 flatInvoice).2.2.2
      ⟨by decide, by rw [flatInvoice_subtotal]; norm_num [flatInvoice]⟩⟩

set_option maxRecDepth 1000000 in
/-- C3, as stated, fails, in two ways.  With a tax rate of -200 percent on a
subtotal of 100 and a percent discount of 0, the grand total is -100, over the
rationals and in doubles alike.  And within the ranges of the data model, a
line of quantity `1e200` at rate `1e200` with a percent discount of 0 and a tax
rate of 0 has the subtotal `Infinity` and the grand total `NaN`, for which the
test `0 <= total` is false. -/
theorem updateTotals_total_negative :
    (negativeTaxInvoice.discount.type = "percent" ∧
      (updateTotals negativeTaxInvoice).totals.total = -100 ∧
      ¬ (0 ≤ (updateTotals negativeTaxInvoice).totals.total)) ∧
    ((updateTotalsDouble [JsNumber.ofDecimal 100 0] "percent" JsNumber.zero
        (JsNumber.ofDecimal (-200) 0)).total = JsNumber.ofDecimal (-100) 0 ∧
      JsNumber.le JsNumber.zero
        (updateTotalsDouble [JsNumber.ofDecimal 100 0] "percent" JsNumber.zero
          (JsNumber.ofDecimal (-200) 0)).total = false) ∧
    (hugeLineTotal = JsNumber.inf false ∧
      (updateTotalsDouble [hugeLineTotal] "percent" JsNumber.zero JsNumber.zero).total
        = JsNumber.nan ∧
      JsNumber.le JsNumber.zero
        (updateTotalsDouble [hugeLineTotal] "percent" JsNumber.zero JsNumber.zero).total
        = false) := by
  have hS : subtotalOf negativeTaxInvoice.lineItems = 100 := by
    rw [subtotalOf_eq_sum]
    norm_num [negativeTaxInvoice, lineOf, LineItem.recompute]
  have hraw : rawDiscount 100 negativeTaxInvoice.discount = 0 := by
    norm_num [rawDiscount, negativeTaxInvoice]
  have ht : negativeTaxInvoice.taxRate = -200 := rfl
  have htot : (updateTotals negativeTaxInvoice).totals.total = -100 := by
    rw [total_eq_taxable]
    unfold taxableOf
    rw [hS, hraw, ht]; norm_num
  refine ⟨⟨rfl, htot, ?_⟩, by decide, by decide⟩
  rw [htot]; norm_num

theorem computeTotals_total_nonneg (inv : Invoice) (ht : -100 ≤ inv.taxRate) :
    0 ≤ (updateTotals inv).totals.total := by
  rw [total_eq_taxable]
  have h1 : 0 ≤ 1 + inv.taxRate / 100 := by
    have : -1 ≤ inv.taxRate / 100 := by
      rw [le_div_iff₀ (by norm_num : (0 : ℚ) < 100)]
      linarith
    linarith
  exact mul_nonneg (taxableOf_nonneg inv) h1

theorem JsNumber.nan_add (y : JsNumber) : JsNumber.nan.add y = JsNumber.nan := rfl

theorem JsNumber.add_nan (x : JsNumber) : x.add JsNumber.nan = JsNumber.nan := by
  cases x <;> rfl

theorem JsNumber.nan_mul (y : JsNumber) : JsNumber.nan.mul y = JsNumber.nan := rfl

theorem taxableDouble_nonneg (itemTotals : List JsNumber) (discountType : String)
    (discountValue : JsNumber)
    (h : taxableDouble itemTotals discountType discountValue ≠ JsNumber.nan) :
    JsNumber.le JsNumber.zero (taxableDouble itemTotals discountType discountValue) = true := by
  have hd : JsNumber.min
      (if discountType = "percent" then
        (subtotalDouble itemTotals).mul (discountValue.div JsNumber.hundred)
      else discountValue) (subtotalDouble itemTotals) ≠ JsNumber.nan := by
    intro hnan
    apply h
    show JsNumber.sub (subtotalDouble itemTotals) (JsNumber.min _ _) = JsNumber.nan
    rw [hnan]
    cases subtotalDouble itemTotals <;> rfl
  exact JsNumber.zero_le_sub _ _ (JsNumber.min_le_right _ _ hd) h

/-- C3, amended. For every list of line items, every discount (so every percent
discount) and every tax rate of at least 0, the range the data model gives
`taxRate`: in the double arithmetic of the code the grand total `updateTotals`
caches is at least 0 whenever it is a number.  With arithmetic taken as exact it
is at least 0 for every tax rate of at least -100 percent. -/
theorem updateTotals_total_nonneg :
    (∀ (itemTotals : List JsNumber) (discountType : String) (discountValue taxRate : JsNumber),
      JsNumber.le JsNumber.zero taxRate = true →
      (updateTotalsDouble itemTotals discountType discountValue taxRate).total ≠ JsNumber.nan →
      JsNumber.le JsNumber.zero
        (updateTotalsDouble itemTotals discountType discountValue taxRate).total = true) ∧
    (∀ inv : Invoice, -100 ≤ inv.taxRate → 0 ≤ (updateTotals inv).totals.total) := by
  refine ⟨?_, computeTotals_total_nonneg⟩
  intro itemTotals discountType discountValue taxRate ht hnan
  have htotal : (updateTotalsDouble itemTotals discountType discountValue taxRate).total
      = (taxableDouble itemTotals discountType discountValue).add
          ((taxableDouble itemTotals discountType discountValue).mul
            (taxRate.div JsNumber.hundred)) := rfl
  rw [htotal] at hnan ⊢
  have hT : taxableDouble itemTotals discountType discountValue ≠ JsNumber.nan := by
    intro hn
    rw [hn] at hnan
    exact hnan rfl
  have htax : (taxableDouble itemTotals discountType discountValue).mul
      (taxRate.div JsNumber.hundred) ≠ JsNumber.nan := by
    intro hn
    rw [hn, JsNumber.add_nan] at hnan
    exact hnan rfl
  have h1 := taxableDouble_nonneg itemTotals discountType discountValue hT
  have h2 := JsNumber.zero_le_div_hundred taxRate ht
  exact JsNumber.zero_le_add _ _ h1 (JsNumber.zero_le_mul _ _ h1 h2 htax)

set_option maxRecDepth 1000000 in
/-- Witness of the amended C3 on the scenario invoice (quantity 2 at rate 50, 10
percent discount, 8 percent tax): in doubles the total is the double `97.2`,
which is a number and at least 0; over the rationals it is at least 0. -/
theorem updateTotals_total_nonneg_witness :
    (updateTotalsDouble [(JsNumber.ofDecimal 2 0).mul (JsNumber.ofDecimal 50 0)] "percent"
        (JsNumber.ofDecimal 10 0) (JsNumber.ofDecimal 8 0)).total = JsNumber.ofDecimal 972 (-1) ∧
    JsNumber.le JsNumber.zero
      (updateTotalsDouble [(JsNumber.ofDecimal 2 0).mul (JsNumber.ofDecimal 50 0)] "percent"
        (JsNumber.ofDecimal 10 0) (JsNumber.ofDecimal 8 0)).total = true ∧
    0 ≤ (updateTotals scenarioInvoice).totals.total :=
  ⟨by decide,
    updateTotals_total_nonneg.1 [(JsNumber.ofDecimal 2 0).mul (JsNumber.ofDecimal 50 0)]
      "percent" (JsNumber.ofDecimal 10 0) (JsNumber.ofDecimal 8 0) (by decide) (by decide),
    updateTotals_total_nonneg.2 scenarioInvoice (by norm_num [scenarioInvoice])⟩

/-! ## Status resolver: lemmas -/

theorem updateStatus_of_ne_sent (getTime : String → Option Int) (now : Int) (inv : Invoice)
    (h : inv.status ≠ "sent") : updateStatus getTime now inv = inv := by
  unfold updateStatus
  split
  · rfl
  · split
    · next hs => exact absurd hs.1 h
    · rfl

theorem nowAfter_iff (now : Int) (due : Option Int) :
    nowAfter now due = true ↔ ∃ t, due = some t ∧ t < now := by
  cases due with
  | none => simp [nowAfter]
  | some t => simp [nowAfter]

theorem updateStatus_sent (getTime : String → Option Int) (now : Int) (inv : Invoice)
    (h : inv.status = "sent") :
    (updateStatus getTime now inv).status
      = if nowAfter now (getTime inv.dueDate) = true then "overdue" else "sent" := by
  have hp : ¬ inv.status = "paid" := by rw [h]; decide
  unfold updateStatus
  rw [if_neg hp]
  by_cases hn : nowAfter now (getTime inv.dueDate) = true
  · rw [if_pos ⟨h, hn⟩, if_pos hn]
  · rw [if_neg (fun hc => hn hc.2), if_neg hn, h]

/-- C4. `updateStatus` leaves an invoice whose status is not `sent` as it is,
at every evaluation time and under any number of repeated evaluations: the
status (paid, draft, overdue or any other) stays what it was. -/
theorem updateStatus_non_sent_unchanged (getTime : String → Option Int) (times : List Int)
    (inv : Invoice) (h : inv.status ≠ "sent") :
    (updateStatusAt getTime times inv).status = inv.status ∧
    updateStatusAt getTime times inv = inv := by
  have key : updateStatusAt getTime times inv = inv := by
    unfold updateStatusAt
    induction times with
    | nil => rfl
    | cons now rest ih =>
      rw [List.foldl_cons, updateStatus_of_ne_sent getTime now inv h]
      exact ih
  exact ⟨by rw [key], key⟩

/-- Witness of C4: a paid invoice due on 2024-01-15, evaluated three times long
after the due date, stays paid. -/
theorem updateStatus_non_sent_unchanged_witness :
    paidInvoice.status ≠ "sent" ∧
    (updateStatusAt isoDateGetTime [1800000000000, 1800000000001, 1900000000000]
      paidInvoice).status = "paid" :=
  ⟨by decide,
    (updateStatus_non_sent_unchanged isoDateGetTime
      [1800000000000, 1800000000001, 1900000000000] paidInvoice (by decide)).1⟩

/-- C5, as stated, fails: `new Date("2024-01-15")` is midnight UTC of that day,
1705276800000.  In a zone five hours behind UTC (offset 300) local midnight of the
due date is five hours later; evaluated at 1705284000000 (02:00 UTC, 21:00 of
the day before in that zone), so before local midnight of the due date, the sent
invoice is nevertheless resolved to overdue. -/
theorem updateStatus_overdue_before_local_midnight :
    sentInvoice.status = "sent" ∧
    isoDateGetTime sentInvoice.dueDate = some 1705276800000 ∧
    (updateStatus isoDateGetTime 1705284000000 sentInvoice).status = "overdue" ∧
    ¬ (localMidnight 300 1705276800000 < 1705284000000) := by
  refine ⟨rfl, by decide, by decide, by decide⟩

/-- C5, amended. For every sent invoice and every evaluation time `now`,
`updateStatus` yields `overdue` exactly when `now` is strictly after the instant
`new Date(dueDate).getTime()`, and leaves the invoice `sent` otherwise (at or
before that instant, or when the date does not parse).  When that instant is
midnight UTC of the due day, as it is for a date-only string, an evaluation at or
after local midnight of the next day yields `overdue` in every zone less than a
day ahead of UTC. -/
theorem updateStatus_sent_overdue_iff (getTime : String → Option Int) (now : Int)
    (inv : Invoice) (h : inv.status = "sent") :
    ((updateStatus getTime now inv).status = "overdue"
        ↔ ∃ t, getTime inv.dueDate = some t ∧ t < now) ∧
    ((¬ ∃ t, getTime inv.dueDate = some t ∧ t < now) →
        (updateStatus getTime now inv).status = "sent") ∧
    (∀ day tzOffset : Int, getTime inv.dueDate = some (day * msPerDay) →
        -1440 < tzOffset → localMidnight tzOffset ((day + 1) * msPerDay) ≤ now →
        (updateStatus getTime now inv).status = "overdue") := by
  have hst := updateStatus_sent getTime now inv h
  have hiff : (updateStatus getTime now inv).status = "overdue"
      ↔ ∃ t, getTime inv.dueDate = some t ∧ t < now := by
    rw [hst, ← nowAfter_iff]
    by_cases hn : nowAfter now (getTime inv.dueDate) = true
    · simp [hn]
    · simp [hn]
  refine ⟨hiff, ?_, ?_⟩
  · intro hno
    rw [hst, if_neg]
    rw [nowAfter_iff]
    exact hno
  · intro day tz hdue htz hnow
    rw [hiff]
    refine ⟨day * msPerDay, hdue, ?_⟩
    unfold localMidnight msPerDay at hnow
    unfold msPerDay
    linarith

/-- Witness of the amended C5: the sent invoice due on 2024-01-15, evaluated one
millisecond after midnight UTC of that day, is overdue. -/
theorem updateStatus_sent_overdue_iff_witness :
    sentInvoice.status = "sent" ∧
    (updateStatus isoDateGetTime 1705276800001 sentInvoice).status = "overdue" :=
  ⟨rfl,
    (updateStatus_sent_overdue_iff isoDateGetTime 1705276800001 sentInvoice rfl).1.mpr
      ⟨1705276800000, by decide, by decide⟩⟩

/-! ## Autosave: lemmas -/

theorem saveDraft_settings (stringify : Ledger → String) (now : Int) (s : Session) :
    (saveDraft stringify now s).state.settings = s.state.settings := by
  unfold saveDraft
  split <;> rfl

theorem autosaveTicks_settings (stringify : Ledger → String) (ticks : List (Invoice × Int))
    (s : Session) : (autosaveTicks stringify s ticks).state.settings = s.state.settings := by
  unfold autosaveTicks
  induction ticks generalizing s with
  | nil => rfl
  | cons tick rest ih =>
    rw [List.foldl_cons, ih]
    exact saveDraft_settings stringify tick.2 _

theorem saveDraft_invoices (stringify : Ledger → String) (now : Int) (s : Session)
    (h : s.state.settings.autoSave = true) :
    (saveDraft stringify now s).state.invoices
      = dropDrafts s.currentInvoice.id s.state.invoices
          ++ [{ s.currentInvoice with isDraft := some true, savedAt := some now }] := by
  unfold saveDraft
  rw [if_neg (by rw [h]; decide)]
  rfl

theorem countP_dropDrafts (id : String) (invoices : List Invoice) :
    List.countP (fun inv => inv.draftFlag && inv.id == id) (dropDrafts id invoices) = 0 := by
  unfold dropDrafts
  rw [List.countP_eq_zero]
  intro inv hmem
  have h2 := (List.mem_filter.mp hmem).2
  cases hd : inv.draftFlag <;> cases hi : (inv.id == id) <;> simp_all

/-- C6. From every starting session with autosave enabled, after any non-empty
run of autosave ticks on a working invoice whose id stays `id` (the invoice may
be edited between ticks), the invoice list holds exactly one record that is a
draft and has that id. -/
theorem autosave_single_draft (stringify : Ledger → String) (s : Session) (id : String)
    (ticks : List (Invoice × Int)) (hne : ticks ≠ [])
    (hid : ∀ tick ∈ ticks, tick.1.id = id) (hauto : s.state.settings.autoSave = true) :
    List.countP (fun inv => inv.draftFlag && inv.id == id)
      (autosaveTicks stringify s ticks).state.invoices = 1 := by
  rcases List.eq_nil_or_concat ticks with hnil | ⟨front, last, hcat⟩
  · exact absurd hnil hne
  · rw [List.concat_eq_append] at hcat
    subst hcat
    have hlast : last.1.id = id := hid last (by simp)
    have hauto2 : (autosaveTicks stringify s front).state.settings.autoSave = true := by
      rw [autosaveTicks_settings]; exact hauto
    have hstep : autosaveTicks stringify s (front ++ [last])
        = autosaveTick stringify (autosaveTicks stringify s front) last := by
      unfold autosaveTicks
      rw [List.foldl_append]
      rfl
    rw [hstep]
    unfold autosaveTick
    rw [saveDraft_invoices stringify last.2
      { autosaveTicks stringify s front with currentInvoice := last.1 } hauto2,
      List.countP_append]
    show List.countP _ (dropDrafts last.1.id _) + _ = 1
    rw [hlast, countP_dropDrafts]
    simp [Invoice.draftFlag, hlast]

/-- Witness of C6: three ticks on the blank working invoice of the default
ledger, where autosave is enabled. -/
theorem autosave_single_draft_witness :
    List.countP (fun inv => inv.draftFlag && inv.id == "inv-1")
      (autosaveTicks countStringify blankSession
        [(blankInvoice, 1), (blankInvoice, 2), (blankInvoice, 3)]).state.invoices = 1 :=
  autosave_single_draft countStringify blankSession "inv-1"
    [(blankInvoice, 1), (blankInvoice, 2), (blankInvoice, 3)] (by simp)
    (by intro tick htick; simp at htick; rcases htick with h | h | h <;> rw [h] <;> rfl) rfl

/-! ## Manual save: lemmas -/

theorem saveCurrentInvoice_of_empty_number (stringify : Ledger → String)
    (getTime : String → Option Int) (inp : SaveInputs) (s : Session)
    (h : s.currentInvoice.number = "") : saveCurrentInvoice stringify getTime inp s = s := by
  unfold saveCurrentInvoice
  rw [if_pos h]

theorem saveCurrentInvoice_historyCache (stringify : Ledger → String)
    (getTime : String → Option Int) (inp : SaveInputs) (s : Session)
    (h : s.currentInvoice.number ≠ "") :
    (saveCurrentInvoice stringify getTime inp s).state.historyCache
      = pushHistory (historyEntryOf (updateTotals { s.currentInvoice with updatedAt := inp.now }))
          s.state.historyCache := by
  unfold saveCurrentInvoice
  rw [if_neg h]
  simp only [refreshDashboard, renderHistory, persistState]
  split
  · rfl
  · split <;> rfl

theorem take_append_take {α : Type} (n : Nat) (a b : List α) :
    (a ++ b.take n).take n = (a ++ b).take n := by
  rw [List.take_append_eq_append_take, List.take_append_eq_append_take, List.take_take]
  congr 2
  omega

theorem saveStep_historyCache (stringify : Ledger → String) (getTime : String → Option Int)
    (st : SaveInputs × Invoice) (s : Session) (h : st.2.number ≠ "") :
    (saveStep stringify getTime s st).state.historyCache
      = (savedEntry st :: s.state.historyCache).take 10 := by
  unfold saveStep
  rw [saveCurrentInvoice_historyCache stringify getTime st.1 _ h]
  rfl

theorem saveSteps_historyCache (stringify : Ledger → String) (getTime : String → Option Int)
    (steps : List (SaveInputs × Invoice)) (s : Session) (hne : steps ≠ [])
    (hnum : ∀ st ∈ steps, st.2.number ≠ "") :
    (saveSteps stringify getTime s steps).state.historyCache
      = ((steps.reverse.map savedEntry) ++ s.state.historyCache).take 10 := by
  unfold saveSteps
  induction steps generalizing s with
  | nil => exact absurd rfl hne
  | cons st rest ih =>
    rw [List.foldl_cons]
    have hst := saveStep_historyCache stringify getTime st s (hnum st (List.mem_cons_self _ _))
    by_cases hrest : rest = []
    · subst hrest
      simpa using hst
    · rw [ih _ hrest (fun x hx => hnum x (List.mem_cons_of_mem _ hx)), hst, take_append_take]
      simp

/-- C7. From every starting session (so every starting history cache), after
more than 10 successful manual saves the history cache is exactly the entries
of the 10 most recent saves, newest first; and after any single successful save
the first entry of the cache describes the invoice just saved (its id, number,
client name, recomputed total, status, due date and the time of the save) and
the cache has at most 10 entries. -/
theorem saveCurrentInvoice_history_bound (stringify : Ledger → String)
    (getTime : String → Option Int) (s : Session) (steps : List (SaveInputs × Invoice))
    (hnum : ∀ st ∈ steps, st.2.number ≠ "") (hK : 10 < steps.length) :
    (saveSteps stringify getTime s steps).state.historyCache
        = (steps.reverse.take 10).map savedEntry ∧
    (saveSteps stringify getTime s steps).state.historyCache.length = 10 ∧
    (∀ (s1 : Session) (inp : SaveInputs), s1.currentInvoice.number ≠ "" →
      (saveCurrentInvoice stringify getTime inp s1).state.historyCache.head?
        = some
            { invoiceId := s1.currentInvoice.id
              number := s1.currentInvoice.number
              client := s1.currentInvoice.client.name
              total := (computeTotals s1.currentInvoice).total
              status := s1.currentInvoice.status
              dueDate := s1.currentInvoice.dueDate
              updatedAt := inp.now } ∧
      (saveCurrentInvoice stringify getTime inp s1).state.historyCache.length ≤ 10) := by
  have hne : steps ≠ [] := by
    intro h
    rw [h] at hK
    simp at hK
  have hcache : (saveSteps stringify getTime s steps).state.historyCache
      = (steps.reverse.take 10).map savedEntry := by
    rw [saveSteps_historyCache stringify getTime steps s hne hnum,
      List.take_append_of_le_length (by simp; omega), List.map_take]
  refine ⟨hcache, ?_, ?_⟩
  · rw [hcache]
    simp
    omega
  · intro s1 inp h1
    rw [saveCurrentInvoice_historyCache stringify getTime inp s1 h1]
    unfold pushHistory
    constructor
    · rfl
    · rw [List.length_take]
      exact Nat.min_le_left _ _

/-- Witness of C7: eleven saves of the sent invoice from the blank session leave
a history cache of 10 entries. -/
theorem saveCurrentInvoice_history_bound_witness :
    (saveSteps countStringify isoDateGetTime blankSession
      (List.replicate 11 (fixedInputs, sentInvoice))).state.historyCache.length = 10 :=
  (saveCurrentInvoice_history_bound countStringify isoDateGetTime blankSession
    (List.replicate 11 (fixedInputs, sentInvoice))
    (by intro st hst; rw [List.eq_of_mem_replicate hst]; decide) (by decide)).2.1

/-- C10. When the working invoice has no number, `saveCurrentInvoice` returns
before any mutation: the session is exactly as before the call, and so are the
invoice list, the client list, the history cache, the stored blob and the
working invoice with its `updatedAt` and totals. -/
theorem saveCurrentInvoice_rejects_missing_number (stringify : Ledger → String)
    (getTime : String → Option Int) (inp : SaveInputs) (s : Session)
    (h : s.currentInvoice.number = "") :
    saveCurrentInvoice stringify getTime inp s = s ∧
    (saveCurrentInvoice stringify getTime inp s).state.invoices = s.state.invoices ∧
    (saveCurrentInvoice stringify getTime inp s).state.clients = s.state.clients ∧
    (saveCurrentInvoice stringify getTime inp s).state.historyCache = s.state.historyCache ∧
    (saveCurrentInvoice stringify getTime inp s).storage = s.storage ∧
    (saveCurrentInvoice stringify getTime inp s).currentInvoice.updatedAt
      = s.currentInvoice.updatedAt ∧
    (saveCurrentInvoice stringify getTime inp s).currentInvoice.totals
      = s.currentInvoice.totals := by
  have key := saveCurrentInvoice_of_empty_number stringify getTime inp s h
  rw [key]
  exact ⟨rfl, rfl, rfl, rfl, rfl, rfl, rfl⟩

/-- Witness of C10: saving the blank working invoice, which has no number,
leaves the blank session as it is. -/
theorem saveCurrentInvoice_rejects_missing_number_witness :
    blankSession.currentInvoice.number = "" ∧
    saveCurrentInvoice countStringify isoDateGetTime fixedInputs blankSession = blankSession :=
  ⟨rfl,
    (saveCurrentInvoice_rejects_missing_number countStringify isoDateGetTime fixedInputs
      blankSession rfl).1⟩

/-! ## Manual save: the invoice list -/

theorem upsertInvoice_nil (snap : Invoice) : upsertInvoice snap [] = [snap] := rfl

theorem upsertInvoice_cons (snap x : Invoice) (xs : List Invoice) :
    upsertInvoice snap (x :: xs)
      = if x.id = snap.id then snap :: xs else x :: upsertInvoice snap xs := by
  unfold upsertInvoice
  by_cases hx : x.id = snap.id
  · simp [hx]
  · rw [if_neg hx]
    simp only [List.findIdx?_cons, beq_iff_eq, hx, if_false, Nat.zero_add]
    rw [List.findIdx?_succ]
    cases List.findIdx? (fun inv => inv.id == snap.id) xs 0 with
    | none => simp
    | some i => simp

theorem StatusResolved.refl (a : Invoice) : StatusResolved a a := Or.inl rfl

theorem StatusResolved.trans {a b c : Invoice} (hab : StatusResolved a b)
    (hbc : StatusResolved b c) : StatusResolved a c := by
  rcases hab with hab | ⟨hs, hab⟩
  · rw [hab] at hbc; exact hbc
  · rcases hbc with hbc | ⟨hs2, _⟩
    · rw [hbc]; exact Or.inr ⟨hs, hab⟩
    · rw [hab] at hs2
      exact absurd (show ("overdue" : String) = "sent" from hs2) (by decide)

theorem StatusResolved.id_eq {a b : Invoice} (h : StatusResolved a b) : b.id = a.id := by
  rcases h with h | ⟨_, h⟩ <;> rw [h]

theorem StatusResolved.isDraft_eq {a b : Invoice} (h : StatusResolved a b) :
    b.isDraft = a.isDraft := by
  rcases h with h | ⟨_, h⟩ <;> rw [h]

theorem StatusResolved.savedAt_eq {a b : Invoice} (h : StatusResolved a b) :
    b.savedAt = a.savedAt := by
  rcases h with h | ⟨_, h⟩ <;> rw [h]

theorem StatusResolved.draftFlag_eq {a b : Invoice} (h : StatusResolved a b) :
    b.draftFlag = a.draftFlag := by
  unfold Invoice.draftFlag
  rw [h.isDraft_eq]

theorem StatusResolved.eq_of_not_sent {a b : Invoice} (h : StatusResolved a b)
    (hs : a.status ≠ "sent") : b = a := by
  rcases h with h | ⟨hs2, _⟩
  · exact h
  · exact absurd hs2 hs

theorem updateStatus_resolved (getTime : String → Option Int) (now : Int) (inv : Invoice) :
    StatusResolved inv (updateStatus getTime now inv) := by
  unfold updateStatus
  split
  · exact Or.inl rfl
  · split
    · next h => exact Or.inr ⟨h.1, rfl⟩
    · exact Or.inl rfl

theorem resolveAll_resolved (getTime : String → Option Int) (clock : Nat → Int)
    (l : List Invoice) : List.Forall₂ StatusResolved l (resolveAll getTime clock l) := by
  induction l generalizing clock with
  | nil => exact List.Forall₂.nil
  | cons x xs ih =>
    exact List.Forall₂.cons (updateStatus_resolved getTime (clock 0) x) (ih _)

theorem forall₂_resolved_trans {l₁ l₂ l₃ : List Invoice}
    (h₁ : List.Forall₂ StatusResolved l₁ l₂) (h₂ : List.Forall₂ StatusResolved l₂ l₃) :
    List.Forall₂ StatusResolved l₁ l₃ := by
  induction h₁ generalizing l₃ with
  | nil => cases h₂; exact List.Forall₂.nil
  | cons hab _ ih =>
    cases h₂ with
    | cons hbc hrest => exact List.Forall₂.cons (hab.trans hbc) (ih hrest)

theorem forall₂_resolved_countP {l l' : List Invoice} (h : List.Forall₂ StatusResolved l l')
    {p : Invoice → Bool} (hp : StatusBlind p) : List.countP p l' = List.countP p l := by
  induction h with
  | nil => rfl
  | cons hab _ ih => rw [List.countP_cons, List.countP_cons, ih, hp _ _ hab]

theorem forall₂_resolved_filter {l l' : List Invoice} (h : List.Forall₂ StatusResolved l l')
    {p : Invoice → Bool} (hp : StatusBlind p) :
    List.Forall₂ StatusResolved (l.filter p) (l'.filter p) := by
  induction h with
  | nil => exact List.Forall₂.nil
  | @cons a b _ _ hab _ ih =>
    rw [List.filter_cons, List.filter_cons, hp _ _ hab]
    cases p a with
    | true => exact List.Forall₂.cons hab ih
    | false => exact ih

theorem forall₂_resolved_find? {l l' : List Invoice} (h : List.Forall₂ StatusResolved l l')
    {p : Invoice → Bool} (hp : StatusBlind p) {a : Invoice} (ha : l.find? p = some a) :
    ∃ b, l'.find? p = some b ∧ StatusResolved a b := by
  induction h with
  | nil => simp at ha
  | @cons x y _ _ hxy _ ih =>
    rw [List.find?_cons] at ha
    rw [List.find?_cons, hp _ _ hxy]
    cases hpx : p x with
    | true =>
      rw [hpx] at ha
      simp only [Option.some.injEq] at ha
      subst ha
      exact ⟨y, rfl, hxy⟩
    | false =>
      rw [hpx] at ha
      exact ih ha

theorem forall₂_resolved_mem {l l' : List Invoice} (h : List.Forall₂ StatusResolved l l')
    {b : Invoice} (hb : b ∈ l') : ∃ a ∈ l, StatusResolved a b := by
  induction h with
  | nil => simp at hb
  | @cons x y _ _ hxy _ ih =>
    rcases List.mem_cons.mp hb with hby | hb'
    · subst hby
      exact ⟨x, List.mem_cons_self _ _, hxy⟩
    · obtain ⟨a, ha, hab⟩ := ih hb'
      exact ⟨a, List.mem_cons_of_mem _ ha, hab⟩

theorem statusBlind_id (id : String) : StatusBlind (fun r => r.id == id) := by
  intro a b h
  simp only [h.id_eq]

theorem statusBlind_other (id : String) : StatusBlind (fun r => r.id != id) := by
  intro a b h
  simp only [h.id_eq]

theorem statusBlind_saved : StatusBlind (fun r => !r.draftFlag) := by
  intro a b h
  simp only [h.draftFlag_eq]

theorem statusBlind_saved_id (id : String) :
    StatusBlind (fun r => !r.draftFlag && r.id == id) := by
  intro a b h
  simp only [h.draftFlag_eq, h.id_eq]

theorem saveCurrentInvoice_invoices (stringify : Ledger → String)
    (getTime : String → Option Int) (inp : SaveInputs) (s : Session)
    (h : s.currentInvoice.number ≠ "") :
    (saveCurrentInvoice stringify getTime inp s).state.invoices
      = resolveAll getTime inp.dashboardClock
          (resolveAll getTime inp.historyClock
            (upsertInvoice (savedSnapshot inp.now s.currentInvoice)
              (dropDrafts s.currentInvoice.id s.state.invoices))) := by
  unfold saveCurrentInvoice
  rw [if_neg h]
  rfl

theorem saveCurrentInvoice_invoices_resolved (stringify : Ledger → String)
    (getTime : String → Option Int) (inp : SaveInputs) (s : Session)
    (h : s.currentInvoice.number ≠ "") :
    List.Forall₂ StatusResolved
      (upsertInvoice (savedSnapshot inp.now s.currentInvoice)
        (dropDrafts s.currentInvoice.id s.state.invoices))
      (saveCurrentInvoice stringify getTime inp s).state.invoices := by
  rw [saveCurrentInvoice_invoices stringify getTime inp s h]
  exact forall₂_resolved_trans (resolveAll_resolved _ _ _) (resolveAll_resolved _ _ _)

theorem mem_upsertInvoice {snap r : Invoice} {l : List Invoice}
    (h : r ∈ upsertInvoice snap l) : r = snap ∨ r ∈ l := by
  induction l with
  | nil =>
    rw [upsertInvoice_nil] at h
    exact Or.inl (List.mem_singleton.mp h)
  | cons x xs ih =>
    rw [upsertInvoice_cons] at h
    split at h
    · rcases List.mem_cons.mp h with h1 | h1
      · exact Or.inl h1
      · exact Or.inr (List.mem_cons_of_mem _ h1)
    · rcases List.mem_cons.mp h with h1 | h1
      · exact Or.inr (h1 ▸ List.mem_cons_self _ _)
      · rcases ih h1 with h2 | h2
        · exact Or.inl h2
        · exact Or.inr (List.mem_cons_of_mem _ h2)

theorem find?_upsertInvoice (snap : Invoice) (l : List Invoice) :
    (upsertInvoice snap l).find? (fun r => r.id == snap.id) = some snap := by
  induction l with
  | nil => simp [upsertInvoice_nil]
  | cons x xs ih =>
    rw [upsertInvoice_cons]
    split
    · simp
    · next hx =>
      have hb : (x.id == snap.id) = false := beq_eq_false_iff_ne.mpr hx
      rw [List.find?_cons, hb]
      exact ih

theorem filter_other_upsertInvoice (snap : Invoice) (l : List Invoice) :
    (upsertInvoice snap l).filter (fun r => r.id != snap.id)
      = l.filter (fun r => r.id != snap.id) := by
  induction l with
  | nil => simp [upsertInvoice_nil]
  | cons x xs ih =>
    rw [upsertInvoice_cons]
    split
    · next hx => simp [hx]
    · next hx => simp [hx, ih]

theorem upsertInvoice_of_absent (snap : Invoice) (l : List Invoice)
    (h : ∀ r ∈ l, r.id ≠ snap.id) : upsertInvoice snap l = l ++ [snap] := by
  induction l with
  | nil => rfl
  | cons x xs ih =>
    rw [upsertInvoice_cons, if_neg (h x (List.mem_cons_self _ _)),
      ih (fun r hr => h r (List.mem_cons_of_mem _ hr))]
    rfl

theorem upsertInvoice_of_present (snap : Invoice) (l : List Invoice)
    (h : ∃ r ∈ l, r.id = snap.id) :
    ∃ pre old post, l = pre ++ old :: post ∧ old.id = snap.id ∧
      (∀ r ∈ pre, r.id ≠ snap.id) ∧ upsertInvoice snap l = pre ++ snap :: post := by
  induction l with
  | nil =>
    obtain ⟨r, hr, _⟩ := h
    simp at hr
  | cons x xs ih =>
    by_cases hx : x.id = snap.id
    · refine ⟨[], x, xs, rfl, hx, by simp, ?_⟩
      rw [upsertInvoice_cons, if_pos hx]
      rfl
    · obtain ⟨r, hr, hrid⟩ := h
      have hr' : r ∈ xs := by
        rcases List.mem_cons.mp hr with h1 | h1
        · exact absurd (h1 ▸ hrid) hx
        · exact h1
      obtain ⟨pre, old, post, hl, hold, hpre, hup⟩ := ih ⟨r, hr', hrid⟩
      refine ⟨x :: pre, old, post, by rw [hl]; rfl, hold, ?_, ?_⟩
      · intro q hq
        rcases List.mem_cons.mp hq with h1 | h1
        · rw [h1]; exact hx
        · exact hpre q h1
      · rw [upsertInvoice_cons, if_neg hx, hup]
        rfl

theorem countP_id_upsertInvoice (snap : Invoice) (l : List Invoice) :
    List.countP (fun r => r.id == snap.id) (upsertInvoice snap l)
      = max 1 (List.countP (fun r => r.id == snap.id) l) := by
  induction l with
  | nil => simp [upsertInvoice_nil]
  | cons x xs ih =>
    rw [upsertInvoice_cons]
    split
    · next hx =>
      simp only [List.countP_cons, beq_self_eq_true, if_true, hx]
      omega
    · next hx =>
      simp only [List.countP_cons, beq_iff_eq, hx, if_false, ih]
      omega

theorem dropDrafts_not_draft {id : String} {l : List Invoice} {r : Invoice}
    (h : r ∈ dropDrafts id l) : ¬ (r.draftFlag = true ∧ r.id = id) := by
  unfold dropDrafts at h
  have h2 := (List.mem_filter.mp h).2
  rintro ⟨hd, hi⟩
  simp [hd, hi] at h2

theorem countP_dropDrafts_saved (id : String) (l : List Invoice) (p : Invoice → Bool)
    (hp : ∀ r, p r = true → r.draftFlag = false) :
    List.countP p (dropDrafts id l) = List.countP p l := by
  unfold dropDrafts
  induction l with
  | nil => rfl
  | cons x xs ih =>
    rw [List.filter_cons]
    by_cases hx : p x = true
    · have hd := hp x hx
      simp only [hd, Bool.false_and, Bool.not_false, if_true, List.countP_cons, ih]
    · split
      · simp only [List.countP_cons, ih]
      · simp only [List.countP_cons, hx, ih]
        simp

theorem filter_other_dropDrafts (id : String) (l : List Invoice) :
    (dropDrafts id l).filter (fun r => r.id != id) = l.filter (fun r => r.id != id) := by
  unfold dropDrafts
  rw [List.filter_filter]
  apply List.filter_congr
  intro r _
  by_cases hr : r.id = id <;> simp [hr]

/-- C13. After every successful manual save no record of the invoice list is a
draft with the working invoice's id, and the record stored for that id (the
first record with that id, the one `findIndex` addresses) is the saved snapshot,
up to the status pass, and carries neither `isDraft` nor `savedAt`, whatever
the working invoice carried (for instance when it was loaded from a draft
record). -/
theorem saveCurrentInvoice_no_draft_left (stringify : Ledger → String)
    (getTime : String → Option Int) (inp : SaveInputs) (s : Session)
    (h : s.currentInvoice.number ≠ "") :
    (∀ r ∈ (saveCurrentInvoice stringify getTime inp s).state.invoices,
      ¬ (r.draftFlag = true ∧ r.id = s.currentInvoice.id)) ∧
    (∃ r, (saveCurrentInvoice stringify getTime inp s).state.invoices.find?
          (fun r => r.id == s.currentInvoice.id) = some r ∧
        r.isDraft = none ∧ r.savedAt = none ∧
        StatusResolved (savedSnapshot inp.now s.currentInvoice) r) := by
  have hres := saveCurrentInvoice_invoices_resolved stringify getTime inp s h
  constructor
  · intro r hr
    obtain ⟨a, ha, hab⟩ := forall₂_resolved_mem hres hr
    rw [hab.draftFlag_eq, hab.id_eq]
    rcases mem_upsertInvoice ha with hsnap | hold
    · rw [hsnap]
      rintro ⟨hd, _⟩
      exact absurd hd (by simp [savedSnapshot, Invoice.draftFlag])
    · exact dropDrafts_not_draft hold
  · have hfind := find?_upsertInvoice (savedSnapshot inp.now s.currentInvoice)
      (dropDrafts s.currentInvoice.id s.state.invoices)
    obtain ⟨r, hr, hsr⟩ := forall₂_resolved_find? hres
      (statusBlind_id (savedSnapshot inp.now s.currentInvoice).id) hfind
    exact ⟨r, hr, by rw [hsr.isDraft_eq]; rfl, by rw [hsr.savedAt_eq]; rfl, hsr⟩

/-- Witness of C13: the working invoice was loaded from its draft record; after
the save no record is a draft with its id. -/
theorem saveCurrentInvoice_no_draft_left_witness :
    draftSession.currentInvoice.isDraft = some true ∧
    ∀ r ∈ (saveCurrentInvoice countStringify isoDateGetTime fixedInputs
        draftSession).state.invoices,
      ¬ (r.draftFlag = true ∧ r.id = "inv-1") :=
  ⟨rfl,
    (saveCurrentInvoice_no_draft_left countStringify isoDateGetTime fixedInputs draftSession
      (by decide)).1⟩

/-- C14, as stated, fails: a save of the working invoice `inv-1`, made after the
due date of the sent record `inv-2`, leaves that record, which has another id,
with status `overdue`: the save ends with the status passes of `renderHistory`
and `refreshDashboard`. -/
theorem saveCurrentInvoice_resolves_other_records :
    dueSession.currentInvoice.id = "inv-1" ∧
    dueSession.state.invoices.filter (fun r => r.id != "inv-1") = [otherSentInvoice] ∧
    otherSentInvoice.status = "sent" ∧
    (saveCurrentInvoice countStringify isoDateGetTime lateInputs
        dueSession).state.invoices.filter (fun r => r.id != "inv-1")
      = [{ otherSentInvoice with status := "overdue" }] := by
  refine ⟨rfl, by decide, rfl, ?_⟩
  rw [saveCurrentInvoice_invoices countStringify isoDateGetTime lateInputs dueSession
    (by decide)]
  decide

theorem countP_upsertInvoice_other (snap : Invoice) (l : List Invoice) (q : Invoice → Bool)
    (hq : ∀ r, r.id = snap.id → q r = false) :
    List.countP q (upsertInvoice snap l) = List.countP q l := by
  induction l with
  | nil => simp [upsertInvoice_nil, hq snap rfl]
  | cons x xs ih =>
    rw [upsertInvoice_cons]
    split
    · next hx => simp only [List.countP_cons, hq snap rfl, hq x hx]
    · simp only [List.countP_cons, ih]

theorem mem_dropDrafts_of_saved {id : String} {l : List Invoice} {r : Invoice}
    (hr : r ∈ l) (hd : r.draftFlag = false) : r ∈ dropDrafts id l := by
  unfold dropDrafts
  exact List.mem_filter.mpr ⟨hr, by simp [hd]⟩

theorem mem_of_mem_dropDrafts {id : String} {l : List Invoice} {r : Invoice}
    (hr : r ∈ dropDrafts id l) : r ∈ l := by
  unfold dropDrafts at hr
  exact (List.mem_filter.mp hr).1

theorem draftFlag_false_of_mem_dropDrafts {id : String} {l : List Invoice} {r : Invoice}
    (hr : r ∈ dropDrafts id l) (hid : r.id = id) : r.draftFlag = false := by
  cases hd : r.draftFlag with
  | false => rfl
  | true => exact absurd ⟨hd, hid⟩ (dropDrafts_not_draft hr)

/-- C14, amended. A successful manual save updates the matching saved invoice in
place or appends a new one.  If the list holds a non-draft record with the
working invoice's id, the first record with that id left after the drafts of
that id are dropped is replaced by the snapshot at its position, and the number
of non-draft records is unchanged; otherwise the snapshot is appended at the
end.  The stored snapshot has the working invoice's id; the records with other
ids keep their relative order and are unchanged but for the status pass that
ends the save (a `sent` record may have become `overdue`); and a list with at
most one non-draft record per id still has at most one per id. -/
theorem saveCurrentInvoice_upsert (stringify : Ledger → String)
    (getTime : String → Option Int) (inp : SaveInputs) (s : Session)
    (h : s.currentInvoice.number ≠ "") :
    ((∃ old ∈ s.state.invoices, old.draftFlag = false ∧ old.id = s.currentInvoice.id) →
      ∃ pre old post,
        dropDrafts s.currentInvoice.id s.state.invoices = pre ++ old :: post ∧
        old.id = s.currentInvoice.id ∧ (∀ r ∈ pre, r.id ≠ s.currentInvoice.id) ∧
        List.Forall₂ StatusResolved (pre ++ savedSnapshot inp.now s.currentInvoice :: post)
          (saveCurrentInvoice stringify getTime inp s).state.invoices ∧
        List.countP (fun r => !r.draftFlag)
            (saveCurrentInvoice stringify getTime inp s).state.invoices
          = List.countP (fun r => !r.draftFlag) s.state.invoices) ∧
    ((¬ ∃ old ∈ s.state.invoices, old.draftFlag = false ∧ old.id = s.currentInvoice.id) →
      List.Forall₂ StatusResolved
        (dropDrafts s.currentInvoice.id s.state.invoices
          ++ [savedSnapshot inp.now s.currentInvoice])
        (saveCurrentInvoice stringify getTime inp s).state.invoices) ∧
    (savedSnapshot inp.now s.currentInvoice).id = s.currentInvoice.id ∧
    List.Forall₂ StatusResolved
      (s.state.invoices.filter (fun r => r.id != s.currentInvoice.id))
      ((saveCurrentInvoice stringify getTime inp s).state.invoices.filter
        (fun r => r.id != s.currentInvoice.id)) ∧
    ((∀ x, List.countP (fun r => !r.draftFlag && r.id == x) s.state.invoices ≤ 1) →
      ∀ x, List.countP (fun r => !r.draftFlag && r.id == x)
        (saveCurrentInvoice stringify getTime inp s).state.invoices ≤ 1) := by
  have hres := saveCurrentInvoice_invoices_resolved stringify getTime inp s h
  have hid : (savedSnapshot inp.now s.currentInvoice).id = s.currentInvoice.id := rfl
  have hsnapd : (savedSnapshot inp.now s.currentInvoice).draftFlag = false := by
    simp [savedSnapshot, Invoice.draftFlag]
  refine ⟨?_, ?_, hid, ?_, ?_⟩
  · rintro ⟨old, hold, hd, hoid⟩
    have hpres : ∃ r ∈ dropDrafts s.currentInvoice.id s.state.invoices,
        r.id = (savedSnapshot inp.now s.currentInvoice).id :=
      ⟨old, mem_dropDrafts_of_saved hold hd, hoid⟩
    obtain ⟨pre, old', post, hl, hold', hpre, hup⟩ := upsertInvoice_of_present _ _ hpres
    rw [hup] at hres
    refine ⟨pre, old', post, hl, hold', hpre, hres, ?_⟩
    rw [forall₂_resolved_countP hres statusBlind_saved,
      ← countP_dropDrafts_saved s.currentInvoice.id s.state.invoices (fun r => !r.draftFlag)
        (by intro r hr; simpa using hr),
      hl]
    have hmem : old' ∈ dropDrafts s.currentInvoice.id s.state.invoices := by
      rw [hl]
      simp
    have hold'd : old'.draftFlag = false := draftFlag_false_of_mem_dropDrafts hmem hold'
    simp [List.countP_append, List.countP_cons, hsnapd, hold'd]
  · intro hno
    have habs : ∀ r ∈ dropDrafts s.currentInvoice.id s.state.invoices,
        r.id ≠ (savedSnapshot inp.now s.currentInvoice).id := by
      intro r hr hrid
      exact hno ⟨r, mem_of_mem_dropDrafts hr, draftFlag_false_of_mem_dropDrafts hr hrid, hrid⟩
    rw [upsertInvoice_of_absent _ _ habs] at hres
    exact hres
  · have hf := forall₂_resolved_filter hres (statusBlind_other s.currentInvoice.id)
    have hu := filter_other_upsertInvoice (savedSnapshot inp.now s.currentInvoice)
      (dropDrafts s.currentInvoice.id s.state.invoices)
    rw [hid] at hu
    rw [hu, filter_other_dropDrafts] at hf
    exact hf
  · intro huniq x
    rw [forall₂_resolved_countP hres (statusBlind_saved_id x)]
    by_cases hx : x = s.currentInvoice.id
    · subst hx
      have hle : List.countP (fun r => !r.draftFlag && r.id == s.currentInvoice.id)
            (upsertInvoice (savedSnapshot inp.now s.currentInvoice)
              (dropDrafts s.currentInvoice.id s.state.invoices))
          ≤ List.countP (fun r => r.id == s.currentInvoice.id)
            (upsertInvoice (savedSnapshot inp.now s.currentInvoice)
              (dropDrafts s.currentInvoice.id s.state.invoices)) := by
        apply List.countP_mono_left
        intro r _ hr
        simp only [Bool.and_eq_true] at hr
        exact hr.2
      have hmax := countP_id_upsertInvoice (savedSnapshot inp.now s.currentInvoice)
        (dropDrafts s.currentInvoice.id s.state.invoices)
      rw [hid] at hmax
      have hD : List.countP (fun r => r.id == s.currentInvoice.id)
            (dropDrafts s.currentInvoice.id s.state.invoices)
          = List.countP (fun r => !r.draftFlag && r.id == s.currentInvoice.id)
            (dropDrafts s.currentInvoice.id s.state.invoices) := by
        apply List.countP_congr
        intro r hr
        constructor
        · intro hri
          have hri' : r.id = s.currentInvoice.id := by simpa using hri
          simp [draftFlag_false_of_mem_dropDrafts hr hri', hri']
        · intro hq
          simp only [Bool.and_eq_true] at hq
          exact hq.2
      have hB := countP_dropDrafts_saved s.currentInvoice.id s.state.invoices
        (fun r => !r.draftFlag && r.id == s.currentInvoice.id)
        (by intro r hr; simp only [Bool.and_eq_true] at hr; simpa using hr.1)
      have h1 := huniq s.currentInvoice.id
      omega
    · rw [countP_upsertInvoice_other _ _ _
          (by intro r hr; rw [hid] at hr; simp [hr, Ne.symm hx]),
        countP_dropDrafts_saved s.currentInvoice.id s.state.invoices
          (fun r => !r.draftFlag && r.id == x)
          (by intro r hr; simp only [Bool.and_eq_true] at hr; simpa using hr.1)]
      exact huniq x

/-- Witness of the amended C14: saving the working invoice `inv-1` of the session
that holds the sent record `inv-2` appends the snapshot after that record. -/
theorem saveCurrentInvoice_upsert_witness :
    dueSession.currentInvoice.number ≠ "" ∧
    List.Forall₂ StatusResolved
      (dropDrafts "inv-1" dueSession.state.invoices
        ++ [savedSnapshot lateInputs.now dueSession.currentInvoice])
      (saveCurrentInvoice countStringify isoDateGetTime lateInputs dueSession).state.invoices :=
  ⟨by decide,
    (saveCurrentInvoice_upsert countStringify isoDateGetTime lateInputs dueSession
      (by decide)).2.1 (by decide)⟩

/-! ## Aggregation reporter: lemmas -/

theorem foldl_sumTotals (l : List Invoice) (acc : ℚ) :
    l.foldl (fun sum inv => sum + orZero inv.totals.total) acc
      = acc + (l.map (fun inv => inv.totals.total)).sum := by
  induction l generalizing acc with
  | nil => simp
  | cons x xs ih =>
    rw [List.foldl_cons, ih, orZero_eq, List.map_cons, List.sum_cons]
    ring

theorem sumTotals_eq_sum (l : List Invoice) :
    sumTotals l = (l.map (fun inv => inv.totals.total)).sum := by
  unfold sumTotals
  rw [foldl_sumTotals]
  simp

theorem sum_filter_add_sum_filter_not (l : List Invoice) (p : Invoice → Bool) :
    ((l.filter p).map (fun inv => inv.totals.total)).sum
        + ((l.filter (fun inv => !p inv)).map (fun inv => inv.totals.total)).sum
      = (l.map (fun inv => inv.totals.total)).sum := by
  induction l with
  | nil => simp
  | cons x xs ih =>
    rw [List.filter_cons, List.filter_cons]
    cases hp : p x with
    | true =>
      simp only [if_true, Bool.not_true, List.map_cons, List.sum_cons]
      rw [← ih]
      simp only [Bool.false_eq_true, if_false]
      ring
    | false =>
      simp only [Bool.false_eq_true, if_false, Bool.not_false, if_true, List.map_cons,
        List.sum_cons]
      rw [← ih]
      ring

theorem bucketDate_index (year month : Int) (i : Nat) :
    (bucketDate year month i).1 * 12 + (bucketDate year month i).2
      = year * 12 + month - (i : Int) := by
  unfold bucketDate
  simp only
  omega

theorem bucketDate_month_range (year month : Int) (i : Nat) :
    0 ≤ (bucketDate year month i).2 ∧ (bucketDate year month i).2 < 12 := by
  unfold bucketDate
  simp only
  omega

theorem mem_renderRevenueChart {localMonth : String → Option (Int × Int)} {year month : Int}
    {invoices : List Invoice} {b : Bucket}
    (h : b ∈ renderRevenueChart localMonth year month invoices) :
    ∃ i : Nat, i ≤ 5 ∧ b = bucketOf localMonth year month invoices i := by
  unfold renderRevenueChart at h
  obtain ⟨i, hi, hb⟩ := List.mem_map.mp h
  refine ⟨i, ?_, hb.symm⟩
  simp at hi
  omega

/-- C15. For every invoice list and every current year and month the bucket
loop of `renderRevenueChart` yields exactly 6 buckets, for the 6 consecutive
calendar months that end with the current month, oldest first (counting months
as `year * 12 + month`, so across a year boundary too: from February 2024 back
to September 2023); and a bucket whose month holds no invoice has `paid = 0` and
`outstanding = 0`. -/
theorem renderRevenueChart_six_buckets (localMonth : String → Option (Int × Int))
    (year month : Int) (invoices : List Invoice) :
    (renderRevenueChart localMonth year month invoices).length = 6 ∧
    (renderRevenueChart localMonth year month invoices).map
        (fun b => b.year * 12 + b.month)
      = [year * 12 + month - 5, year * 12 + month - 4, year * 12 + month - 3,
          year * 12 + month - 2, year * 12 + month - 1, year * 12 + month] ∧
    (∀ b ∈ renderRevenueChart localMonth year month invoices, 0 ≤ b.month ∧ b.month < 12) ∧
    (0 ≤ month ∧ month < 12 →
      (renderRevenueChart localMonth year month invoices).getLast?.map
        (fun b => (b.year, b.month)) = some (year, month)) ∧
    (∀ b ∈ renderRevenueChart localMonth year month invoices,
      (∀ inv ∈ invoices, localMonth inv.issueDate ≠ some (b.year, b.month)) →
        b.paid = 0 ∧ b.outstanding = 0) ∧
    (renderRevenueChart localMonth 2024 1 []).map (fun b => (b.year, b.month))
      = [(2023, 8), (2023, 9), (2023, 10), (2023, 11), (2024, 0), (2024, 1)] := by
  refine ⟨rfl, ?_, ?_, ?_, ?_, ?_⟩
  · simp only [renderRevenueChart, List.map_cons, List.map_nil, bucketOf]
    have h := bucketDate_index year month
    have h5 := h 5
    have h4 := h 4
    have h3 := h 3
    have h2 := h 2
    have h1 := h 1
    have h0 := h 0
    simp only [Nat.cast_ofNat, Nat.cast_one, Nat.cast_zero, sub_zero] at h5 h4 h3 h2 h1 h0
    simp only [Nat.cast_ofNat, Nat.cast_one, Nat.cast_zero, sub_zero, h5, h4, h3, h2, h1, h0]
  · intro b hb
    obtain ⟨i, _, hbi⟩ := mem_renderRevenueChart hb
    rw [hbi]
    exact bucketDate_month_range year month i
  · rintro ⟨h0, h12⟩
    simp only [renderRevenueChart, List.map_cons, List.map_nil, bucketOf, bucketDate]
    simp only [List.getLast?_cons_cons, List.getLast?_singleton, Option.map_some',
      Option.some.injEq, Prod.mk.injEq, Nat.cast_zero, sub_zero]
    constructor <;> omega
  · intro b hb hempty
    obtain ⟨i, _, hbi⟩ := mem_renderRevenueChart hb
    have hnil : monthInvoices localMonth (bucketDate year month i) invoices = [] := by
      unfold monthInvoices
      rw [List.filter_eq_nil_iff]
      intro inv hinv
      have := hempty inv hinv
      rw [hbi] at this
      simpa [bucketOf] using this
    rw [hbi]
    simp only [bucketOf, hnil, List.filter_nil]
    exact ⟨rfl, rfl⟩
  · simp only [renderRevenueChart, List.map_cons, List.map_nil, bucketOf, bucketDate]
    decide

/-- Witness of C15: in February 2024, with one invoice in the list, there are 6
buckets and the last one is February 2024. -/
theorem renderRevenueChart_six_buckets_witness :
    (renderRevenueChart (zoneLocalMonth 0) 2024 1 [februaryInvoice]).length = 6 ∧
    (renderRevenueChart (zoneLocalMonth 0) 2024 1 [februaryInvoice]).getLast?.map
      (fun b => (b.year, b.month)) = some (2024, 1) :=
  ⟨(renderRevenueChart_six_buckets (zoneLocalMonth 0) 2024 1 [februaryInvoice]).1,
    (renderRevenueChart_six_buckets (zoneLocalMonth 0) 2024 1 [februaryInvoice]).2.2.2.1
      ⟨by decide, by decide⟩⟩

theorem bucketOf_paid (localMonth : String → Option (Int × Int)) (year month : Int)
    (invoices : List Invoice) (i : Nat) :
    (bucketOf localMonth year month invoices i).paid
      = ((invoices.filter (fun inv =>
            localMonth inv.issueDate == some (bucketDate year month i)
              && inv.status == "paid")).map (fun inv => inv.totals.total)).sum := by
  simp only [bucketOf, monthInvoices, sumTotals_eq_sum, List.filter_filter]
  congr 2
  apply List.filter_congr
  intro inv _
  exact Bool.and_comm _ _

theorem bucketOf_outstanding (localMonth : String → Option (Int × Int)) (year month : Int)
    (invoices : List Invoice) (i : Nat) :
    (bucketOf localMonth year month invoices i).outstanding
      = ((invoices.filter (fun inv =>
            localMonth inv.issueDate == some (bucketDate year month i)
              && inv.status != "paid")).map (fun inv => inv.totals.total)).sum := by
  simp only [bucketOf, monthInvoices, sumTotals_eq_sum, List.filter_filter]
  congr 2
  apply List.filter_congr
  intro inv _
  exact Bool.and_comm _ _

theorem bucketOf_paid_add_outstanding (localMonth : String → Option (Int × Int))
    (year month : Int) (invoices : List Invoice) (i : Nat) :
    (bucketOf localMonth year month invoices i).paid
        + (bucketOf localMonth year month invoices i).outstanding
      = ((invoices.filter (fun inv =>
            localMonth inv.issueDate == some (bucketDate year month i))).map
          (fun inv => inv.totals.total)).sum := by
  simp only [bucketOf, sumTotals_eq_sum]
  have h := sum_filter_add_sum_filter_not
    (monthInvoices localMonth (bucketDate year month i) invoices)
    (fun inv => inv.status == "paid")
  simp only [bne] at h ⊢
  exact h

theorem bucketOf_remove (localMonth : String → Option (Int × Int)) (year month : Int)
    (before after : List Invoice) (inv : Invoice) (i : Nat)
    (h : localMonth inv.issueDate ≠ some (bucketDate year month i)) :
    bucketOf localMonth year month (before ++ inv :: after) i
      = bucketOf localMonth year month (before ++ after) i := by
  have hm : monthInvoices localMonth (bucketDate year month i) (before ++ inv :: after)
      = monthInvoices localMonth (bucketDate year month i) (before ++ after) := by
    unfold monthInvoices
    rw [List.filter_append, List.filter_append, List.filter_cons]
    simp [h]
  simp only [bucketOf, hm]

theorem roundingInvoices_month : ∀ inv ∈ roundingInvoices,
    zoneLocalMonth 0 inv.issueDate = some (2024, 1) := by
  decide

set_option maxRecDepth 1000000 in
theorem roundingInvoices_sums :
    (bucketOfDouble (zoneLocalMonth 0) 2024 1 roundingInvoices 0).paid
      = JsNumber.ofDecimal 23000000000000003 (-16) ∧
    (bucketOfDouble (zoneLocalMonth 0) 2024 1 roundingInvoices 0).outstanding
      = JsNumber.ofDecimal 2 (-1) ∧
    JsNumber.add (bucketOfDouble (zoneLocalMonth 0) 2024 1 roundingInvoices 0).paid
        (bucketOfDouble (zoneLocalMonth 0) 2024 1 roundingInvoices 0).outstanding
      = JsNumber.ofDecimal 25000000000000004 (-16) ∧
    sumTotalsDouble roundingInvoices = JsNumber.ofDecimal 25 (-1) ∧
    JsNumber.ofDecimal 25000000000000004 (-16) ≠ JsNumber.ofDecimal 25 (-1) := by
  decide

/-- C16, as stated, fails, in two ways.  In a zone five hours behind UTC (offset
300), in February 2024, a paid invoice of total 100 issued on 2024-02-01 is
counted in the bucket of January 2024 and the bucket of February 2024 reports
`paid = 0`: `new Date("2024-02-01")` is midnight UTC, which `getMonth()` reads
in local time as 31 January.  And in the double arithmetic of the code, for
three invoices of February 2024 with totals `0.1` (paid), `0.2` (sent) and `2.2`
(paid), `paid` is `2.3000000000000003` and `outstanding` is `0.2`, whose sum
`2.5000000000000004` is not the sum `2.5` over the invoices of the month. -/
theorem renderRevenueChart_first_of_month_behind_utc :
    (calendarMonth februaryInvoice.issueDate = some (2024, 1) ∧
    februaryInvoice.status = "paid" ∧ februaryInvoice.totals.total = 100 ∧
    zoneLocalMonth 300 februaryInvoice.issueDate = some (2024, 0) ∧
    (renderRevenueChart (zoneLocalMonth 300) 2024 1 [februaryInvoice]).map
        (fun b => (b.year, b.month, b.paid))
      = [(2023, 8, 0), (2023, 9, 0), (2023, 10, 0), (2023, 11, 0), (2024, 0, 100),
          (2024, 1, 0)]) ∧
    ((∀ inv ∈ roundingInvoices, zoneLocalMonth 0 inv.issueDate = some (2024, 1)) ∧
      bucketDate 2024 1 0 = (2024, 1) ∧
      (bucketOfDouble (zoneLocalMonth 0) 2024 1 roundingInvoices 0).paid
        = JsNumber.ofDecimal 23000000000000003 (-16) ∧
      (bucketOfDouble (zoneLocalMonth 0) 2024 1 roundingInvoices 0).outstanding
        = JsNumber.ofDecimal 2 (-1) ∧
      JsNumber.add (bucketOfDouble (zoneLocalMonth 0) 2024 1 roundingInvoices 0).paid
          (bucketOfDouble (zoneLocalMonth 0) 2024 1 roundingInvoices 0).outstanding
        = JsNumber.ofDecimal 25000000000000004 (-16) ∧
      sumTotalsDouble roundingInvoices = JsNumber.ofDecimal 25 (-1) ∧
      JsNumber.ofDecimal 25000000000000004 (-16) ≠ JsNumber.ofDecimal 25 (-1)) := by
  refine ⟨?_, roundingInvoices_month, by decide, roundingInvoices_sums⟩
  have hz : zoneLocalMonth 300 februaryInvoice.issueDate = some (2024, 0) := by decide
  refine ⟨by decide, rfl, rfl, hz, ?_⟩
  have hs : (februaryInvoice.status == "paid") = true := by decide
  have key : ∀ d : Int × Int,
      (([februaryInvoice].filter (fun inv =>
          zoneLocalMonth 300 inv.issueDate == some d && inv.status == "paid")).map
        (fun inv => inv.totals.total)).sum = if d = (2024, 0) then 100 else 0 := by
    intro d
    simp only [List.filter_cons, List.filter_nil, hz, hs, Bool.and_true]
    by_cases hd : d = (2024, 0)
    · subst hd
      simp [februaryInvoice]
    · have hne : (some ((2024 : Int), (0 : Int)) == some d) = false := by
        simp only [beq_eq_false_iff_ne, ne_eq, Option.some.injEq]
        exact fun h => hd h.symm
      rw [hne, if_neg hd]
      simp
  have h5 : bucketDate 2024 1 5 = (2023, 8) := by decide
  have h4 : bucketDate 2024 1 4 = (2023, 9) := by decide
  have h3 : bucketDate 2024 1 3 = (2023, 10) := by decide
  have h2 : bucketDate 2024 1 2 = (2023, 11) := by decide
  have h1 : bucketDate 2024 1 1 = (2024, 0) := by decide
  have h0 : bucketDate 2024 1 0 = (2024, 1) := by decide
  simp only [renderRevenueChart, List.map_cons, List.map_nil, bucketOf_paid, h5, h4, h3, h2,
    h1, h0, key]
  simp only [bucketOf, h5, h4, h3, h2, h1, h0]
  simp

theorem mem_renderRevenueChartDouble {localMonth : String → Option (Int × Int)}
    {year month : Int} {invoices : List ChartInvoice} {b : BucketDouble}
    (hb : b ∈ renderRevenueChartDouble localMonth year month invoices) :
    ∃ i : Nat, i ≤ 5 ∧ b = bucketOfDouble localMonth year month invoices i := by
  unfold renderRevenueChartDouble at hb
  rw [List.mem_map] at hb
  obtain ⟨i, hi, rfl⟩ := hb
  refine ⟨i, ?_, rfl⟩
  simp at hi
  omega

theorem bucketOfDouble_remove (localMonth : String → Option (Int × Int)) (year month : Int)
    (before after : List ChartInvoice) (inv : ChartInvoice) (i : Nat)
    (h : localMonth inv.issueDate ≠ some (bucketDate year month i)) :
    bucketOfDouble localMonth year month (before ++ inv :: after) i
      = bucketOfDouble localMonth year month (before ++ after) i := by
  have hm : (before ++ inv :: after).filter
        (fun inv => localMonth inv.issueDate == some (bucketDate year month i))
      = (before ++ after).filter
        (fun inv => localMonth inv.issueDate == some (bucketDate year month i)) := by
    rw [List.filter_append, List.filter_append, List.filter_cons]
    simp [h]
  simp only [bucketOfDouble, hm]

/-- C16, amended. For every invoice list and each of the 6 buckets, with
`localMonth` the year and month that `new Date(issueDate)` has in local time
(for a date-only string, midnight UTC of the issue date read in local time).
In the double arithmetic of the code, `paid` is the sum, added up from 0 in list
order, of `totals.total` over the paid invoices of the bucket's local month and
`outstanding` the like sum over those that are not paid; an invoice whose local
month is none of the 6 can be removed from the list without changing any
bucket.  With arithmetic taken as exact, `paid` and `outstanding` are the sums
over the paid and the unpaid invoices of the local month, so `paid +
outstanding` is the sum over all invoices of that local month. -/
theorem renderRevenueChart_sums (localMonth : String → Option (Int × Int))
    (year month : Int) :
    (∀ invoices : List ChartInvoice,
      (∀ b ∈ renderRevenueChartDouble localMonth year month invoices,
        b.paid = sumTotalsDouble (invoices.filter (fun inv =>
            localMonth inv.issueDate == some (b.year, b.month) && inv.status == "paid")) ∧
        b.outstanding = sumTotalsDouble (invoices.filter (fun inv =>
            localMonth inv.issueDate == some (b.year, b.month) && inv.status != "paid"))) ∧
      (∀ (before after : List ChartInvoice) (inv : ChartInvoice),
        invoices = before ++ inv :: after →
        (∀ i : Nat, i ≤ 5 → localMonth inv.issueDate ≠ some (bucketDate year month i)) →
        renderRevenueChartDouble localMonth year month invoices
          = renderRevenueChartDouble localMonth year month (before ++ after))) ∧
    (∀ invoices : List Invoice,
      (∀ b ∈ renderRevenueChart localMonth year month invoices,
        b.paid = ((invoices.filter (fun inv =>
            localMonth inv.issueDate == some (b.year, b.month)
              && inv.status == "paid")).map (fun inv => inv.totals.total)).sum ∧
        b.outstanding = ((invoices.filter (fun inv =>
            localMonth inv.issueDate == some (b.year, b.month)
              && inv.status != "paid")).map (fun inv => inv.totals.total)).sum ∧
        b.paid + b.outstanding = ((invoices.filter (fun inv =>
            localMonth inv.issueDate == some (b.year, b.month))).map
              (fun inv => inv.totals.total)).sum) ∧
      (∀ (before after : List Invoice) (inv : Invoice),
        invoices = before ++ inv :: after →
        (∀ i : Nat, i ≤ 5 → localMonth inv.issueDate ≠ some (bucketDate year month i)) →
        renderRevenueChart localMonth year month invoices
          = renderRevenueChart localMonth year month (before ++ after))) := by
  constructor
  · intro invoices
    constructor
    · intro b hb
      obtain ⟨i, _, hbi⟩ := mem_renderRevenueChartDouble hb
      have hdate : (b.year, b.month) = bucketDate year month i := by rw [hbi]; rfl
      rw [hdate, hbi]
      simp only [bucketOfDouble, List.filter_filter]
      constructor
      · congr 1
        apply List.filter_congr
        intro inv _
        exact Bool.and_comm _ _
      · congr 1
        apply List.filter_congr
        intro inv _
        exact Bool.and_comm _ _
    · intro before after inv hl hout
      rw [hl]
      unfold renderRevenueChartDouble
      apply List.map_congr_left
      intro i hi
      apply bucketOfDouble_remove
      apply hout
      simp at hi
      omega
  · intro invoices
    constructor
    · intro b hb
      obtain ⟨i, _, hbi⟩ := mem_renderRevenueChart hb
      have hdate : (b.year, b.month) = bucketDate year month i := by rw [hbi]; rfl
      rw [hdate, hbi]
      exact ⟨bucketOf_paid _ _ _ _ _, bucketOf_outstanding _ _ _ _ _,
        bucketOf_paid_add_outstanding _ _ _ _ _⟩
    · intro before after inv hl hout
      rw [hl]
      unfold renderRevenueChart
      apply List.map_congr_left
      intro i hi
      apply bucketOf_remove
      apply hout
      simp at hi
      omega

/-- Witness of the amended C16: at offset 0 the invoice issued on 2024-02-01 is
in the last bucket of February 2024, whose `paid` is the sum over the paid
invoices of that month; in doubles, the last bucket of the three invoices of
February 2024 has as `paid` the sum of the two paid ones. -/
theorem renderRevenueChart_sums_witness :
    bucketOf (zoneLocalMonth 0) 2024 1 [februaryInvoice] 0
      ∈ renderRevenueChart (zoneLocalMonth 0) 2024 1 [februaryInvoice] ∧
    (bucketOf (zoneLocalMonth 0) 2024 1 [februaryInvoice] 0).paid
      = (([februaryInvoice].filter (fun inv =>
          zoneLocalMonth 0 inv.issueDate
              == some ((bucketOf (zoneLocalMonth 0) 2024 1 [februaryInvoice] 0).year,
                (bucketOf (zoneLocalMonth 0) 2024 1 [februaryInvoice] 0).month)
            && inv.status == "paid")).map (fun inv => inv.totals.total)).sum ∧
    (bucketOfDouble (zoneLocalMonth 0) 2024 1 roundingInvoices 0).paid
      = sumTotalsDouble (roundingInvoices.filter (fun inv =>
          zoneLocalMonth 0 inv.issueDate
              == some ((bucketOfDouble (zoneLocalMonth 0) 2024 1 roundingInvoices 0).year,
                (bucketOfDouble (zoneLocalMonth 0) 2024 1 roundingInvoices 0).month)
            && inv.status == "paid")) :=
  ⟨by simp [renderRevenueChart],
    (((renderRevenueChart_sums (zoneLocalMonth 0) 2024 1).2 [februaryInvoice]).1 _
      (by simp [renderRevenueChart])).1,
    (((renderRevenueChart_sums (zoneLocalMonth 0) 2024 1).1 roundingInvoices).1 _
      (by simp [renderRevenueChartDouble])).1⟩

/-! ## CSV export: lemmas -/

theorem readQuoted_doubleQuotes (cs : List Char) : readQuoted (doubleQuotes cs) = some cs := by
  induction cs with
  | nil => rfl
  | cons c rest ih =>
    unfold doubleQuotes
    by_cases hc : c = '"'
    · subst hc
      simp [readQuoted, ih]
    · rw [if_neg hc]
      unfold readQuoted
      rw [if_neg hc, ih]
      rfl

theorem doubleQuotes_eq_flatMap (cs : List Char) :
    doubleQuotes cs = cs.flatMap (fun c => if c = '"' then ['"', '"'] else [c]) := by
  induction cs with
  | nil => rfl
  | cons c rest ih =>
    unfold doubleQuotes
    rw [List.flatMap_cons, ih]
    split <;> rfl

theorem needsQuoting_iff (str : String) :
    needsQuoting str = true ↔ ',' ∈ str.data ∨ '"' ∈ str.data ∨ '\n' ∈ str.data := by
  unfold needsQuoting
  simp [or_assoc]

theorem escapeCsv_of_present (numToString : ℚ → String) (value : CsvValue)
    (h : value ≠ CsvValue.absent) :
    escapeCsv numToString value
      = if needsQuoting (csvString numToString value) then
          "\"" ++ String.mk (doubleQuotes (csvString numToString value).data) ++ "\""
        else csvString numToString value := by
  cases value with
  | absent => exact absurd rfl h
  | text s => rfl
  | number q => rfl

/-- C18. The function `escapeCsv` gives the empty field for `null` or
`undefined`; for any other value, when the text of the value holds a comma, a
double quote or a newline, it gives the text enclosed in double quotes with
every double quote of the text doubled (so that reading the doubled quotes back
gives the text), and the text verbatim otherwise.  The text of `exportCsv` is
the header `Item,Description,Quantity,Rate,Total` followed by one record per
line item, in order, made of the escaped name, description, quantity, rate and
total joined by commas; records are joined by newlines. -/
theorem escapeCsv_exportCsv (numToString : ℚ → String) :
    escapeCsv numToString CsvValue.absent = "" ∧
    (∀ value : CsvValue, value ≠ CsvValue.absent →
      ((',' ∈ (csvString numToString value).data ∨ '"' ∈ (csvString numToString value).data
          ∨ '\n' ∈ (csvString numToString value).data) →
        (escapeCsv numToString value).data
            = '"' :: (csvString numToString value).data.flatMap
                (fun c => if c = '"' then ['"', '"'] else [c]) ++ ['"'] ∧
          readQuoted ((csvString numToString value).data.flatMap
                (fun c => if c = '"' then ['"', '"'] else [c]))
            = some (csvString numToString value).data) ∧
      (¬ (',' ∈ (csvString numToString value).data ∨ '"' ∈ (csvString numToString value).data
          ∨ '\n' ∈ (csvString numToString value).data) →
        escapeCsv numToString value = csvString numToString value)) ∧
    (∀ inv : Invoice,
      exportCsv numToString inv
          = String.intercalate "\n"
              ("Item,Description,Quantity,Rate,Total" :: inv.lineItems.map (fun item =>
                escapeCsv numToString (CsvValue.text item.name) ++ ","
                  ++ escapeCsv numToString (CsvValue.text item.description) ++ ","
                  ++ escapeCsv numToString (CsvValue.number item.quantity) ++ ","
                  ++ escapeCsv numToString (CsvValue.number item.rate) ++ ","
                  ++ escapeCsv numToString (CsvValue.number item.total))) ∧
      (csvRecords numToString inv.lineItems).length = inv.lineItems.length + 1) := by
  refine ⟨rfl, ?_, ?_⟩
  · intro value hv
    constructor
    · intro hq
      rw [escapeCsv_of_present numToString value hv, if_pos ((needsQuoting_iff _).mpr hq),
        ← doubleQuotes_eq_flatMap]
      exact ⟨by simp, readQuoted_doubleQuotes _⟩
    · intro hq
      rw [escapeCsv_of_present numToString value hv, if_neg]
      rw [needsQuoting_iff]
      exact hq
  · intro inv
    constructor
    · unfold exportCsv csvRecords
      rw [List.map_map]
      rfl
    · simp [csvRecords]

/-- Witness of C18: the name `Widget, "large"` is quoted with its quotes doubled,
and the CSV text of an invoice with that one line item has two records. -/
theorem escapeCsv_exportCsv_witness :
    CsvValue.text quotedItem.name ≠ CsvValue.absent ∧
    (escapeCsv wholeString (CsvValue.text quotedItem.name)).data
      = "\"Widget, \"\"large\"\"\"".data ∧
    exportCsv wholeString { blankInvoice with lineItems := [quotedItem] }
      = "Item,Description,Quantity,Rate,Total\n\"Widget, \"\"large\"\"\",plain,2,50,100" := by
  refine ⟨by decide, ?_, by decide⟩
  rw [(((escapeCsv_exportCsv wholeString).2.1 (CsvValue.text quotedItem.name) (by decide)).1
    (by decide)).1]
  decide

/-! ## Import: lemmas -/

theorem isEnvelope_null : isEnvelope Json.null = false := rfl

theorem importStateFromFile_envelope (h : ImportHost) (fileText : String)
    (answer : Option String) (s : RawSession) (parsed : Json)
    (hp : h.parse fileText = some parsed) (henv : isEnvelope parsed = true) :
    importStateFromFile h fileText answer s
      = match answer with
        | none => { session := s, prompted := true, decryptCalled := false, toast := none }
        | some password =>
          if password = "" then
            { session := s, prompted := true, decryptCalled := false, toast := none }
          else
            match h.decrypt password parsed with
            | none => { session := s, prompted := true, decryptCalled := true,
                        toast := some "Import failed" }
            | some decrypted =>
              match h.parse decrypted with
              | none => { session := s, prompted := true, decryptCalled := true,
                          toast := some "Import failed" }
              | some doc =>
                { session := (applyImport h doc s).1, prompted := true, decryptCalled := true,
                  toast := (applyImport h doc s).2 } := by
  unfold importStateFromFile
  rw [hp]
  cases parsed with
  | null => exact absurd henv (by simp [isEnvelope_null])
  | bool b => simp only [henv, if_true]
  | num q => simp only [henv, if_true]
  | str t => simp only [henv, if_true]
  | arr items => simp only [henv, if_true]
  | obj fields => simp only [henv, if_true]

theorem importStateFromFile_plain (h : ImportHost) (fileText : String)
    (answer : Option String) (s : RawSession) (parsed : Json)
    (hp : h.parse fileText = some parsed) (hnull : parsed.isNull = false)
    (henv : isEnvelope parsed = false) :
    importStateFromFile h fileText answer s
      = { session := (applyImport h parsed s).1, prompted := false, decryptCalled := false,
          toast := (applyImport h parsed s).2 } := by
  unfold importStateFromFile
  rw [hp]
  cases parsed with
  | null => exact absurd hnull (by simp [Json.isNull])
  | bool b => simp only [henv, Bool.false_eq_true, if_false]
  | num q => simp only [henv, Bool.false_eq_true, if_false]
  | str t => simp only [henv, Bool.false_eq_true, if_false]
  | arr items => simp only [henv, Bool.false_eq_true, if_false]
  | obj fields => simp only [henv, Bool.false_eq_true, if_false]

theorem applyImport_unreadable (h : ImportHost) (doc : Json) (s : RawSession)
    (hnull : doc.isNull = false) (hc : clientsReadable doc = false) :
    applyImport h doc s
      = ({ state := doc
           currentInvoice := createEmptyInvoiceRaw doc h.uuid h.today h.due h.now
           storage := some (h.stringify doc) }, some "Import failed") := by
  unfold applyImport
  cases doc with
  | null => exact absurd hnull (by simp [Json.isNull])
  | bool b => simp only [hc, Bool.false_eq_true, if_false]
  | num q => simp only [hc, Bool.false_eq_true, if_false]
  | str t => simp only [hc, Bool.false_eq_true, if_false]
  | arr items => simp only [hc, Bool.false_eq_true, if_false]
  | obj fields => simp only [hc, Bool.false_eq_true, if_false]

/-- C11. When the imported file is an envelope and the password prompt is
cancelled (or answered with the empty string), or `decrypt` fails for the
password given, the import is aborted: the module state (`state`, the working
invoice, the stored blob) is exactly as before, whatever it was, and the run
does not end with `Data imported`. -/
theorem importStateFromFile_decrypt_failure (h : ImportHost) (fileText : String)
    (answer : Option String) (s : RawSession) (parsed : Json)
    (hp : h.parse fileText = some parsed) (henv : isEnvelope parsed = true)
    (hfail : answer = none ∨ answer = some "" ∨
      ∃ password, answer = some password ∧ h.decrypt password parsed = none) :
    (importStateFromFile h fileText answer s).session = s ∧
    (importStateFromFile h fileText answer s).session.state = s.state ∧
    (importStateFromFile h fileText answer s).session.currentInvoice = s.currentInvoice ∧
    (importStateFromFile h fileText answer s).session.storage = s.storage ∧
    (importStateFromFile h fileText answer s).toast ≠ some "Data imported" := by
  have key : (importStateFromFile h fileText answer s).session = s ∧
      (importStateFromFile h fileText answer s).toast ≠ some "Data imported" := by
    rw [importStateFromFile_envelope h fileText answer s parsed hp henv]
    rcases hfail with hn | he | ⟨password, hpw, hd⟩
    · subst hn
      exact ⟨rfl, by simp⟩
    · subst he
      exact ⟨rfl, by simp⟩
    · subst hpw
      show (if password = "" then _ else _ : ImportRun).session = s
        ∧ (if password = "" then _ else _ : ImportRun).toast ≠ some "Data imported"
      by_cases hempty : password = ""
      · rw [if_pos hempty]
        exact ⟨rfl, by simp⟩
      · rw [if_neg hempty, hd]
        exact ⟨rfl, by simp⟩
  refine ⟨key.1, ?_, ?_, ?_, key.2⟩ <;> rw [key.1]

/-- Witness of C11: the envelope file, a password, and a host whose `decrypt`
rejects every password: the session of the blank ledger is left as it was. -/
theorem importStateFromFile_decrypt_failure_witness :
    tableHost.parse envelopeText = some envelopeDoc ∧ isEnvelope envelopeDoc = true ∧
    (importStateFromFile tableHost envelopeText (some "secret") blankSession.toRaw).session
      = blankSession.toRaw :=
  ⟨rfl, by decide,
    (importStateFromFile_decrypt_failure tableHost envelopeText (some "secret")
      blankSession.toRaw envelopeDoc rfl (by decide)
      (Or.inr (Or.inr ⟨"secret", rfl, rfl⟩))).1⟩

/-- C12 fails on the file `{}`: it parses, it is no envelope, so `state` becomes
the empty object, the working invoice is reset and the text `{}` is written to
the store; only then `populateClientSelect()` throws on `state.clients`, and the
run ends with `Import failed`.  The ledger and the blob of before are gone. -/
theorem importStateFromFile_replaces_before_failure :
    tableHost.parse "\x7b\x7d" = some (Json.obj []) ∧
    blankSession.toRaw.state = defaultState.toJson ∧ blankSession.toRaw.storage = none ∧
    (importStateFromFile tableHost "\x7b\x7d" none blankSession.toRaw).toast
      = some "Import failed" ∧
    (importStateFromFile tableHost "\x7b\x7d" none blankSession.toRaw).session.state
      = Json.obj [] ∧
    (importStateFromFile tableHost "\x7b\x7d" none blankSession.toRaw).session.storage
      = some "\x7b\x7d" := by
  have hrun := importStateFromFile_plain tableHost "\x7b\x7d" none blankSession.toRaw
    (Json.obj []) rfl rfl rfl
  rw [applyImport_unreadable tableHost (Json.obj []) blankSession.toRaw rfl rfl] at hrun
  rw [hrun]
  exact ⟨rfl, rfl, rfl, rfl, rfl, rfl⟩

/-- C17, as stated, fails: the document `{"cipher": "", "salt": "c2FsdA=="}` has
both a `cipher` and a `salt` field, yet no password is asked, `decrypt` is not
called and the document itself becomes the new state: the test is on the
truthiness of the two fields and the empty string is falsy. -/
theorem importStateFromFile_blank_cipher_plain :
    tableHost.parse blankCipherText = some blankCipherDoc ∧
    (blankCipherDoc.field "cipher").isSome = true ∧
    (blankCipherDoc.field "salt").isSome = true ∧
    (importStateFromFile tableHost blankCipherText (some "secret")
      blankSession.toRaw).prompted = false ∧
    (importStateFromFile tableHost blankCipherText (some "secret")
      blankSession.toRaw).decryptCalled = false ∧
    (importStateFromFile tableHost blankCipherText (some "secret")
      blankSession.toRaw).session.state = blankCipherDoc := by
  have hrun := importStateFromFile_plain tableHost blankCipherText (some "secret")
    blankSession.toRaw blankCipherDoc rfl rfl (by decide)
  rw [applyImport_unreadable tableHost blankCipherDoc blankSession.toRaw rfl rfl] at hrun
  rw [hrun]
  exact ⟨rfl, by decide, by decide, rfl, rfl, rfl⟩

/-- C17, amended. For every parsed import document other than `null`, the
password prompt is shown if and only if both the `cipher` and the `salt` field
are truthy (present, and not empty, zero, false or null), and `decrypt` is
called if and only if, moreover, the prompt is answered with a password that is
not empty; what it returns is then parsed and assigned as the new state.
Otherwise, in particular if either field is absent, the run is the plain one:
the document is assigned as the new state without a prompt and without
decryption. -/
theorem importStateFromFile_envelope_iff (h : ImportHost) (fileText : String)
    (answer : Option String) (s : RawSession) (parsed : Json)
    (hp : h.parse fileText = some parsed) (hnull : parsed.isNull = false) :
    ((importStateFromFile h fileText answer s).prompted = true
      ↔ Json.truthy (parsed.field "cipher") = true ∧ Json.truthy (parsed.field "salt") = true) ∧
    ((importStateFromFile h fileText answer s).decryptCalled = true
      ↔ (Json.truthy (parsed.field "cipher") = true ∧ Json.truthy (parsed.field "salt") = true)
        ∧ ∃ password, answer = some password ∧ password ≠ "") ∧
    (Json.truthy (parsed.field "cipher") = true ∧ Json.truthy (parsed.field "salt") = true →
      ∀ password text doc, answer = some password → password ≠ "" →
        h.decrypt password parsed = some text → h.parse text = some doc →
        (importStateFromFile h fileText answer s).session = (applyImport h doc s).1 ∧
        (importStateFromFile h fileText answer s).toast = (applyImport h doc s).2) ∧
    (¬ (Json.truthy (parsed.field "cipher") = true ∧ Json.truthy (parsed.field "salt") = true) →
      (importStateFromFile h fileText answer s).session = (applyImport h parsed s).1 ∧
      (importStateFromFile h fileText answer s).toast = (applyImport h parsed s).2 ∧
      (importStateFromFile h fileText answer s).decryptCalled = false) ∧
    (parsed.field "cipher" = none ∨ parsed.field "salt" = none →
      (importStateFromFile h fileText answer s).prompted = false ∧
      (importStateFromFile h fileText answer s).session = (applyImport h parsed s).1) := by
  have henvIff : isEnvelope parsed = true
      ↔ Json.truthy (parsed.field "cipher") = true ∧ Json.truthy (parsed.field "salt") = true := by
    unfold isEnvelope
    exact Bool.and_eq_true _ _ ▸ Iff.rfl
  by_cases henv : isEnvelope parsed = true
  · have hrun := importStateFromFile_envelope h fileText answer s parsed hp henv
    have hprompt : (importStateFromFile h fileText answer s).prompted = true := by
      rw [hrun]
      repeat' split
      all_goals rfl
    have hcalled : (importStateFromFile h fileText answer s).decryptCalled = true
        ↔ ∃ password, answer = some password ∧ password ≠ "" := by
      rw [hrun]
      cases answer with
      | none => simp
      | some password =>
        by_cases hempty : password = ""
        · simp [hempty]
        · refine ⟨fun _ => ⟨password, rfl, hempty⟩, fun _ => ?_⟩
          show (if password = "" then _ else _ : ImportRun).decryptCalled = true
          rw [if_neg hempty]
          repeat' split
          all_goals rfl
    refine ⟨⟨fun _ => henvIff.mp henv, fun _ => hprompt⟩, ?_, ?_, ?_, ?_⟩
    · exact ⟨fun hd => ⟨henvIff.mp henv, hcalled.mp hd⟩, fun hd => hcalled.mpr hd.2⟩
    · intro _ password text doc ha hne hdec hdoc
      rw [hrun, ha]
      simp only [if_neg hne, hdec, hdoc, and_self]
    · intro hno
      exact absurd (henvIff.mp henv) hno
    · intro habs
      have ht := henvIff.mp henv
      rcases habs with hc | hs
      · rw [hc] at ht
        exact absurd ht.1 (by simp [Json.truthy])
      · rw [hs] at ht
        exact absurd ht.2 (by simp [Json.truthy])
  · have henv' : isEnvelope parsed = false := by simpa using henv
    have hrun := importStateFromFile_plain h fileText answer s parsed hp hnull henv'
    refine ⟨⟨?_, fun ht => absurd (henvIff.mpr ht) henv⟩, ⟨?_, fun ht => absurd (henvIff.mpr ht.1) henv⟩,
      fun ht => absurd (henvIff.mpr ht) henv, ?_, ?_⟩
    · intro hpr
      rw [hrun] at hpr
      exact absurd hpr (by simp)
    · intro hd
      rw [hrun] at hd
      exact absurd hd (by simp)
    · intro _
      rw [hrun]
      exact ⟨rfl, rfl, rfl⟩
    · intro _
      rw [hrun]
      exact ⟨rfl, rfl⟩

/-- Witness of the amended C17: for the envelope file both fields are truthy, and
with the password `secret` the prompt is shown and `decrypt` is called. -/
theorem importStateFromFile_envelope_iff_witness :
    tableHost.parse envelopeText = some envelopeDoc ∧ envelopeDoc.isNull = false ∧
    (importStateFromFile tableHost envelopeText (some "secret") blankSession.toRaw).prompted
      = true ∧
    (importStateFromFile tableHost envelopeText (some "secret") blankSession.toRaw).decryptCalled
      = true :=
  ⟨rfl, rfl,
    (importStateFromFile_envelope_iff tableHost envelopeText (some "secret") blankSession.toRaw
      envelopeDoc rfl rfl).1.mpr ⟨by decide, by decide⟩,
    (importStateFromFile_envelope_iff tableHost envelopeText (some "secret") blankSession.toRaw
      envelopeDoc rfl rfl).2.1.mpr ⟨⟨by decide, by decide⟩, "secret", rfl, by decide⟩⟩

/-! ## Load: lemmas -/

theorem loadState_of_unusable_link (parse : String → Option Json) (stringify : Json → String)
    (param : Option String) (storage : Option String)
    (hlink : ∀ value decoded, param = some value →
      decodeURIComponent value = some decoded → parse decoded = none) :
    loadState parse stringify param storage = (loadFromStorage parse storage, storage) := by
  cases param with
  | none => simp only [loadState]
  | some value =>
    cases hd : decodeURIComponent value with
    | none => simp only [loadState, hd]
    | some decoded => simp only [loadState, hd, hlink value decoded rfl hd]

theorem percentLedger_ne_default : percentLedger.toJson ≠ defaultState.toJson := by
  intro h
  have h2 := congrArg (fun d => (Json.field "settings" d).bind (Json.field "footer")) h
  have e1 : (Json.field "settings" percentLedger.toJson).bind (Json.field "footer")
      = some (Json.str "2% off") := rfl
  have e2 : (Json.field "settings" defaultState.toJson).bind (Json.field "footer")
      = some (Json.str "Thank you for your business.") := rfl
  simp only [e1, e2, Option.some.injEq, Json.str.injEq] at h2
  exact absurd h2 (by decide)

set_option maxRecDepth 1000000 in
/-- C19, as stated, fails: with the malformed link parameter `oops`, which is
not JSON, and a store that holds the snapshot of the ledger with footer
`2% off`, `loadState` returns that stored ledger, not `defaultState()`. -/
theorem loadState_malformed_link_uses_store :
    searchParamsGetState "?state=oops" = some "oops" ∧
    decodeURIComponent "oops" = some "oops" ∧ tableParse "oops" = none ∧
    loadState tableParse tableStringify (searchParamsGetState "?state=oops")
        (some percentLedgerText)
      = (percentLedger.toJson, some percentLedgerText) ∧
    percentLedger.toJson ≠ defaultState.toJson :=
  ⟨by decide, by decide, rfl, rfl, percentLedger_ne_default⟩

theorem oops_unusable : ∀ value decoded, some "oops" = some value →
    decodeURIComponent value = some decoded → tableParse decoded = none := by
  intro value decoded hv hd
  have hv' : value = "oops" := (Option.some.inj hv).symm
  subst hv'
  have hd' : decoded = "oops" := by
    have h1 : decodeURIComponent "oops" = some "oops" := by decide
    rw [h1] at hd
    exact (Option.some.inj hd).symm
  subst hd'
  rfl

/-- C19, amended. The function `loadState` never checks the shape of what it
reads, so a text is malformed when it does not decode or is not JSON.  A link
parameter that decodes to JSON, of whatever shape, is returned as it is and
written to the store.  When the link parameter is absent or malformed,
`loadState` loads from the durable store and leaves the store as it is: it
returns `defaultState()` when the store is empty or its snapshot malformed (no
JSON, or `null`), and the stored document otherwise, of whatever shape, with
the default settings assigned to it when it has none. -/
theorem loadState_malformed_falls_back (parse : String → Option Json)
    (stringify : Json → String) (param : Option String) (storage : Option String) :
    (∀ value decoded doc, param = some value → decodeURIComponent value = some decoded →
      parse decoded = some doc →
      loadState parse stringify param storage = (doc, some (stringify doc))) ∧
    ((∀ value decoded, param = some value →
        decodeURIComponent value = some decoded → parse decoded = none) →
      (loadState parse stringify param storage).2 = storage ∧
      ((∀ stored, storage = some stored →
          stored = "" ∨ parse stored = none ∨ parse stored = some Json.null) →
        (loadState parse stringify param storage).1 = defaultState.toJson) ∧
      (∀ stored parsed, storage = some stored → stored ≠ "" → parse stored = some parsed →
        parsed.isNull = false →
        (loadState parse stringify param storage).1
          = if Json.truthy (parsed.field "settings") then parsed
            else Json.setField "settings" defaultState.settings.toJson parsed)) := by
  refine ⟨?_, ?_⟩
  · intro value decoded doc hv hd hp
    simp only [loadState, hv, hd, hp]
  intro hlink
  have hload := loadState_of_unusable_link parse stringify param storage hlink
  refine ⟨by rw [hload], ?_, ?_⟩
  · intro hstore
    rw [hload]
    show loadFromStorage parse storage = defaultState.toJson
    unfold loadFromStorage
    cases storage with
    | none => rfl
    | some stored =>
      rcases hstore stored rfl with hempty | hparse | hnull
      · simp only [hempty, if_true]
      · simp only [hparse]
        split <;> rfl
      · simp only [hnull]
        split <;> rfl
  · intro stored parsed hs hne hparse hnull
    rw [hload, hs]
    show loadFromStorage parse (some stored) = _
    unfold loadFromStorage
    simp only [hne, if_false, hparse]
    cases parsed with
    | null => exact absurd hnull (by simp [Json.isNull])
    | bool b => rfl
    | num q => rfl
    | str t => rfl
    | arr items => rfl
    | obj fields => rfl

/-- Witness of the amended C19: the malformed link parameter `oops` with a store
whose text is not JSON gives `defaultState()`; with a store that holds the
empty object it gives the object whose only field is the default settings. -/
theorem loadState_malformed_falls_back_witness :
    (loadState tableParse tableStringify (some "oops") (some "not json")).1
      = defaultState.toJson ∧
    (loadState tableParse tableStringify (some "oops") (some "\x7b\x7d")).1
      = Json.obj [("settings", defaultState.settings.toJson)] :=
  ⟨((loadState_malformed_falls_back tableParse tableStringify (some "oops")
      (some "not json")).2 oops_unusable).2.1
    (by
      intro stored hs
      have hs' : stored = "not json" := (Option.some.inj hs).symm
      subst hs'
      exact Or.inr (Or.inl rfl)),
   ((loadState_malformed_falls_back tableParse tableStringify (some "oops")
      (some "\x7b\x7d")).2 oops_unusable).2.2 "\x7b\x7d" (Json.obj []) rfl (by decide) rfl rfl⟩

theorem createEmptyInvoiceRaw_toJson (state : Ledger) (uuid today due : String) (now : Int) :
    createEmptyInvoiceRaw state.toJson uuid today due now
      = (createEmptyInvoice state uuid today due now).toJson := rfl

theorem percentUnits_of_no_percent (cs : List Char) (h : '%' ∉ cs) :
    percentUnits cs = some (cs.map UriUnit.lit) := by
  induction cs with
  | nil => rfl
  | cons c rest ih =>
    have hc : c ≠ '%' := fun hc => h (hc ▸ List.mem_cons_self _ _)
    have hrest : '%' ∉ rest := fun hr => h (List.mem_cons_of_mem _ hr)
    unfold percentUnits
    rw [if_neg hc, ih hrest]
    rfl

theorem utf8Units_lit (cs : List Char) : utf8Units (cs.map UriUnit.lit) = some cs := by
  induction cs with
  | nil => rfl
  | cons c rest ih =>
    show (utf8Units (rest.map UriUnit.lit)).map (fun out => c :: out) = some (c :: rest)
    rw [ih]
    rfl

theorem decodeURIComponent_of_no_percent (text : String) (h : '%' ∉ text.data) :
    decodeURIComponent text = some text := by
  unfold decodeURIComponent
  rw [percentUnits_of_no_percent text.data h]
  simp only [utf8Units_lit, Option.map_some']

theorem loadState_link_without_percent (parse : String → Option Json)
    (stringify : Json → String) (state : Json) (storage : Option String)
    (hpct : '%' ∉ (stringify state).data) (hjson : parse (stringify state) = some state) :
    loadState parse stringify (some (stringify state)) storage
      = (state, some (stringify state)) := by
  simp only [loadState, decodeURIComponent_of_no_percent _ hpct, hjson]

set_option maxRecDepth 1000000 in
/-- C20 fails on the ledger with footer `2% off`: the link of `shareUrl` carries
the JSON text percent-encoded, `URLSearchParams` gives `loadState` the text
already decoded, and `decodeURIComponent`, applied to it once more, throws on
`% o`.  With an empty store `loadState` returns `defaultState()`, another
ledger, and writes nothing to the store. -/
theorem loadState_shared_link_percent :
    tableStringify percentLedger.toJson = percentLedgerText ∧
    searchParamsGetState (shareSearch tableStringify percentLedger.toJson)
      = some percentLedgerText ∧
    decodeURIComponent percentLedgerText = none ∧
    loadState tableParse tableStringify
        (searchParamsGetState (shareSearch tableStringify percentLedger.toJson)) none
      = (defaultState.toJson, none) ∧
    percentLedger.toJson ≠ defaultState.toJson :=
  ⟨rfl, by decide, by decide, rfl, percentLedger_ne_default⟩

/-! ## Autosave: what a tick leaves alone -/

theorem dropDrafts_eq_filter (id : String) (invoices : List Invoice) :
    dropDrafts id invoices = invoices.filter (fun r => !r.draftFlag || r.id != id) := by
  unfold dropDrafts
  apply List.filter_congr
  intro r _
  show (!(r.draftFlag && r.id == id)) = (!r.draftFlag || !(r.id == id))
  cases r.draftFlag <;> cases (r.id == id) <;> rfl

/-- C21. With autosave enabled, `saveDraft` leaves in the invoice list, unchanged
and in their order, exactly the records that are not drafts (a saved record
with the working invoice's id among them) and the drafts with another id, and
appends the new draft of the working invoice at the end; the clients, the
products, the settings, the company, the invoice-number counter, the history
cache and the working invoice are as before.  With autosave disabled it changes
nothing at all. -/
theorem saveDraft_frame (stringify : Ledger → String) (now : Int) (s : Session) :
    (s.state.settings.autoSave = true →
      (saveDraft stringify now s).state.invoices
          = s.state.invoices.filter (fun r => !r.draftFlag || r.id != s.currentInvoice.id)
              ++ [{ s.currentInvoice with isDraft := some true, savedAt := some now }] ∧
      (∀ r ∈ s.state.invoices, r.draftFlag = false ∨ r.id ≠ s.currentInvoice.id →
        r ∈ (saveDraft stringify now s).state.invoices) ∧
      (saveDraft stringify now s).state.clients = s.state.clients ∧
      (saveDraft stringify now s).state.products = s.state.products ∧
      (saveDraft stringify now s).state.settings = s.state.settings ∧
      (saveDraft stringify now s).state.company = s.state.company ∧
      (saveDraft stringify now s).state.lastInvoiceNumber = s.state.lastInvoiceNumber ∧
      (saveDraft stringify now s).state.historyCache = s.state.historyCache ∧
      (saveDraft stringify now s).currentInvoice = s.currentInvoice) ∧
    (s.state.settings.autoSave = false → saveDraft stringify now s = s) := by
  constructor
  · intro hauto
    have hinv := saveDraft_invoices stringify now s hauto
    rw [dropDrafts_eq_filter] at hinv
    have hrest : (saveDraft stringify now s).state.clients = s.state.clients ∧
        (saveDraft stringify now s).state.products = s.state.products ∧
        (saveDraft stringify now s).state.settings = s.state.settings ∧
        (saveDraft stringify now s).state.company = s.state.company ∧
        (saveDraft stringify now s).state.lastInvoiceNumber = s.state.lastInvoiceNumber ∧
        (saveDraft stringify now s).state.historyCache = s.state.historyCache ∧
        (saveDraft stringify now s).currentInvoice = s.currentInvoice := by
      unfold saveDraft
      rw [if_neg (by rw [hauto]; decide)]
      exact ⟨rfl, rfl, rfl, rfl, rfl, rfl, rfl⟩
    refine ⟨hinv, ?_, hrest⟩
    intro r hr hkeep
    rw [hinv]
    apply List.mem_append_left
    apply List.mem_filter.mpr
    refine ⟨hr, ?_⟩
    rcases hkeep with hd | hid
    · simp [hd]
    · simp [hid]
  · intro hoff
    unfold saveDraft
    rw [if_pos hoff]

/-- Witness of C21: a tick on the session that holds the saved record of `inv-1`,
its draft and the draft of `inv-2` keeps the saved record and the other draft,
in this order, and appends the new draft of `inv-1`. -/
theorem saveDraft_frame_witness :
    mixedSession.state.settings.autoSave = true ∧
    (saveDraft countStringify 9 mixedSession).state.invoices
      = [{ blankInvoice with number := "INV-1004" }, otherDraft,
          { mixedSession.currentInvoice with isDraft := some true, savedAt := some 9 }] := by
  refine ⟨rfl, ?_⟩
  rw [((saveDraft_frame countStringify 9 mixedSession).1 rfl).1]
  decide

/-! ## Manual save: the client list -/

theorem saveCurrentInvoice_clients (stringify : Ledger → String)
    (getTime : String → Option Int) (inp : SaveInputs) (s : Session)
    (h : s.currentInvoice.number ≠ "") :
    (saveCurrentInvoice stringify getTime inp s).state.clients
      = if truthyId s.currentInvoice.clientId then
          touchFirst (s.currentInvoice.clientId.getD "") inp.lastUsed s.state.clients
        else if s.currentInvoice.client.name ≠ "" then
          s.state.clients ++ [newClientOf inp s.currentInvoice.client]
        else s.state.clients := by
  unfold saveCurrentInvoice
  rw [if_neg h]
  simp only [refreshDashboard, renderHistory, persistState]
  show (if truthyId s.currentInvoice.clientId = true then _ else _ : List Client × Invoice).1 = _
  by_cases h1 : truthyId s.currentInvoice.clientId = true
  · rw [if_pos h1, if_pos h1]
    rfl
  · rw [if_neg h1, if_neg h1]
    show (if s.currentInvoice.client.name ≠ "" then _ else _ : List Client × Invoice).1 = _
    by_cases h2 : s.currentInvoice.client.name ≠ ""
    · rw [if_pos h2, if_pos h2]
      rfl
    · rw [if_neg h2, if_neg h2]

theorem saveCurrentInvoice_working (stringify : Ledger → String)
    (getTime : String → Option Int) (inp : SaveInputs) (s : Session)
    (h : s.currentInvoice.number ≠ "") (hno : truthyId s.currentInvoice.clientId = false)
    (hname : s.currentInvoice.client.name ≠ "") :
    (saveCurrentInvoice stringify getTime inp s).currentInvoice
      = { updateTotals { s.currentInvoice with updatedAt := inp.now } with
          clientId := some (newClientOf inp s.currentInvoice.client).id } := by
  unfold saveCurrentInvoice
  rw [if_neg h]
  simp only [refreshDashboard, renderHistory, persistState]
  show (if truthyId s.currentInvoice.clientId = true then _ else _ : List Client × Invoice).2 = _
  rw [if_neg (by rw [hno]; decide)]
  show (if s.currentInvoice.client.name ≠ "" then _ else _ : List Client × Invoice).2 = _
  rw [if_pos hname]
  rfl

theorem touchFirst_length (id : String) (lastUsed : Int) (clients : List Client) :
    (touchFirst id lastUsed clients).length = clients.length := by
  induction clients with
  | nil => rfl
  | cons c rest ih =>
    unfold touchFirst
    split
    · rfl
    · simp only [List.length_cons, ih]

theorem touchFirst_fields (id : String) (lastUsed : Int) (clients : List Client) :
    (touchFirst id lastUsed clients).map
        (fun c => (c.id, c.name, c.address, c.phone, c.email, c.createdAt))
      = clients.map (fun c => (c.id, c.name, c.address, c.phone, c.email, c.createdAt)) := by
  induction clients with
  | nil => rfl
  | cons c rest ih =>
    unfold touchFirst
    split
    · rfl
    · simp only [List.map_cons, ih]

/-- C22. When `saveCurrentInvoice` saves a working invoice that has a number, no
client id and a client name, exactly one client is appended to the client list,
carrying the name, address, phone and email of the invoice's client, and the
working invoice's `clientId` becomes that client's id; a second save of the
working invoice as the first one left it then appends no client (the id of the
new client being a non-empty string, as every `crypto.randomUUID()` is): the
list keeps its length and its clients, the only change being the `lastUsed` of
the client with that id.  With no client id and an empty client name the client
list is unchanged. -/
theorem saveCurrentInvoice_new_client (stringify : Ledger → String)
    (getTime : String → Option Int) (inp : SaveInputs) (s : Session)
    (hnum : s.currentInvoice.number ≠ "")
    (hno : truthyId s.currentInvoice.clientId = false) :
    (s.currentInvoice.client.name ≠ "" →
      ∃ newClient : Client,
        (saveCurrentInvoice stringify getTime inp s).state.clients
          = s.state.clients ++ [newClient] ∧
        newClient.name = s.currentInvoice.client.name ∧
        newClient.address = s.currentInvoice.client.address ∧
        newClient.phone = s.currentInvoice.client.phone ∧
        newClient.email = s.currentInvoice.client.email ∧
        newClient.id = s.currentInvoice.client.id.getD inp.uuid ∧
        (saveCurrentInvoice stringify getTime inp s).currentInvoice.clientId
          = some newClient.id ∧
        (newClient.id ≠ "" → ∀ inp2 : SaveInputs,
          (saveCurrentInvoice stringify getTime inp2
              (saveCurrentInvoice stringify getTime inp s)).state.clients.length
            = (s.state.clients ++ [newClient]).length ∧
          (saveCurrentInvoice stringify getTime inp2
              (saveCurrentInvoice stringify getTime inp s)).state.clients
            = touchFirst newClient.id inp2.lastUsed (s.state.clients ++ [newClient]) ∧
          (saveCurrentInvoice stringify getTime inp2
              (saveCurrentInvoice stringify getTime inp s)).state.clients.map
              (fun c => (c.id, c.name, c.address, c.phone, c.email, c.createdAt))
            = (s.state.clients ++ [newClient]).map
              (fun c => (c.id, c.name, c.address, c.phone, c.email, c.createdAt)))) ∧
    (s.currentInvoice.client.name = "" →
      (saveCurrentInvoice stringify getTime inp s).state.clients = s.state.clients) := by
  have hclients := saveCurrentInvoice_clients stringify getTime inp s hnum
  rw [if_neg (by rw [hno]; decide)] at hclients
  constructor
  · intro hname
    rw [if_pos hname] at hclients
    have hwork := saveCurrentInvoice_working stringify getTime inp s hnum hno hname
    refine ⟨newClientOf inp s.currentInvoice.client, hclients, rfl, rfl, rfl, rfl, rfl, ?_, ?_⟩
    · rw [hwork]
    · intro hid inp2
      have hnum2 : (saveCurrentInvoice stringify getTime inp s).currentInvoice.number ≠ "" := by
        rw [hwork]
        exact hnum
      have hcid : (saveCurrentInvoice stringify getTime inp s).currentInvoice.clientId
          = some (newClientOf inp s.currentInvoice.client).id := by
        rw [hwork]
      have hsecond := saveCurrentInvoice_clients stringify getTime inp2
        (saveCurrentInvoice stringify getTime inp s) hnum2
      rw [hcid, hclients] at hsecond
      have htruthy : truthyId (some (newClientOf inp s.currentInvoice.client).id) = true := by
        simp only [truthyId, bne_iff_ne, ne_eq]
        exact hid
      rw [if_pos htruthy] at hsecond
      simp only [Option.getD_some] at hsecond
      rw [hsecond]
      exact ⟨touchFirst_length _ _ _, rfl, touchFirst_fields _ _ _⟩
  · intro hname
    rw [if_neg (by rw [hname]; simp)] at hclients
    exact hclients

/-- Witness of C22: saving the working invoice with the client `Acme` typed in
appends one client named `Acme`, with the fresh id, to the empty client list of
the default ledger, and a second save leaves one client. -/
theorem saveCurrentInvoice_new_client_witness :
    acmeSession.currentInvoice.number ≠ "" ∧
    truthyId acmeSession.currentInvoice.clientId = false ∧
    ∃ newClient : Client,
      (saveCurrentInvoice countStringify isoDateGetTime fixedInputs acmeSession).state.clients
        = [newClient] ∧
      newClient.name = "Acme" ∧ newClient.id = "client-1" ∧
      (saveCurrentInvoice countStringify isoDateGetTime lateInputs
        (saveCurrentInvoice countStringify isoDateGetTime fixedInputs
          acmeSession)).state.clients.length = 1 := by
  obtain ⟨newClient, hc, hn, _, _, _, hi, _, hsecond⟩ :=
    (saveCurrentInvoice_new_client countStringify isoDateGetTime fixedInputs acmeSession
      (by decide) rfl).1 (by decide)
  have hid : newClient.id = "client-1" := hi
  refine ⟨by decide, rfl, newClient, hc, hn, hid, ?_⟩
  rw [(hsecond (by rw [hid]; decide) lateInputs).1]
  rfl

/-! ## JSON text: lemmas -/

theorem skipSpace_replicate (n : Nat) (cs : List Char) :
    skipSpace (List.replicate n ' ' ++ cs) = skipSpace cs := by
  induction n with
  | zero => rfl
  | succ n ih =>
    rw [List.replicate_succ, List.cons_append]
    show (if isJsonSpace ' ' then skipSpace (List.replicate n ' ' ++ cs) else _) = _
    rw [if_pos (by decide), ih]

theorem skipSpace_gapText (gap depth : Nat) (cs : List Char) :
    skipSpace (gapText gap depth ++ cs) = skipSpace cs := by
  unfold gapText
  by_cases h : gap = 0
  · rw [if_pos h]
    rfl
  · rw [if_neg h, List.cons_append]
    show (if isJsonSpace '\n' then skipSpace (List.replicate (gap * depth) ' ' ++ cs) else _) = _
    rw [if_pos (by decide), skipSpace_replicate]

theorem skipSpace_cons (c : Char) (cs : List Char) (h : isJsonSpace c = false) :
    skipSpace (c :: cs) = c :: cs := by
  show (if isJsonSpace c then _ else _) = _
  rw [h]
  rfl

theorem digitChar_toNat (d : Nat) (h : d < 10) : (digitChar d).toNat = 48 + d := by
  interval_cases d <;> rfl

theorem readDigits_digitChar (d : Nat) (h : d < 10) (rest : List Char) (acc count : Nat) :
    readDigits (digitChar d :: rest) acc count = readDigits rest (acc * 10 + d) (count + 1) := by
  show (if 48 ≤ (digitChar d).toNat ∧ (digitChar d).toNat ≤ 57 then _ else _) = _
  rw [digitChar_toNat d h, if_pos (by omega)]
  congr 2
  omega

theorem readDigits_stop (rest : List Char) (h : DigitStop rest) (acc count : Nat) :
    readDigits rest acc count = (acc, count, rest) := by
  cases rest with
  | nil => rfl
  | cons c tail =>
    show (if 48 ≤ c.toNat ∧ c.toNat ≤ 57 then _ else _) = _
    rw [if_neg (h c tail rfl)]

theorem natDigitsAux_spec (fuel : Nat) : ∀ (n : Nat) (acc : List Char), n < fuel →
    ∃ k : Nat, 1 ≤ k ∧ (∃ d tail, d < 10 ∧ natDigitsAux fuel n acc = digitChar d :: tail) ∧
      ∀ (a count : Nat) (rest : List Char),
        readDigits (natDigitsAux fuel n acc ++ rest) a count
          = readDigits (acc ++ rest) (a * 10 ^ k + n) (count + k) := by
  induction fuel with
  | zero => intro n acc h; omega
  | succ fuel ih =>
    intro n acc h
    by_cases hn : n < 10
    · refine ⟨1, le_refl 1, ⟨n, acc, hn, ?_⟩, ?_⟩
      · show (if n < 10 then _ else _) = _
        rw [if_pos hn]
      · intro a count rest
        show readDigits ((if n < 10 then _ else _) ++ rest) a count = _
        rw [if_pos hn, List.cons_append, readDigits_digitChar n hn, pow_one]
    · have hlt : n / 10 < fuel := by omega
      obtain ⟨k, hk, ⟨d, tail, hd, hhead⟩, hread⟩ := ih (n / 10) (digitChar (n % 10) :: acc) hlt
      have hstep : natDigitsAux (fuel + 1) n acc
          = natDigitsAux fuel (n / 10) (digitChar (n % 10) :: acc) := by
        show (if n < 10 then _ else _) = _
        rw [if_neg hn]
      refine ⟨k + 1, by omega, ⟨d, tail, hd, by rw [hstep, hhead]⟩, ?_⟩
      intro a count rest
      rw [hstep, hread, List.cons_append, readDigits_digitChar _ (Nat.mod_lt _ (by norm_num))]
      congr 1
      rw [pow_succ]
      nlinarith [Nat.div_add_mod n 10]

theorem natDigits_spec (n : Nat) :
    ∃ k : Nat, 1 ≤ k ∧ (∃ d tail, d < 10 ∧ natDigits n = digitChar d :: tail) ∧
      ∀ rest : List Char, DigitStop rest → readDigits (natDigits n ++ rest) 0 0 = (n, k, rest) := by
  obtain ⟨k, hk, hhead, hread⟩ := natDigitsAux_spec (n + 1) n [] (Nat.lt_succ_self n)
  refine ⟨k, hk, hhead, ?_⟩
  intro rest hrest
  unfold natDigits
  rw [hread, List.nil_append, readDigits_stop rest hrest]
  simp


theorem NumStop.digitStop {rest : List Char} (h : NumStop rest) : DigitStop rest :=
  fun c tail hc => (h c tail hc).1

theorem decimalPlacesAux_sound (den : Nat) (fuel : Nat) : ∀ (k0 k : Nat),
    decimalPlacesAux den fuel k0 = some k → 10 ^ k % den = 0 := by
  induction fuel with
  | zero => intro k0 k h; exact absurd h (by simp [decimalPlacesAux])
  | succ fuel ih =>
    intro k0 k h
    unfold decimalPlacesAux at h
    by_cases hk : 10 ^ k0 % den = 0
    · rw [if_pos hk] at h
      have : k0 = k := Option.some.inj h
      rw [← this]
      exact hk
    · rw [if_neg hk] at h
      exact ih _ _ h

theorem decimalPlaces_sound (den k : Nat) (h : decimalPlaces den = some k) :
    10 ^ k % den = 0 :=
  decimalPlacesAux_sound den _ _ _ h

theorem parseFraction_stop (mantissa : Nat) (rest : List Char) (h : NumStop rest) :
    parseFraction mantissa rest = some (mantissa, 0, rest) := by
  cases rest with
  | nil => rfl
  | cons c tail =>
    show (if c = '.' then _ else _) = _
    rw [if_neg (h c tail rfl).2.1]

theorem parseExponent_stop (rest : List Char) (h : NumStop rest) :
    parseExponent rest = some (0, rest) := by
  cases rest with
  | nil => rfl
  | cons c tail =>
    show (if c = 'e' ∨ c = 'E' then _ else _) = _
    rw [if_neg (by
      intro hc
      rcases hc with hc | hc
      · exact (h c tail rfl).2.2.1 hc
      · exact (h c tail rfl).2.2.2 hc)]

theorem parseUnsigned_natDigits (negative : Bool) (n : Nat) (rest : List Char)
    (h : NumStop rest) :
    parseUnsigned negative (natDigits n ++ rest)
      = some (numberValue negative n 0 0, rest) := by
  obtain ⟨k, hk, _, hread⟩ := natDigits_spec n
  unfold parseUnsigned
  rw [hread rest h.digitStop]
  simp only []
  rw [if_neg (by omega), parseFraction_stop n rest h]
  simp only []
  rw [parseExponent_stop rest h]

theorem digitStop_e (cs : List Char) : DigitStop ('e' :: cs) := by
  intro c tail hc
  have : c = 'e' := by
    have := List.cons.inj hc
    exact this.1.symm
  subst this
  decide

theorem parseUnsigned_natDigits_exp (negative : Bool) (n k : Nat) (rest : List Char)
    (h : DigitStop rest) :
    parseUnsigned negative (natDigits n ++ 'e' :: '-' :: (natDigits k ++ rest))
      = some (numberValue negative n 0 (-(k : Int)), rest) := by
  obtain ⟨kn, hkn, _, hreadn⟩ := natDigits_spec n
  obtain ⟨kk, hkk, _, hreadk⟩ := natDigits_spec k
  unfold parseUnsigned
  rw [hreadn _ (digitStop_e _)]
  simp only []
  rw [if_neg (by omega)]
  have hfrac : parseFraction n ('e' :: '-' :: (natDigits k ++ rest))
      = some (n, 0, 'e' :: '-' :: (natDigits k ++ rest)) := by
    simp [parseFraction]
  rw [hfrac]
  simp only []
  have hexp : parseExponent ('e' :: '-' :: (natDigits k ++ rest))
      = some (-(k : Int), rest) := by
    have hne : kk ≠ 0 := by omega
    simp [parseExponent, hreadk rest h, hne]
  rw [hexp]

theorem digitChar_ne_minus (d : Nat) (h : d < 10) : digitChar d ≠ '-' := by
  interval_cases d <;> decide

theorem intValue_eq (m : Int) :
    (if decide (m < 0) = true then -((m.natAbs : Nat) : Int) else ((m.natAbs : Nat) : Int)) = m := by
  by_cases h : m < 0
  · simp only [h, decide_True, if_true]
    omega
  · simp only [h, decide_False, Bool.false_eq_true, if_false]
    omega

theorem parseNumber_printInt (m : Int) (tail : List Char) :
    parseNumber (printInt m ++ tail) = parseUnsigned (decide (m < 0)) (natDigits m.natAbs ++ tail) := by
  unfold printInt
  by_cases h : m < 0
  · rw [if_pos h]
    simp [h, parseNumber]
  · rw [if_neg h]
    simp only [h, decide_False]
    obtain ⟨_, _, ⟨d, t, hd, hhead⟩, _⟩ := natDigits_spec m.natAbs
    rw [hhead, List.cons_append]
    simp [parseNumber, digitChar_ne_minus d hd]

theorem numberValue_int (m : Int) :
    numberValue (decide (m < 0)) m.natAbs 0 0 = (m : ℚ) := by
  unfold numberValue
  rw [if_pos (by simp), intValue_eq]

theorem numberValue_exp (m : Int) (k : Nat) :
    numberValue (decide (m < 0)) m.natAbs 0 (-((k + 1 : Nat) : Int))
      = (m : ℚ) * (10 : ℚ) ^ (-((k + 1 : Nat) : Int)) := by
  unfold numberValue
  rw [if_neg (by push_cast; omega), intValue_eq]
  simp

theorem parseNumber_printNumber (q : ℚ) (rest : List Char)
    (hq : (decimalPlaces q.den).isSome = true) (h : NumStop rest) :
    parseNumber (printNumber q ++ rest) = some (q, rest) := by
  unfold printNumber
  cases hk : decimalPlaces q.den with
  | none => rw [hk] at hq; exact absurd hq (by simp)
  | some k =>
    have hdvd := decimalPlaces_sound q.den k hk
    cases k with
    | zero =>
      simp only []
      rw [parseNumber_printInt, parseUnsigned_natDigits _ _ _ h, numberValue_int]
      have hden : q.den = 1 := by
        rw [pow_zero] at hdvd
        have hpos := q.den_pos
        by_contra hne
        have h2 : 1 < q.den := by omega
        rw [Nat.mod_eq_of_lt h2] at hdvd
        exact absurd hdvd (by norm_num)
      rw [Rat.coe_int_num_of_den_eq_one hden]
    | succ k =>
      simp only []
      rw [List.append_assoc, List.cons_append, List.cons_append, parseNumber_printInt,
        parseUnsigned_natDigits_exp _ _ _ _ h.digitStop, numberValue_exp]
      congr 2
      have hd : q.den ∣ 10 ^ (k + 1) := Nat.dvd_of_mod_eq_zero hdvd
      obtain ⟨c, hc⟩ := hd
      have hc0 : c ≠ 0 := by
        intro h0
        rw [h0, mul_zero] at hc
        exact absurd hc (by positivity)
      have hdiv : 10 ^ (k + 1) / q.den = c := by
        rw [hc]
        exact Nat.mul_div_cancel_left c q.den_pos
      rw [hdiv]
      have hq10 : ((10 : ℚ) ^ (k + 1)) = (q.den : ℚ) * (c : ℚ) := by
        have := congrArg (fun n : Nat => (n : ℚ)) hc
        simpa using this
      rw [zpow_neg, zpow_natCast, hq10]
      have hden0 : (q.den : ℚ) ≠ 0 := by exact_mod_cast q.den_pos.ne'
      have hcq : (c : ℚ) ≠ 0 := by exact_mod_cast hc0
      push_cast
      conv_rhs => rw [← Rat.num_div_den q]
      field_simp
      ring

theorem hexVal_hexLower (n : Nat) (h : n < 16) : hexVal (hexLower n) = some n := by
  interval_cases n <;> rfl

theorem parseString_cons (c : Char) (cs : List Char) (h1 : c ≠ '"') (h2 : c ≠ '\\')
    (h3 : ¬ c.toNat < 32) :
    parseString (c :: cs) = (parseString cs).map (fun p => (c :: p.1, p.2)) := by
  rw [parseString.eq_def]
  simp only [h1, h2, h3, if_false]

theorem parseString_quote (cs : List Char) : parseString ('"' :: cs) = some ([], cs) := by
  rw [parseString.eq_def]
  simp

theorem parseString_escaped (e : Char) (cs : List Char) (he : e = '"' ∨ e = '\\') :
    parseString ('\\' :: e :: cs) = (parseString cs).map (fun p => (e :: p.1, p.2)) := by
  rw [parseString.eq_def]
  rcases he with he | he <;> subst he <;> simp

theorem parseString_unicode (h3 h4 : Char) (a b : Nat) (cs : List Char)
    (ha : hexVal h3 = some a) (hb : hexVal h4 = some b) :
    parseString ('\\' :: 'u' :: '0' :: '0' :: h3 :: h4 :: cs)
      = (parseString cs).map (fun p => (Char.ofNat (a * 16 + b) :: p.1, p.2)) := by
  rw [parseString.eq_def]
  have h0 : hexVal '0' = some 0 := rfl
  simp [h0, ha, hb]

theorem parseString_escapeChar (c : Char) (cs : List Char) :
    parseString (escapeChar c ++ cs) = (parseString cs).map (fun p => (c :: p.1, p.2)) := by
  unfold escapeChar
  by_cases h1 : c = '"'
  · rw [if_pos h1, h1]
    exact parseString_escaped '"' cs (Or.inl rfl)
  · rw [if_neg h1]
    by_cases h2 : c = '\\'
    · rw [if_pos h2, h2]
      exact parseString_escaped '\\' cs (Or.inr rfl)
    · rw [if_neg h2]
      by_cases h3 : c.toNat < 32
      · rw [if_pos h3]
        have hhi : hexVal (hexLower (c.toNat / 16)) = some (c.toNat / 16) :=
          hexVal_hexLower _ (by omega)
        have hlo : hexVal (hexLower (c.toNat % 16)) = some (c.toNat % 16) :=
          hexVal_hexLower _ (Nat.mod_lt _ (by norm_num))
        have hval : c.toNat / 16 * 16 + c.toNat % 16 = c.toNat := by omega
        show parseString ('\\' :: 'u' :: '0' :: '0' :: hexLower (c.toNat / 16)
          :: hexLower (c.toNat % 16) :: cs) = _
        rw [parseString_unicode _ _ _ _ cs hhi hlo, hval, Char.ofNat_toNat]
      · rw [if_neg h3]
        exact parseString_cons c cs h1 h2 h3

theorem parseString_flatMap (s : List Char) (rest : List Char) :
    parseString (s.flatMap escapeChar ++ '"' :: rest) = some (s, rest) := by
  induction s with
  | nil => exact parseString_quote rest
  | cons c s ih =>
    rw [List.flatMap_cons, List.append_assoc, parseString_escapeChar, ih]
    rfl

theorem parseString_printString (s : String) (rest : List Char) :
    ∃ tail, printString s ++ rest = '"' :: tail ∧ parseString tail = some (s.data, rest) := by
  refine ⟨s.data.flatMap escapeChar ++ '"' :: rest, ?_, parseString_flatMap _ _⟩
  simp [printString]

theorem skipSpace_spaces (ws cs : List Char) (h : ∀ c ∈ ws, isJsonSpace c = true) :
    skipSpace (ws ++ cs) = skipSpace cs := by
  induction ws with
  | nil => rfl
  | cons c ws ih =>
    rw [List.cons_append]
    show (if isJsonSpace c then skipSpace (ws ++ cs) else _) = _
    rw [if_pos (h c (List.mem_cons_self _ _)), ih (fun d hd => h d (List.mem_cons_of_mem _ hd))]

theorem parseJsonAux_value_skip (fuel : Nat) (ws cs : List Char)
    (h : skipSpace (ws ++ cs) = skipSpace cs) :
    parseJsonAux fuel ParseMode.value (ws ++ cs) = parseJsonAux fuel ParseMode.value cs := by
  cases fuel with
  | zero => rfl
  | succ fuel =>
    rw [parseJsonAux, parseJsonAux, h]

theorem parseJsonAux_arr (fuel : Nat) (rest : List Char) (c : Char) (tail : List Char)
    (h : skipSpace rest = c :: tail) (hc : c ≠ ']') :
    parseJsonAux (fuel + 1) ParseMode.value ('[' :: rest)
      = parseJsonAux fuel (ParseMode.items []) rest := by
  rw [parseJsonAux]
  rw [skipSpace_cons '[' rest (by decide)]
  simp only []
  rw [h]
  split
  · next rest2 heq =>
    have := (List.cons.inj heq).1
    exact absurd this hc
  · rfl

theorem parseJsonAux_obj (fuel : Nat) (rest : List Char) (c : Char) (tail : List Char)
    (h : skipSpace rest = c :: tail) (hc : c ≠ '}') :
    parseJsonAux (fuel + 1) ParseMode.value ('{' :: rest)
      = parseJsonAux fuel (ParseMode.fields []) rest := by
  rw [parseJsonAux]
  rw [skipSpace_cons '{' rest (by decide)]
  simp only []
  rw [h]
  split
  · next rest2 heq =>
    have := (List.cons.inj heq).1
    exact absurd this hc
  · rfl

theorem parseJsonAux_str (fuel : Nat) (tail : List Char) :
    parseJsonAux (fuel + 1) ParseMode.value ('"' :: tail)
      = (parseString tail).map (fun p => (Json.str (String.mk p.1), p.2)) := by
  rw [parseJsonAux]
  rw [skipSpace_cons '"' tail (by decide)]
  rfl

theorem parseJsonAux_num (fuel : Nat) (c : Char) (tail : List Char)
    (hc : c = '-' ∨ ∃ d, d < 10 ∧ c = digitChar d) :
    parseJsonAux (fuel + 1) ParseMode.value (c :: tail)
      = (parseNumber (c :: tail)).map (fun p => (Json.num p.1, p.2)) := by
  rcases hc with hc | ⟨d, hd, hc⟩
  · subst hc
    rw [parseJsonAux]
    rw [skipSpace_cons '-' tail (by decide)]
    rfl
  · subst hc
    interval_cases d
    all_goals
      rw [parseJsonAux]
      rw [skipSpace_cons _ tail (by decide)]
      rfl

theorem printInt_head (m : Int) :
    ∃ c tail, printInt m = c :: tail ∧ (c = '-' ∨ ∃ d, d < 10 ∧ c = digitChar d) := by
  unfold printInt
  by_cases h : m < 0
  · rw [if_pos h]
    exact ⟨'-', _, rfl, Or.inl rfl⟩
  · rw [if_neg h]
    obtain ⟨_, _, ⟨d, t, hd, hhead⟩, _⟩ := natDigits_spec m.natAbs
    exact ⟨digitChar d, t, hhead, Or.inr ⟨d, hd, rfl⟩⟩

theorem printNumber_head (q : ℚ) (hq : (decimalPlaces q.den).isSome = true) :
    ∃ c tail, printNumber q = c :: tail ∧ (c = '-' ∨ ∃ d, d < 10 ∧ c = digitChar d) := by
  unfold printNumber
  cases hk : decimalPlaces q.den with
  | none => rw [hk] at hq; exact absurd hq (by simp)
  | some k =>
    cases k with
    | zero => exact printInt_head _
    | succ k =>
      obtain ⟨c, tail, hhead, hc⟩ := printInt_head (q.num * ((10 ^ (k + 1) / q.den : Nat) : Int))
      refine ⟨c, tail ++ 'e' :: '-' :: natDigits (k + 1), ?_, hc⟩
      simp only []
      rw [hhead]
      rfl

theorem gapText_spaces (gap depth : Nat) : ∀ c ∈ gapText gap depth, isJsonSpace c = true := by
  intro c hc
  unfold gapText at hc
  by_cases h : gap = 0
  · rw [if_pos h] at hc
    exact absurd hc (List.not_mem_nil c)
  · rw [if_neg h] at hc
    rcases List.mem_cons.mp hc with hc | hc
    · subst hc
      decide
    · rw [List.eq_of_mem_replicate hc]
      decide

theorem isValueStart_digitChar (d : Nat) (h : d < 10) : isValueStart (digitChar d) = true := by
  interval_cases d <;> decide

theorem isValueStart_facts (c : Char) (h : isValueStart c = true) :
    isJsonSpace c = false ∧ c ≠ ']' ∧ c ≠ '}' := by
  refine ⟨?_, ?_, ?_⟩
  · by_contra hs
    have hs' : isJsonSpace c = true := by simpa using hs
    have : c = ' ' ∨ c = '\n' ∨ c = '\r' ∨ c = '\t' := by
      simpa [isJsonSpace, or_assoc] using hs'
    rcases this with hc | hc | hc | hc <;> subst hc <;> exact absurd h (by decide)
  · intro hc
    subst hc
    exact absurd h (by decide)
  · intro hc
    subst hc
    exact absurd h (by decide)

theorem printValue_head (gap depth : Nat) (v : Json) (hv : v.valid = true) :
    ∃ c tail, printValue gap depth v = c :: tail ∧ isValueStart c = true := by
  cases v with
  | null => exact ⟨'n', _, by rw [printValue], by decide⟩
  | bool b =>
    cases b
    · exact ⟨'f', _, by rw [printValue]; rfl, by decide⟩
    · exact ⟨'t', _, by rw [printValue]; rfl, by decide⟩
  | num q =>
    rw [Json.valid] at hv
    obtain ⟨c, tail, hhead, hc⟩ := printNumber_head q hv
    refine ⟨c, tail, by rw [printValue]; exact hhead, ?_⟩
    rcases hc with hc | ⟨d, hd, hc⟩
    · subst hc
      decide
    · subst hc
      exact isValueStart_digitChar d hd
  | str s => exact ⟨'"', _, by rw [printValue]; rfl, by decide⟩
  | arr items =>
    by_cases he : items.isEmpty = true
    · exact ⟨'[', _, by rw [printValue, if_pos he], by decide⟩
    · exact ⟨'[', _, by rw [printValue, if_neg he]; rfl, by decide⟩
  | obj fields =>
    by_cases he : fields.isEmpty = true
    · exact ⟨'{', _, by rw [printValue, if_pos he], by decide⟩
    · exact ⟨'{', _, by rw [printValue, if_neg he]; rfl, by decide⟩

theorem printItems_cons (gap depth : Nat) (v : Json) (vs : List Json) :
    printItems gap depth (v :: vs)
      = if vs.isEmpty then printValue gap depth v
        else printValue gap depth v ++ ',' :: gapText gap depth ++ printItems gap depth vs := by
  rw [printItems]

theorem printFields_cons (gap depth : Nat) (f : String × Json) (fs : List (String × Json)) :
    printFields gap depth (f :: fs)
      = if fs.isEmpty then printString f.1 ++ colonText gap ++ printValue gap depth f.2
        else printString f.1 ++ colonText gap ++ printValue gap depth f.2
          ++ ',' :: gapText gap depth ++ printFields gap depth fs := by
  rw [printFields]

theorem printItems_head (gap depth : Nat) (v : Json) (vs : List Json) (hv : v.valid = true) :
    ∃ c tail, printItems gap depth (v :: vs) = c :: tail ∧ isValueStart c = true := by
  obtain ⟨c, tail, hhead, hc⟩ := printValue_head gap depth v hv
  rw [printItems_cons, hhead]
  by_cases he : vs.isEmpty = true
  · rw [if_pos he]
    exact ⟨c, tail, rfl, hc⟩
  · rw [if_neg he]
    exact ⟨c, _, rfl, hc⟩

theorem printFields_head (gap depth : Nat) (f : String × Json) (fs : List (String × Json)) :
    ∃ tail, printFields gap depth (f :: fs) = '"' :: tail := by
  rw [printFields_cons]
  by_cases he : fs.isEmpty = true
  · rw [if_pos he]
    exact ⟨_, rfl⟩
  · rw [if_neg he]
    exact ⟨_, rfl⟩

theorem numStop_cons (c : Char) (tail : List Char)
    (h : ¬ (48 ≤ c.toNat ∧ c.toNat ≤ 57) ∧ c ≠ '.' ∧ c ≠ 'e' ∧ c ≠ 'E') :
    NumStop (c :: tail) := by
  intro d t hd
  have : d = c := (List.cons.inj hd).1.symm
  rw [this]
  exact h

theorem numStop_nil : NumStop [] := by
  intro c tail h
  exact absurd h (by simp)

theorem numStop_gapText (gap depth : Nat) (c : Char) (tail : List Char)
    (h : ¬ (48 ≤ c.toNat ∧ c.toNat ≤ 57) ∧ c ≠ '.' ∧ c ≠ 'e' ∧ c ≠ 'E') :
    NumStop (gapText gap depth ++ c :: tail) := by
  unfold gapText
  by_cases hg : gap = 0
  · rw [if_pos hg]
    exact numStop_cons c tail h
  · rw [if_neg hg]
    exact numStop_cons '\n' _ (by decide)

theorem putField_fresh (key : String) (v : Json) (acc : List (String × Json))
    (h : key ∉ acc.map (fun kv => kv.1)) : putField key v acc = acc ++ [(key, v)] := by
  unfold putField
  rw [if_neg]
  intro hany
  rw [List.any_eq_true] at hany
  obtain ⟨kv, hmem, hk⟩ := hany
  apply h
  rw [List.mem_map]
  exact ⟨kv, hmem, by simpa using hk⟩

theorem skipSpace_colonText (gap : Nat) (cs : List Char) :
    ∃ ws, colonText gap ++ cs = ':' :: (ws ++ cs) ∧ ∀ c ∈ ws, isJsonSpace c = true := by
  unfold colonText
  by_cases h : gap = 0
  · rw [if_pos h]
    exact ⟨[], rfl, fun c hc => absurd hc (List.not_mem_nil c)⟩
  · rw [if_neg h]
    refine ⟨[' '], rfl, ?_⟩
    intro c hc
    rw [List.mem_singleton] at hc
    subst hc
    decide

mutual
theorem parse_printValue : ∀ (v : Json) (gap depth fuel : Nat) (rest : List Char),
    v.valid = true → v.nodes ≤ fuel → NumStop rest →
    parseJsonAux fuel ParseMode.value (printValue gap depth v ++ rest) = some (v, rest)
  | Json.null, gap, depth, fuel, rest, _, hf, _ => by
    rw [Json.nodes] at hf
    obtain ⟨f, rfl⟩ : ∃ f, fuel = f + 1 := ⟨fuel - 1, by omega⟩
    rw [printValue]
    rfl
  | Json.bool b, gap, depth, fuel, rest, _, hf, _ => by
    rw [Json.nodes] at hf
    obtain ⟨f, rfl⟩ : ∃ f, fuel = f + 1 := ⟨fuel - 1, by omega⟩
    rw [printValue]
    cases b <;> rfl
  | Json.num q, gap, depth, fuel, rest, hv, hf, hr => by
    rw [Json.nodes] at hf
    obtain ⟨f, rfl⟩ : ∃ f, fuel = f + 1 := ⟨fuel - 1, by omega⟩
    rw [Json.valid] at hv
    rw [printValue]
    obtain ⟨c, tail, hhead, hc⟩ := printNumber_head q hv
    have hparse := parseNumber_printNumber q rest hv hr
    rw [hhead, List.cons_append] at hparse ⊢
    rw [parseJsonAux_num f c _ hc, hparse]
    rfl
  | Json.str s, gap, depth, fuel, rest, _, hf, _ => by
    rw [Json.nodes] at hf
    obtain ⟨f, rfl⟩ : ∃ f, fuel = f + 1 := ⟨fuel - 1, by omega⟩
    rw [printValue]
    obtain ⟨tail, htail, hparse⟩ := parseString_printString s rest
    rw [htail, parseJsonAux_str, hparse]
    rfl
  | Json.arr items, gap, depth, fuel, rest, hv, hf, _ => by
    rw [Json.nodes] at hf
    obtain ⟨f, rfl⟩ : ∃ f, fuel = f + 1 := ⟨fuel - 1, by omega⟩
    rw [Json.valid] at hv
    rw [printValue]
    cases items with
    | nil => rfl
    | cons v vs =>
      rw [if_neg (by simp)]
      have hvv : v.valid = true := by
        rw [validItems] at hv
        exact (Bool.and_eq_true _ _ ▸ hv).1
      obtain ⟨c, tail, hhead, hc⟩ := printItems_head gap (depth + 1) v vs hvv
      have hshape : ('[' :: gapText gap (depth + 1) ++ printItems gap (depth + 1) (v :: vs)
            ++ gapText gap depth ++ [']']) ++ rest
          = '[' :: (gapText gap (depth + 1) ++ (printItems gap (depth + 1) (v :: vs)
            ++ (gapText gap depth ++ ']' :: rest))) := by
        simp [List.append_assoc]
      rw [hshape]
      have hskip : skipSpace (gapText gap (depth + 1) ++ (printItems gap (depth + 1) (v :: vs)
            ++ (gapText gap depth ++ ']' :: rest)))
          = c :: (tail ++ (gapText gap depth ++ ']' :: rest)) := by
        rw [skipSpace_gapText, hhead, List.cons_append,
          skipSpace_cons c _ (isValueStart_facts c hc).1]
      rw [parseJsonAux_arr f _ c _ hskip (isValueStart_facts c hc).2.1]
      have := parse_printItems (v :: vs) gap (depth + 1) (depth + 1) depth f [] rest
        (by simp) hv (by omega)
      rw [this]
      rfl
  | Json.obj fields, gap, depth, fuel, rest, hv, hf, _ => by
    rw [Json.nodes] at hf
    obtain ⟨f, rfl⟩ : ∃ f, fuel = f + 1 := ⟨fuel - 1, by omega⟩
    rw [Json.valid] at hv
    have hv1 : validFields fields = true := (Bool.and_eq_true _ _ ▸ hv).1
    have hv2 : (fields.map (fun kv => kv.1)).Nodup := by
      have := (Bool.and_eq_true _ _ ▸ hv).2
      simpa using this
    rw [printValue]
    cases fields with
    | nil => rfl
    | cons g gs =>
      rw [if_neg (by simp)]
      obtain ⟨tail, hhead⟩ := printFields_head gap (depth + 1) g gs
      have hshape : ('{' :: gapText gap (depth + 1) ++ printFields gap (depth + 1) (g :: gs)
            ++ gapText gap depth ++ ['}']) ++ rest
          = '{' :: (gapText gap (depth + 1) ++ (printFields gap (depth + 1) (g :: gs)
            ++ (gapText gap depth ++ '}' :: rest))) := by
        simp [List.append_assoc]
      rw [hshape]
      have hskip : skipSpace (gapText gap (depth + 1) ++ (printFields gap (depth + 1) (g :: gs)
            ++ (gapText gap depth ++ '}' :: rest)))
          = '"' :: (tail ++ (gapText gap depth ++ '}' :: rest)) := by
        rw [skipSpace_gapText, hhead, List.cons_append, skipSpace_cons '"' _ (by decide)]
      rw [parseJsonAux_obj f _ '"' _ hskip (by decide)]
      have := parse_printFields (g :: gs) gap (depth + 1) (depth + 1) depth f [] rest
        (by simp) hv1 (by omega) (by simpa using hv2)
      rw [this]
      rfl
theorem parse_printItems : ∀ (items : List Json) (gap depth d0 d1 fuel : Nat)
    (acc : List Json) (rest : List Char),
    items ≠ [] → validItems items = true → nodesItems items ≤ fuel →
    parseJsonAux fuel (ParseMode.items acc)
        (gapText gap d0 ++ (printItems gap depth items ++ (gapText gap d1 ++ ']' :: rest)))
      = some (Json.arr (acc ++ items), rest)
  | [], _, _, _, _, _, _, _, hne, _, _ => absurd rfl hne
  | v :: vs, gap, depth, d0, d1, fuel, acc, rest, _, hv, hf => by
    rw [nodesItems] at hf
    obtain ⟨f, rfl⟩ : ∃ f, fuel = f + 1 := ⟨fuel - 1, by omega⟩
    rw [validItems] at hv
    have hvv : v.valid = true := (Bool.and_eq_true _ _ ▸ hv).1
    have hvs : validItems vs = true := (Bool.and_eq_true _ _ ▸ hv).2
    rw [parseJsonAux]
    rw [parseJsonAux_value_skip f _ _ (skipSpace_gapText gap d0 _), printItems_cons]
    cases vs with
    | nil =>
      rw [if_pos (show ([] : List Json).isEmpty = true from rfl)]
      rw [parse_printValue v gap depth f (gapText gap d1 ++ ']' :: rest) hvv (by omega)
        (numStop_gapText gap d1 ']' rest (by decide))]
      simp only []
      rw [skipSpace_gapText, skipSpace_cons ']' rest (by decide)]
      rfl
    | cons w ws =>
      rw [if_neg (by simp)]
      have hshape : (printValue gap depth v ++ ',' :: gapText gap depth
            ++ printItems gap depth (w :: ws)) ++ (gapText gap d1 ++ ']' :: rest)
          = printValue gap depth v ++ ',' :: (gapText gap depth
            ++ (printItems gap depth (w :: ws) ++ (gapText gap d1 ++ ']' :: rest))) := by
        simp [List.append_assoc]
      rw [hshape]
      rw [parse_printValue v gap depth f _ hvv (by omega) (numStop_cons ',' _ (by decide))]
      simp only []
      rw [skipSpace_cons ',' _ (by decide)]
      simp only []
      have hnodes : nodesItems (w :: ws) ≤ f := by omega
      rw [parse_printItems (w :: ws) gap depth depth d1 f (acc ++ [v]) rest (by simp) hvs hnodes]
      simp
theorem parse_printFields : ∀ (fields : List (String × Json)) (gap depth d0 d1 fuel : Nat)
    (acc : List (String × Json)) (rest : List Char),
    fields ≠ [] → validFields fields = true → nodesFields fields ≤ fuel →
    ((acc ++ fields).map (fun kv => kv.1)).Nodup →
    parseJsonAux fuel (ParseMode.fields acc)
        (gapText gap d0 ++ (printFields gap depth fields ++ (gapText gap d1 ++ '}' :: rest)))
      = some (Json.obj (acc ++ fields), rest)
  | [], _, _, _, _, _, _, _, hne, _, _, _ => absurd rfl hne
  | g :: gs, gap, depth, d0, d1, fuel, acc, rest, _, hv, hf, hnd => by
    rw [nodesFields] at hf
    obtain ⟨f, rfl⟩ : ∃ f, fuel = f + 1 := ⟨fuel - 1, by omega⟩
    rw [validFields] at hv
    have hvv : g.2.valid = true := (Bool.and_eq_true _ _ ▸ hv).1
    have hvs : validFields gs = true := (Bool.and_eq_true _ _ ▸ hv).2
    have hfresh : g.1 ∉ acc.map (fun kv => kv.1) := by
      rw [List.map_append, List.map_cons] at hnd
      have := (List.nodup_append.mp hnd).2.2
      intro hmem
      exact this hmem (List.mem_cons_self _ _)
    have hput : putField (String.mk g.1.data) g.2 acc = acc ++ [g] := by
      have : String.mk g.1.data = g.1 := rfl
      rw [this, putField_fresh g.1 g.2 acc hfresh]
    rw [parseJsonAux]
    rw [skipSpace_gapText, printFields_cons]
    cases gs with
    | nil =>
      rw [if_pos (show ([] : List (String × Json)).isEmpty = true from rfl)]
      obtain ⟨ws, hcolon, hws⟩ := skipSpace_colonText gap
        (printValue gap depth g.2 ++ (gapText gap d1 ++ '}' :: rest))
      obtain ⟨tail, htail, hparse⟩ := parseString_printString g.1
        (colonText gap ++ (printValue gap depth g.2 ++ (gapText gap d1 ++ '}' :: rest)))
      have hshape : (printString g.1 ++ colonText gap ++ printValue gap depth g.2)
            ++ (gapText gap d1 ++ '}' :: rest)
          = printString g.1 ++ (colonText gap ++ (printValue gap depth g.2
            ++ (gapText gap d1 ++ '}' :: rest))) := by
        simp [List.append_assoc]
      rw [hshape, htail, skipSpace_cons '"' _ (by decide)]
      simp only []
      rw [hparse]
      simp only []
      rw [hcolon, skipSpace_cons ':' _ (by decide)]
      simp only []
      rw [parseJsonAux_value_skip f ws _ (skipSpace_spaces ws _ hws)]
      rw [parse_printValue g.2 gap depth f (gapText gap d1 ++ '}' :: rest) hvv (by omega)
        (numStop_gapText gap d1 '}' rest (by decide))]
      simp only []
      rw [skipSpace_gapText, skipSpace_cons '}' rest (by decide)]
      simp only []
      rw [hput]
    | cons h hs =>
      rw [if_neg (by simp)]
      obtain ⟨ws, hcolon, hws⟩ := skipSpace_colonText gap
        (printValue gap depth g.2 ++ ',' :: (gapText gap depth
          ++ (printFields gap depth (h :: hs) ++ (gapText gap d1 ++ '}' :: rest))))
      obtain ⟨tail, htail, hparse⟩ := parseString_printString g.1
        (colonText gap ++ (printValue gap depth g.2 ++ ',' :: (gapText gap depth
          ++ (printFields gap depth (h :: hs) ++ (gapText gap d1 ++ '}' :: rest)))))
      have hshape : (printString g.1 ++ colonText gap ++ printValue gap depth g.2
            ++ ',' :: gapText gap depth ++ printFields gap depth (h :: hs))
            ++ (gapText gap d1 ++ '}' :: rest)
          = printString g.1 ++ (colonText gap ++ (printValue gap depth g.2
            ++ ',' :: (gapText gap depth
              ++ (printFields gap depth (h :: hs) ++ (gapText gap d1 ++ '}' :: rest))))) := by
        simp [List.append_assoc]
      rw [hshape, htail, skipSpace_cons '"' _ (by decide)]
      simp only []
      rw [hparse]
      simp only []
      rw [hcolon, skipSpace_cons ':' _ (by decide)]
      simp only []
      rw [parseJsonAux_value_skip f ws _ (skipSpace_spaces ws _ hws)]
      rw [parse_printValue g.2 gap depth f _ hvv (by omega) (numStop_cons ',' _ (by decide))]
      simp only []
      rw [skipSpace_cons ',' _ (by decide)]
      simp only []
      rw [hput]
      have hnodes : nodesFields (h :: hs) ≤ f := by omega
      have hnd' : (((acc ++ [g]) ++ h :: hs).map (fun kv => kv.1)).Nodup := by
        simpa [List.append_assoc] using hnd
      rw [parse_printFields (h :: hs) gap depth depth d1 f (acc ++ [g]) rest (by simp) hvs
        hnodes hnd']
      simp
end

theorem printNumber_length (q : ℚ) : 1 ≤ (printNumber q).length := by
  unfold printNumber
  cases decimalPlaces q.den with
  | none => simp
  | some k =>
    cases k with
    | zero =>
      obtain ⟨c, tail, hhead, _⟩ := printInt_head q.num
      simp only []
      rw [hhead]
      simp
    | succ k =>
      obtain ⟨c, tail, hhead, _⟩ := printInt_head (q.num * ((10 ^ (k + 1) / q.den : Nat) : Int))
      simp only []
      rw [hhead]
      simp

mutual
theorem nodes_le_printValue : ∀ (v : Json) (gap depth : Nat),
    v.nodes + 1 ≤ 2 * (printValue gap depth v).length
  | Json.null, gap, depth => by rw [Json.nodes, printValue]; simp
  | Json.bool b, gap, depth => by rw [Json.nodes, printValue]; cases b <;> simp
  | Json.num q, gap, depth => by
    rw [Json.nodes, printValue]
    have := printNumber_length q
    omega
  | Json.str s, gap, depth => by
    rw [Json.nodes, printValue]
    simp [printString]
  | Json.arr items, gap, depth => by
    rw [Json.nodes, printValue]
    cases items with
    | nil => simp [nodesItems]
    | cons v vs =>
      rw [if_neg (by simp)]
      have := nodes_le_printItems (v :: vs) gap (depth + 1) (by simp)
      simp only [List.length_cons, List.length_append, List.length_nil]
      omega
  | Json.obj fields, gap, depth => by
    rw [Json.nodes, printValue]
    cases fields with
    | nil => simp [nodesFields]
    | cons g gs =>
      rw [if_neg (by simp)]
      have := nodes_le_printFields (g :: gs) gap (depth + 1) (by simp)
      simp only [List.length_cons, List.length_append, List.length_nil]
      omega
theorem nodes_le_printItems : ∀ (items : List Json) (gap depth : Nat), items ≠ [] →
    nodesItems items ≤ 2 * (printItems gap depth items).length
  | [], _, _, hne => absurd rfl hne
  | v :: vs, gap, depth, _ => by
    rw [nodesItems, printItems_cons]
    have hv := nodes_le_printValue v gap depth
    cases vs with
    | nil =>
      rw [if_pos (show ([] : List Json).isEmpty = true from rfl), nodesItems]
      omega
    | cons w ws =>
      rw [if_neg (by simp)]
      have := nodes_le_printItems (w :: ws) gap depth (by simp)
      simp only [List.length_cons, List.length_append]
      omega
theorem nodes_le_printFields : ∀ (fields : List (String × Json)) (gap depth : Nat),
    fields ≠ [] → nodesFields fields ≤ 2 * (printFields gap depth fields).length
  | [], _, _, hne => absurd rfl hne
  | g :: gs, gap, depth, _ => by
    rw [nodesFields, printFields_cons]
    have hv := nodes_le_printValue g.2 gap depth
    cases gs with
    | nil =>
      rw [if_pos (show ([] : List (String × Json)).isEmpty = true from rfl), nodesFields]
      simp only [List.length_append]
      omega
    | cons h hs =>
      rw [if_neg (by simp)]
      have := nodes_le_printFields (h :: hs) gap depth (by simp)
      simp only [List.length_cons, List.length_append]
      omega
end

theorem parseJson_stringifyJson (gap : Nat) (v : Json) (hv : v.valid = true) :
    parseJson (stringifyJson gap v) = some v := by
  have hlen := nodes_le_printValue v gap 0
  have hparse := parse_printValue v gap 0 (2 * (printValue gap 0 v).length + 2) [] hv
    (by omega) numStop_nil
  rw [List.append_nil] at hparse
  unfold parseJson stringifyJson
  show (match parseJsonAux (2 * (printValue gap 0 v).length + 2) ParseMode.value
      (printValue gap 0 v) with
    | some (v, rest) => if skipSpace rest = [] then some v else none
    | none => none) = some v
  rw [hparse]
  rfl

/-! ## Export and encrypted export: lemmas -/

theorem byte_toNat (b : Byte) : (Char.ofNat b.val).toNat = b.val := by
  have hv : b.val.isValidChar := Or.inl (by have := b.isLt; omega)
  simp [Char.ofNat, hv, Char.ofNatAux, Char.toNat, UInt32.toNat]

theorem byte_ofNat (b : Byte) : (Fin.ofNat (Char.ofNat b.val).toNat : Byte) = b := by
  rw [byte_toNat]
  apply Fin.ext
  show b.val % 256 = b.val
  exact Nat.mod_eq_of_lt b.isLt

theorem base64_round_trip (h : CryptoHost)
    (hb64 : ∀ s : String, (∀ c ∈ s.data, c.toNat < 256) → h.atob (h.btoa s) = some s)
    (buffer : List Byte) :
    base64ToArrayBuffer h (arrayBufferToBase64 h buffer) = some buffer := by
  unfold base64ToArrayBuffer arrayBufferToBase64
  rw [hb64]
  · simp only [Option.map_some', List.map_map]
    congr 1
    conv_rhs => rw [← List.map_id buffer]
    apply List.map_congr_left
    intro b _
    exact byte_ofNat b
  · intro c hc
    simp only [List.mem_map] at hc
    obtain ⟨b, _, rfl⟩ := hc
    rw [byte_toNat]
    exact b.isLt

theorem decrypt_encrypt (h : CryptoHost)
    (hb64 : ∀ s : String, (∀ c ∈ s.data, c.toNat < 256) → h.atob (h.btoa s) = some s)
    (salt iv : List Byte) (password other data : String) :
    decrypt h other (encrypt h salt iv password data)
      = (h.aesDecrypt (h.deriveKey (h.encode other) salt) iv
          (h.aesEncrypt (h.deriveKey (h.encode password) salt) iv (h.encode data))).map
            h.decode := by
  have hs : fieldText h ((encrypt h salt iv password data).field "salt")
      = arrayBufferToBase64 h salt := rfl
  have hi : fieldText h ((encrypt h salt iv password data).field "iv")
      = arrayBufferToBase64 h iv := rfl
  have hc : fieldText h ((encrypt h salt iv password data).field "cipher")
      = arrayBufferToBase64 h
          (h.aesEncrypt (h.deriveKey (h.encode password) salt) iv (h.encode data)) := rfl
  unfold decrypt
  rw [hs, hi, hc, base64_round_trip h hb64, base64_round_trip h hb64,
    base64_round_trip h hb64]

theorem isEnvelope_toJson (state : Ledger) : isEnvelope state.toJson = false := rfl

theorem isNull_toJson (state : Ledger) : state.toJson.isNull = false := rfl

theorem clientsReadable_toJson (state : Ledger) : clientsReadable state.toJson = true := by
  show (state.clients.map Client.toJson).all (fun c => !c.isNull) = true
  rw [List.all_eq_true]
  intro c hc
  rw [List.mem_map] at hc
  obtain ⟨client, _, rfl⟩ := hc
  rfl

theorem applyImport_toJson (h : ImportHost) (state : Ledger) (s : RawSession) :
    applyImport h state.toJson s
      = ({ state := (h.renderRest state.toJson).1
           currentInvoice := createEmptyInvoiceRaw state.toJson h.uuid h.today h.due h.now
           storage := some (h.stringify state.toJson) },
          some (if (h.renderRest state.toJson).2 then "Data imported" else "Import failed")) := by
  show (if clientsReadable state.toJson then _ else _) = _
  rw [if_pos (clientsReadable_toJson state)]
  rfl

theorem resolveAll_of_no_sent (getTime : String → Option Int) (clock : Nat → Int)
    (invoices : List Invoice) (h : ∀ inv ∈ invoices, inv.status ≠ "sent") :
    resolveAll getTime clock invoices = invoices := by
  induction invoices generalizing clock with
  | nil => rfl
  | cons inv rest ih =>
    show updateStatus getTime (clock 0) inv :: resolveAll getTime _ rest = _
    rw [updateStatus_of_ne_sent getTime (clock 0) inv (h inv (List.mem_cons_self _ _)),
      ih _ (fun r hr => h r (List.mem_cons_of_mem _ hr))]

theorem renderImported_of_no_sent (getTime : String → Option Int)
    (dashClock histClock : Nat → Int) (state : Ledger)
    (h : ∀ inv ∈ state.invoices, inv.status ≠ "sent") :
    renderImported getTime dashClock histClock state = state := by
  unfold renderImported
  rw [resolveAll_of_no_sent getTime dashClock _ h, resolveAll_of_no_sent getTime histClock _ h]

theorem renderImported_invoices (getTime : String → Option Int)
    (dashClock histClock : Nat → Int) (state : Ledger) :
    List.Forall₂ StatusResolved state.invoices
      (renderImported getTime dashClock histClock state).invoices :=
  forall₂_resolved_trans (resolveAll_resolved getTime dashClock state.invoices)
    (resolveAll_resolved getTime histClock _)

/-- C8. Modelled from the spec, the codec is `stringifyJson` / `parseJson`.  For
every Ledger whose document is one the codec carries (its numbers have a finite
decimal expansion, as every double has), decoding the text `exportState` writes
gives the document of the Ledger back, arrays in their order.  On import the
text is taken for a plain document: no prompt, no decryption, and the decoded
Ledger is assigned to `state` and written to the store, with a fresh working
invoice.  The render steps that follow run the status passes of
`refreshDashboard` and `renderHistory`, so the state at the end of the import is
the Ledger with only the statuses of its invoices resolved; it is the Ledger
itself when no invoice is sent. -/
theorem exportState_import_round_trip (state : Ledger) (hvalid : state.toJson.valid = true) :
    parseJson (exportState state.toJson) = some state.toJson ∧
    (∀ (h : ImportHost) (answer : Option String) (s : RawSession), h.parse = parseJson →
      (importStateFromFile h (exportState state.toJson) answer s).prompted = false ∧
      (importStateFromFile h (exportState state.toJson) answer s).decryptCalled = false ∧
      (importStateFromFile h (exportState state.toJson) answer s).session.state
        = (h.renderRest state.toJson).1 ∧
      (importStateFromFile h (exportState state.toJson) answer s).session.currentInvoice
        = createEmptyInvoiceRaw state.toJson h.uuid h.today h.due h.now ∧
      (importStateFromFile h (exportState state.toJson) answer s).session.storage
        = some (h.stringify state.toJson)) ∧
    (∀ (h : ImportHost) (answer : Option String) (s : RawSession)
        (getTime : String → Option Int) (dashClock histClock : Nat → Int),
      h.parse = parseJson →
      h.renderRest state.toJson
        = ((renderImported getTime dashClock histClock state).toJson, true) →
      (importStateFromFile h (exportState state.toJson) answer s).toast
        = some "Data imported" ∧
      (importStateFromFile h (exportState state.toJson) answer s).session.state
        = (renderImported getTime dashClock histClock state).toJson ∧
      (renderImported getTime dashClock histClock state).clients = state.clients ∧
      (renderImported getTime dashClock histClock state).products = state.products ∧
      (renderImported getTime dashClock histClock state).historyCache = state.historyCache ∧
      List.Forall₂ StatusResolved state.invoices
        (renderImported getTime dashClock histClock state).invoices ∧
      ((∀ inv ∈ state.invoices, inv.status ≠ "sent") →
        (importStateFromFile h (exportState state.toJson) answer s).session.state
          = state.toJson)) := by
  have hcodec : parseJson (exportState state.toJson) = some state.toJson :=
    parseJson_stringifyJson 2 state.toJson hvalid
  have hrun : ∀ (h : ImportHost) (answer : Option String) (s : RawSession),
      h.parse = parseJson →
      importStateFromFile h (exportState state.toJson) answer s
        = { session := (applyImport h state.toJson s).1, prompted := false,
            decryptCalled := false, toast := (applyImport h state.toJson s).2 } := by
    intro h answer s hp
    exact importStateFromFile_plain h _ answer s state.toJson (by rw [hp]; exact hcodec)
      (isNull_toJson state) (isEnvelope_toJson state)
  refine ⟨hcodec, ?_, ?_⟩
  · intro h answer s hp
    rw [hrun h answer s hp, applyImport_toJson]
    exact ⟨rfl, rfl, rfl, rfl, rfl⟩
  · intro h answer s getTime dashClock histClock hp hrender
    rw [hrun h answer s hp, applyImport_toJson, hrender]
    refine ⟨rfl, rfl, rfl, rfl, rfl, renderImported_invoices _ _ _ _, ?_⟩
    intro hsent
    show (renderImported getTime dashClock histClock state).toJson = state.toJson
    rw [renderImported_of_no_sent _ _ _ _ hsent]

end InvoiceCraft
